import Mathlib

/-! DocxHandler: pagination and page rendering.

A shallow embedding of the three `DocxHandler` variants
(`pagination-focused-docx-handler.js`, `updated-docx-handler.js`,
`enhanced-docx-handler.js`).

The converted HTML content is a container element whose child nodes are the
top-level blocks.  A page region is the list of blocks cloned into it.
-/

namespace DocxHandler

/-! ## Content model -/

/-- A child node of the content container, with the DOM queries the handlers run on it. -/
structure Node where
  /-- DOM `nodeName` ("P", "IMG", "HR", "TABLE", "H1", "#text", ...). -/
  nodeName : String
  /-- DOM `classList`. -/
  classList : List String
  /-- Number of descendant `img` elements: `querySelectorAll('img').length`. -/
  imgs : Nat
  /-- Number of descendant `tr` elements: `querySelectorAll('tr').length`. -/
  rows : Nat
  /-- Length of `textContent`. -/
  textLength : Nat
  /-- Opaque reference to the node's markup. -/
  payload : Nat
  /-- Number of descendant elements: `querySelectorAll('*').length`. -/
  elements : Nat := 0
  deriving DecidableEq, Repr

/-- A page region: the blocks appended to one page container, in order. -/
abbrev Region := List Node

/-- `DEFAULT_WIDTH` of pagination-focused-docx-handler.js. -/
def DEFAULT_WIDTH : Nat := 816

/-- `DEFAULT_HEIGHT` of pagination-focused-docx-handler.js. -/
def DEFAULT_HEIGHT : Nat := 1056

/-- `DEFAULT_MARGIN` of pagination-focused-docx-handler.js. -/
def DEFAULT_MARGIN : Nat := 96

/-- `CONTENT_HEIGHT = DEFAULT_HEIGHT - (DEFAULT_MARGIN * 2)`. -/
def CONTENT_HEIGHT : Nat := DEFAULT_HEIGHT - (DEFAULT_MARGIN * 2)

/-- `MAX_IMAGES_PER_PAGE`. -/
def MAX_IMAGES_PER_PAGE : Nat := 5

/-- The test `node.nodeName === 'HR' && node.classList.contains('page-break')`; the same
nodes are the top-level matches of the selector `hr.page-break`. -/
def isPageBreak (node : Node) : Bool :=
  node.nodeName == "HR" && node.classList.contains "page-break"

/-- The test `nodeName === 'IMG' || (nodeName === 'P' && querySelector('img'))`. -/
def isImage (node : Node) : Bool :=
  node.nodeName == "IMG" || (node.nodeName == "P" && decide (0 < node.imgs))

/-- Number of image blocks among the top-level blocks of a region. -/
def imageBlocks (r : Region) : Nat := (r.filter isImage).length

/-- Number of `img` elements inside a page container holding the blocks `r`:
`pageContent.querySelectorAll('img').length`. -/
def imgElements (r : Region) : Nat :=
  (r.map (fun n => (if n.nodeName == "IMG" then 1 else 0) + n.imgs)).sum

/-- The per-element height estimate of `createAutomaticPagination`. -/
def elementHeight (element : Node) : Nat :=
  if isImage element then 200
  else if element.nodeName == "TABLE" then element.rows * 30 + 50
  else if element.nodeName == "H1" then 60
  else if element.nodeName == "H2" then 45
  else if element.nodeName == "P" then ((element.textLength + 79) / 80) * 20 + 10
  else 30

/-- Sum of the estimated heights of the blocks of a region. -/
def totalEstimatedHeight (r : Region) : Nat := (r.map elementHeight).sum

/-! ## Explicit breaks: updated-docx-handler.js, `processMammothFallback` -/

/-- Loop state of the explicit-break branch: `pageContents` and `currentContent`. -/
structure BreakSplit where
  pageContents : List Region
  currentContent : Region
  deriving DecidableEq, Repr

/-- Body of `Array.from(container.childNodes).forEach(node => ...)` (lines 342-351). -/
def BreakSplit.step (s : BreakSplit) (node : Node) : BreakSplit :=
  if isPageBreak node then
    { pageContents := s.pageContents ++ [s.currentContent], currentContent := [] }
  else
    { s with currentContent := s.currentContent ++ [node] }

/-- The `forEach` loop started in state `s`, followed by `pageContents.push(currentContent)`
(lines 342-354). -/
def BreakSplit.run (s : BreakSplit) (nodes : List Node) : List Region :=
  let t := nodes.foldl BreakSplit.step s
  t.pageContents ++ [t.currentContent]

/-- The explicit-break split of `processMammothFallback` (lines 338-354). -/
def splitAtPageBreaks (childNodes : List Node) : List Region :=
  BreakSplit.run { pageContents := [], currentContent := [] } childNodes

/-! ## Explicit breaks: pagination-focused-docx-handler.js -/

/-- The matches of `querySelectorAll('hr.page-break')` among the child nodes, in document
order.  An element is referred to by its position among `childNodes`. -/
def pageBreakPositions : List Node → Nat → List Nat
  | [], _ => []
  | n :: rest, i =>
    if isPageBreak n then i :: pageBreakPositions rest (i + 1) else pageBreakPositions rest (i + 1)

/-- `tempDiv.querySelectorAll('hr.page-break')` for content whose markers are child nodes. -/
def querySelectorAllPageBreak (childNodes : List Node) : List Nat :=
  pageBreakPositions childNodes 0

/-- The loop `while (currentNode && currentNode !== end)` (lines 148-152): `nodes` are the
siblings from `currentNode` on, `cur` is the position of `currentNode`. -/
def collectUntil : List Node → Nat → Option Nat → Region
  | [], _, _ => []
  | n :: rest, cur, stop =>
    if some cur = stop then [] else n :: collectUntil rest (cur + 1) stop

/-- One iteration of the `for` loop of `createPagesFromExplicitBreaks` up to the image check:
the page content between `start` (or the first child) and `stop` (or the end). -/
def pageContentBetween (childNodes : List Node) (start stop : Option Nat) : Region :=
  match start with
  | none => collectUntil childNodes 0 stop
  | some s => collectUntil (childNodes.drop (s + 1)) (s + 1) stop

/-- The iterations `i, i+1, ...` of the `for` loop over `breakElements`: `start` is
`breakElements[i]` and `later` are the entries after it. -/
def regionsFrom (childNodes : List Node) : Option Nat → List Nat → List Region
  | start, [] => [pageContentBetween childNodes start none]
  | start, b :: later =>
    pageContentBetween childNodes start (some b) :: regionsFrom childNodes (some b) later

/-- The page contents built by `createPagesFromExplicitBreaks` before the image check;
`breakElements` is `pageBreaks` with `null` put in front. -/
def explicitBreakRegions (childNodes : List Node) (pageBreaks : List Nat) : List Region :=
  regionsFrom childNodes none pageBreaks

/-! ## Image sub-splitting: `splitContentByImageCount` -/

/-- Loop state of `splitContentByImageCount`. -/
structure ImageSplit where
  subPages : List Region
  currentPage : Region
  imageCounter : Nat
  deriving DecidableEq, Repr

/-- Body of the `forEach` of `splitContentByImageCount` (lines 242-259). -/
def ImageSplit.step (s : ImageSplit) (node : Node) : ImageSplit :=
  if isImage node then
    if s.imageCounter + 1 > MAX_IMAGES_PER_PAGE ∧ s.currentPage.length > 0 then
      { subPages := s.subPages ++ [s.currentPage], currentPage := [node], imageCounter := 1 }
    else
      { s with currentPage := s.currentPage ++ [node], imageCounter := s.imageCounter + 1 }
  else
    { s with currentPage := s.currentPage ++ [node] }

/-- The closing `if (currentPage.childNodes.length > 0) subPages.push(currentPage)`. -/
def ImageSplit.finish (s : ImageSplit) : List Region :=
  if s.currentPage.length > 0 then s.subPages ++ [s.currentPage] else s.subPages

/-- `splitContentByImageCount(content)`. -/
def splitContentByImageCount (content : Region) : List Region :=
  (content.foldl ImageSplit.step { subPages := [], currentPage := [], imageCounter := 0 }).finish

/-- `createPagesFromExplicitBreaks(contentDiv, pageBreaks)`: the value of `pageContents`. -/
def createPagesFromExplicitBreaks (childNodes : List Node) (pageBreaks : List Nat) :
    List Region :=
  (explicitBreakRegions childNodes pageBreaks).flatMap fun pageContent =>
    if imgElements pageContent > MAX_IMAGES_PER_PAGE then splitContentByImageCount pageContent
    else [pageContent]

/-! ## Automatic pagination: `createAutomaticPagination` -/

/-- Loop state of `createAutomaticPagination`. -/
structure AutoPagination where
  pageContents : List Region
  currentPage : Region
  imageCounter : Nat
  estimatedHeight : Nat
  deriving DecidableEq, Repr

/-- Body of `allElements.forEach(element => ...)` (lines 181-228). -/
def AutoPagination.step (s : AutoPagination) (element : Node) : AutoPagination :=
  let imageCounter := if isImage element then s.imageCounter + 1 else s.imageCounter
  let estimatedHeight := s.estimatedHeight + elementHeight element
  if (imageCounter > MAX_IMAGES_PER_PAGE ∨ estimatedHeight > CONTENT_HEIGHT)
      ∧ s.currentPage.length > 0 then
    { pageContents := s.pageContents ++ [s.currentPage]
      currentPage := [element]
      imageCounter := if isImage element then 1 else 0
      estimatedHeight := elementHeight element }
  else
    { pageContents := s.pageContents
      currentPage := s.currentPage ++ [element]
      imageCounter := imageCounter
      estimatedHeight := estimatedHeight }

/-- The closing `if (currentPage.childNodes.length > 0) pageContents.push(...)`. -/
def AutoPagination.finish (s : AutoPagination) : List Region :=
  if s.currentPage.length > 0 then s.pageContents ++ [s.currentPage] else s.pageContents

/-- `createAutomaticPagination(contentDiv)`: the value of `pageContents` afterwards. -/
def createAutomaticPagination (childNodes : List Node) : List Region :=
  (childNodes.foldl AutoPagination.step
    { pageContents := [], currentPage := [], imageCounter := 0, estimatedHeight := 0 }).finish

/-! ## Sample content -/

/-- A paragraph of `len` characters without images. -/
def para (payload len : Nat) : Node :=
  { nodeName := "P", classList := [], imgs := 0, rows := 0, textLength := len, payload := payload }

/-- A paragraph holding a single image. -/
def imagePara (payload : Nat) : Node :=
  { nodeName := "P", classList := [], imgs := 1, rows := 0, textLength := 0, payload := payload }

/-- The marker `<hr class="page-break">`. -/
def pageBreakMarker : Node :=
  { nodeName := "HR", classList := ["page-break"], imgs := 0, rows := 0, textLength := 0,
    payload := 0 }

/-! ## Raster surfaces, the output canvas and JavaScript arrays -/

/-- The copy `pageDiv` of the whole converted content from which page `index` is rasterized
when the content has no page-break element, given by the styles assigned to it
(updated-docx-handler.js lines 264-271, enhanced-docx-handler.js lines 318-328): `height`,
`top`, and the rectangle `rect(clipTop, clipRight, clipBottom, clipLeft)` of `clip`. -/
structure PageWindow where
  index : Nat
  height : ℚ
  top : ℚ
  clipTop : ℚ
  clipRight : ℚ
  clipBottom : ℚ
  clipLeft : ℚ
  deriving DecidableEq, Repr

/-- What a page surface was produced from. -/
inductive Source where
  /-- `html2canvas` of the docx-preview page element number `index`. -/
  | pageElement (index : Nat)
  /-- `html2canvas` of a page container holding `content`; `serial` numbers the call. -/
  | region (content : Region) (serial : Nat)
  /-- `html2canvas` of the copy `pageDiv` of the whole content, styled to show one window
  of it. -/
  | window (pageDiv : PageWindow)
  /-- The page drawn in place of a failed rasterization, labelled with page `index + 1`. -/
  | errorPage (index : Nat)
  /-- A blank white page. -/
  | blank
  /-- `html2canvas` of a copy of the whole content in which only the elements at positions
  `startPos .. endPos - 1` of `querySelectorAll('*')` are left displayed. -/
  | elementRange (startPos endPos : Nat)
  deriving DecidableEq, Repr

/-- An off-screen page surface (a canvas element holding one rendered page). -/
structure Canvas where
  width : Nat
  height : Nat
  source : Source
  deriving DecidableEq, Repr

/-- A call on the 2d context of the output canvas. -/
inductive CtxOp where
  | save
  | restore
  | translate (x y : ℚ)
  /-- `ctx.rotate(rotation * Math.PI / 180)`, recorded by its angle in degrees. -/
  | rotate (degrees : ℚ)
  | scale (x y : ℚ)
  | fillRect (x y w h : ℚ)
  | drawImage (image : Canvas) (dx dy : ℚ)
  deriving DecidableEq, Repr

/-- The output canvas: its dimensions, which are whole numbers, and the context calls made
since its bitmap was last reset (assigning `width` or `height` resets the bitmap and the
context state). -/
structure OutputCanvas where
  width : Nat
  height : Nat
  ops : List CtxOp
  deriving DecidableEq, Repr

/-- The value that the attribute `width` or `height` of a canvas element holds after the
number `x` has been assigned to it: the attribute holds whole numbers, and the number is
truncated.  Numbers that are negative or not below 2^31, which the attribute does not hold
as they are, lie outside this model. -/
def canvasDimension (x : ℚ) : Nat :=
  ⌊x⌋.toNat

/-- `canvas.width = w; canvas.height = h`. -/
def OutputCanvas.resize (_c : OutputCanvas) (w h : ℚ) : OutputCanvas :=
  { width := canvasDimension w, height := canvasDimension h, ops := [] }

/-- A sequence of context calls on the canvas. -/
def OutputCanvas.draw (c : OutputCanvas) (calls : List CtxOp) : OutputCanvas :=
  { c with ops := c.ops ++ calls }

/-- The assignment `arr[i] = v` on a JavaScript array, which may leave holes. -/
def arrayAssign {α : Type} (arr : List (Option α)) (i : Nat) (v : α) : List (Option α) :=
  if i < arr.length then arr.set i (some v)
  else arr ++ List.replicate (i - arr.length) none ++ [some v]

/-- The read `arr[i]`; `none` stands for `undefined`. -/
def arrayAt {α : Type} (arr : List (Option α)) (i : Int) : Option α :=
  if i < 0 then none else arr.getD i.toNat none

/-- `Math.max(0, Math.min(index, length - 1))`. -/
def clampIndex (index : Int) (length : Nat) : Int :=
  max 0 (min index ((length : Int) - 1))

/-- State of a promise. -/
inductive Promise where
  | pending
  | resolved
  | rejected
  deriving DecidableEq, Repr

/-- The argument passed to an `onCompletion` callback. -/
inductive Completion where
  | ok
  | error (message : String)
  deriving DecidableEq, Repr

/-- `self.DPI`. -/
def DPI : Nat := 96

/-- An entry pushed by `createCanvases`: `canvas.cloneNode(true)`, a new canvas element
with the `width` and `height` attributes of the output canvas and an empty bitmap, and
`originalDocumentDpi`. -/
structure Snapshot where
  width : Nat
  height : Nat
  originalDocumentDpi : Nat
  deriving DecidableEq, Repr

/-- Result of `mammoth.convertToHtml`: a rejection, or the child nodes of the container
holding the converted markup together with the container's `scrollHeight`. -/
inductive Mammoth where
  | rejects
  | resolves (childNodes : List Node) (scrollHeight : Nat)
  deriving DecidableEq, Repr

/-- Margins of `pageSettings`. -/
structure Margins where
  top : ℚ
  right : ℚ
  bottom : ℚ
  left : ℚ
  deriving DecidableEq, Repr

/-- The `pageSettings` object of updated-docx-handler.js and enhanced-docx-handler.js; its
numbers are pixels and need not be whole. -/
structure PageSettings where
  width : ℚ
  height : ℚ
  margins : Margins
  deriving DecidableEq, Repr

/-- `contentPerPage = pageSettings.height - pageSettings.margins.top -
pageSettings.margins.bottom`. -/
def PageSettings.contentPerPage (ps : PageSettings) : ℚ :=
  ps.height - ps.margins.top - ps.margins.bottom

/-- The page container of page `i` in the branch for content without page-break elements:
`pageDiv.style.height`, `pageDiv.style.top` and `pageDiv.style.clip` as assigned in the loop
over `i`. -/
def pageWindow (settings : PageSettings) (i : Nat) : PageWindow :=
  let contentPerPage := settings.height - settings.margins.top - settings.margins.bottom
  { index := i
    height := contentPerPage
    top := -((i : ℚ) * contentPerPage)
    clipTop := (i : ℚ) * contentPerPage
    clipRight := settings.width
    clipBottom := ((i : ℚ) + 1) * contentPerPage
    clipLeft := 0 }

/-- State of a `DocxHandler` of updated-docx-handler.js or enhanced-docx-handler.js. -/
structure State where
  currPageIndex : Int
  documentPages : List (Option Canvas)
  documentLoaded : Bool
  pageSettings : PageSettings
  canvas : OutputCanvas
  deriving DecidableEq, Repr

/-- The state set up by the constructor `DocxHandler(canvas)`. -/
def State.initial (canvas : OutputCanvas) : State :=
  { currPageIndex := 0
    documentPages := []
    documentLoaded := false
    pageSettings :=
      { width := 816, height := 1056,
        margins := { top := DPI, right := DPI, bottom := DPI, left := DPI } }
    canvas := canvas }

/-- `pageCount()`: `documentPages.length || 1`. -/
def State.pageCount (st : State) : Nat :=
  if st.documentPages.length = 0 then 1 else st.documentPages.length

/-! ## updated-docx-handler.js: loading -/

namespace Updated

/-- `renderPageElement(pageElement, index)` once its promise has settled: `fails index` tells
whether `html2canvas` rejected.  The rasterizer returns a surface of the requested size, in
whole pixels as the size of the blank canvas is. -/
def renderPageElement (fails : Nat → Bool) (st : State) (index : Nat) : State :=
  let surface (source : Source) : Canvas :=
    { width := canvasDimension st.pageSettings.width,
      height := canvasDimension st.pageSettings.height, source := source }
  if fails index then
    { st with documentPages := arrayAssign st.documentPages index
                (surface (Source.errorPage index)) }
  else
    { st with documentPages := arrayAssign st.documentPages index
                (surface (Source.pageElement index)) }

/-- `batchSize`. -/
def batchSize : Nat := 3

/-- `processNextBatch` (lines 163-193).  `settle batch` is the order in which the render
promises of a batch settle; `batches` records the batches started so far.  The recursion
through `setTimeout` is bounded by `fuel`. -/
def processNextBatch (fails : Nat → Bool) (settle : List Nat → List Nat) (totalPages : Nat) :
    Nat → Nat → State → List (List Nat) → Option (State × List (List Nat))
  | 0, _, _, _ => none
  | fuel + 1, currentBatch, st, batches =>
    let startIdx := currentBatch * batchSize
    let endIdx := min (startIdx + batchSize) totalPages
    if startIdx ≥ totalPages then
      some ({ st with documentLoaded := true }, batches)
    else
      let batch := List.range' startIdx (endIdx - startIdx)
      processNextBatch fails settle totalPages fuel (currentBatch + 1)
        ((settle batch).foldl (renderPageElement fails) st) (batches ++ [batch])

/-- `Math.max(1, Math.ceil(contentHeight / contentPerPage))`; `none` when the quotient is
`Infinity` or `NaN` (`contentPerPage = 0`). -/
def estimatedPageCount (contentHeight : Nat) (contentPerPage : ℚ) : Option Nat :=
  if contentPerPage > 0 then some (max 1 ⌈(contentHeight : ℚ) / contentPerPage⌉₊)
  else if contentPerPage < 0 then some 1
  else none

/-- `processMammothFallback()` (lines 214-454): the state once every page has been rendered
and the state of the returned promise.  `fails i` tells whether `html2canvas` rejected for
page `i`; each callback writes `pages[i]`, and the last one stores `pages`. -/
def processMammothFallback (st : State) (mammoth : Mammoth) (fails : Nat → Bool) :
    State × Promise :=
  match mammoth with
  | Mammoth.rejects => (st, Promise.rejected)
  | Mammoth.resolves childNodes scrollHeight =>
    let contentPerPage : ℚ :=
      st.pageSettings.height - st.pageSettings.margins.top - st.pageSettings.margins.bottom
    let page (source : Source) (i : Nat) : Option Canvas :=
      some { width := canvasDimension st.pageSettings.width,
             height := canvasDimension st.pageSettings.height,
             source := if fails i then Source.blank else source }
    if (querySelectorAllPageBreak childNodes).length = 0 then
      match estimatedPageCount scrollHeight contentPerPage with
      | none => (st, Promise.pending)
      | some count =>
        let pages := (List.range count).map fun i =>
          page (Source.window (pageWindow st.pageSettings i)) i
        ({ st with documentPages := pages, documentLoaded := true }, Promise.resolved)
    else
      let pages := (splitAtPageBreaks childNodes).enum.map fun p =>
        page (Source.region p.2 p.1) p.1
      ({ st with documentPages := pages, documentLoaded := true }, Promise.resolved)

/-- Outcome of `docx.renderAsync`: it throws, its promise rejects, or it resolves with a
container holding `pageElements` elements of class `docx-page`, the first of computed
size `firstWidth` by `firstHeight`, in whole pixels. -/
inductive RenderAsync where
  | throws
  | rejects
  | resolves (pageElements : Nat) (firstWidth firstHeight : Nat)
  deriving DecidableEq, Repr

/-- A call of a pagination strategy. -/
inductive Strategy where
  | docxPreview
  | mammothFallback
  deriving DecidableEq, Repr

/-- What `processDocument` did: the final state, the state of the returned promise, the
strategies called in order, the promise returned by the fallback if it was called, and
the batches run. -/
structure Load where
  state : State
  promise : Promise
  calls : List Strategy
  fallbackPromise : Option Promise
  batches : List (List Nat)
  deriving DecidableEq, Repr

/-- The handler `processMammothFallback().then(resolve).catch(reject)`. -/
def viaFallback (st : State) (mammoth : Mammoth) (fallbackFails : Nat → Bool) : Load :=
  let r := processMammothFallback st mammoth fallbackFails
  { state := r.1, promise := r.2,
    calls := [Strategy.docxPreview, Strategy.mammothFallback],
    fallbackPromise := some r.2, batches := [] }

/-- `processDocument()` (lines 65-209). -/
def processDocument (st : State) (primary : RenderAsync) (fails : Nat → Bool)
    (settle : List Nat → List Nat) (mammoth : Mammoth) (fallbackFails : Nat → Bool) : Load :=
  match primary with
  | RenderAsync.throws => viaFallback st mammoth fallbackFails
  | RenderAsync.rejects => viaFallback st mammoth fallbackFails
  | RenderAsync.resolves pageElements firstWidth firstHeight =>
    if pageElements = 0 then viaFallback st mammoth fallbackFails
    else
      let settings : PageSettings :=
        { st.pageSettings with width := firstWidth, height := firstHeight }
      let st1 : State := { st with pageSettings := settings }
      match processNextBatch fails settle pageElements (pageElements + 1) 0 st1 [] with
      | some r =>
        { state := r.1, promise := Promise.resolved, calls := [Strategy.docxPreview],
          fallbackPromise := none, batches := r.2 }
      | none =>
        { state := st1, promise := Promise.pending, calls := [Strategy.docxPreview],
          fallbackPromise := none, batches := [] }

end Updated

/-! ## updated-docx-handler.js and enhanced-docx-handler.js: drawing -/

/-- The context calls with which every `redraw` puts a page surface on the sized output
canvas: the rotation branch, or the plain scaled draw. -/
def pageDrawCalls (pageCanvas : Canvas) (scale rotation canvasWidth canvasHeight : ℚ) :
    List CtxOp :=
  if rotation ≠ 0 then
    [CtxOp.save, CtxOp.translate (canvasWidth / 2) (canvasHeight / 2), CtxOp.rotate rotation,
      CtxOp.scale scale scale,
      CtxOp.drawImage pageCanvas (-(pageCanvas.width : ℚ) / 2) (-(pageCanvas.height : ℚ) / 2),
      CtxOp.restore]
  else
    [CtxOp.scale scale scale, CtxOp.drawImage pageCanvas 0 0]

/-- `redraw(scale, rotation, index, onCompletion)` of updated-docx-handler.js (lines
491-539): the new state and the argument given to `onCompletion`. -/
def Updated.redraw (st : State) (scale rotation : ℚ) (index : Int) : State × Completion :=
  if st.documentLoaded = false ∨ st.documentPages.length = 0 then
    (st, Completion.error "Document not loaded or has no pages")
  else
    let index := clampIndex index st.documentPages.length
    let st1 : State := { st with currPageIndex := index }
    match arrayAt st.documentPages index with
    | none => (st1, Completion.error "Page not rendered")
    | some pageCanvas =>
      let sized := st.canvas.resize (pageCanvas.width * scale) (pageCanvas.height * scale)
      let drawn := sized.draw (CtxOp.fillRect 0 0 sized.width sized.height ::
        pageDrawCalls pageCanvas scale rotation sized.width sized.height)
      ({ st1 with canvas := drawn }, Completion.ok)

/-- `redraw(scale, rotation, index, onCompletion)` of enhanced-docx-handler.js (lines
482-535). -/
def Enhanced.redraw (st : State) (scale rotation : ℚ) (index : Int) : State × Completion :=
  if st.documentLoaded = false then
    (st, Completion.error "Document not loaded")
  else if index < 0 ∨ index ≥ st.documentPages.length then
    (st, Completion.error "Invalid page index")
  else
    let st1 : State := { st with currPageIndex := index }
    match arrayAt st.documentPages index with
    | none => (st1, Completion.error "Page not rendered")
    | some pageCanvas =>
      let cleared := st.canvas.draw [CtxOp.fillRect 0 0 st.canvas.width st.canvas.height]
      let sized := cleared.resize (pageCanvas.width * scale) (pageCanvas.height * scale)
      let drawn := sized.draw (pageDrawCalls pageCanvas scale rotation sized.width sized.height)
      ({ st1 with canvas := drawn }, Completion.ok)

/-- `drawDocument(scale, rotation, onCompletion)` of updated-docx-handler.js. -/
def Updated.drawDocument (st : State) (scale rotation : ℚ) : State × Completion :=
  Updated.redraw st scale rotation st.currPageIndex

/-- `drawDocument(scale, rotation, onCompletion)` of enhanced-docx-handler.js. -/
def Enhanced.drawDocument (st : State) (scale rotation : ℚ) : State × Completion :=
  Enhanced.redraw st scale rotation st.currPageIndex

/-- Progress of `createCanvases`: the handler state, the local `canvases` and `completed`,
and the argument of every invocation of `callback` so far. -/
structure Export (σ : Type) where
  state : σ
  canvases : List Snapshot
  completed : Nat
  callbacks : List (List Snapshot)

/-- The callback `createCanvases` hands to `redraw`: push a clone of the output canvas,
count it, and call `callback(canvases)` when `completed` reaches `expected`. -/
def Export.complete {σ : Type} (e : Export σ) (st : σ) (canvas : OutputCanvas)
    (expected : Int) : Export σ :=
  let canvases := e.canvases ++
    [{ width := canvas.width, height := canvas.height, originalDocumentDpi := DPI }]
  { state := st
    canvases := canvases
    completed := e.completed + 1
    callbacks :=
      if ((e.completed + 1 : Nat) : Int) = expected then e.callbacks ++ [canvases]
      else e.callbacks }

/-- The values `fromPage, fromPage + 1, ..., toPage` of the loop variable. -/
def loopIndices (fromPage toPage : Int) : List Int :=
  (List.range (toPage - fromPage + 1).toNat).map fun (k : Nat) => fromPage + (k : Int)

/-- `createCanvases(callback, dpiCalcFunction, fromPage, pageCount)` as written in
updated-docx-handler.js (lines 551-567) and enhanced-docx-handler.js (lines 546-562), over
the `redraw` of the handler. -/
def createCanvasesWith (redraw : State → ℚ → ℚ → Int → State × Completion) (st : State)
    (fromPage pageCount : Int) : Export State :=
  let toPage : Int := min (st.documentPages.length : Int) (fromPage + pageCount - 1)
  (loopIndices fromPage toPage).foldl
    (fun e i =>
      let r := redraw e.state 1 0 i
      e.complete r.1 r.1.canvas (toPage - fromPage + 1))
    { state := st, canvases := [], completed := 0, callbacks := [] }

/-- `createCanvases` of updated-docx-handler.js. -/
def Updated.createCanvases (st : State) (fromPage pageCount : Int) : Export State :=
  createCanvasesWith Updated.redraw st fromPage pageCount

/-- `createCanvases` of enhanced-docx-handler.js. -/
def Enhanced.createCanvases (st : State) (fromPage pageCount : Int) : Export State :=
  createCanvasesWith Enhanced.redraw st fromPage pageCount

/-- A drawing request made by a caller of the handler. -/
inductive DrawOp where
  | redraw (scale rotation : ℚ) (index : Int)
  | drawDocument (scale rotation : ℚ)
  | createCanvases (fromPage pageCount : Int)
  deriving DecidableEq, Repr

/-- The state of updated-docx-handler.js after a drawing request. -/
def Updated.perform (st : State) : DrawOp → State
  | DrawOp.redraw scale rotation index => (Updated.redraw st scale rotation index).1
  | DrawOp.drawDocument scale rotation => (Updated.drawDocument st scale rotation).1
  | DrawOp.createCanvases fromPage pageCount =>
    (Updated.createCanvases st fromPage pageCount).state

/-- The state of enhanced-docx-handler.js after a drawing request. -/
def Enhanced.perform (st : State) : DrawOp → State
  | DrawOp.redraw scale rotation index => (Enhanced.redraw st scale rotation index).1
  | DrawOp.drawDocument scale rotation => (Enhanced.drawDocument st scale rotation).1
  | DrawOp.createCanvases fromPage pageCount =>
    (Enhanced.createCanvases st fromPage pageCount).state

/-- The active page index lies in `[0, pageCount() - 1]`. -/
def State.indexInRange (st : State) : Prop :=
  0 ≤ st.currPageIndex ∧ st.currPageIndex ≤ (st.pageCount : Int) - 1

/-! ## pagination-focused-docx-handler.js: loading and drawing -/

namespace Focused

/-- State of a `DocxHandler` of pagination-focused-docx-handler.js; `html2canvasCalls`
counts the calls of the rasterizer. -/
structure State where
  currPageIndex : Int
  pageContents : List Region
  renderedPages : List (Option Canvas)
  canvas : OutputCanvas
  html2canvasCalls : Nat
  deriving DecidableEq, Repr

/-- The state set up by the constructor `DocxHandler(canvas)`. -/
def State.initial (canvas : OutputCanvas) : State :=
  { currPageIndex := 0, pageContents := [], renderedPages := [], canvas := canvas,
    html2canvasCalls := 0 }

/-- `pageCount()`: `pageContents.length || 1`. -/
def State.pageCount (st : State) : Nat :=
  if st.pageContents.length = 0 then 1 else st.pageContents.length

/-- The active page index lies in `[0, pageCount() - 1]`. -/
def State.indexInRange (st : State) : Prop :=
  0 ≤ st.currPageIndex ∧ st.currPageIndex ≤ (st.pageCount : Int) - 1

/-- `processWithMammoth()` (lines 65-127), to which `processDocument` delegates: the state
and the returned promise. -/
def processWithMammoth (st : State) (mammoth : Mammoth) : State × Promise :=
  match mammoth with
  | Mammoth.rejects => (st, Promise.rejected)
  | Mammoth.resolves childNodes _ =>
    let pageBreaks := querySelectorAllPageBreak childNodes
    if pageBreaks.length > 0 then
      ({ st with pageContents := createPagesFromExplicitBreaks childNodes pageBreaks },
        Promise.resolved)
    else
      ({ st with pageContents := createAutomaticPagination childNodes }, Promise.resolved)

/-- A rasterization that `redraw` has started and that has not settled yet. -/
structure Job where
  index : Nat
  content : Region
  scale : ℚ
  rotation : ℚ
  deriving DecidableEq, Repr

/-- How the synchronous part of `redraw` ends. -/
inductive Started where
  | done (completion : Completion)
  | awaiting (job : Job)
  deriving DecidableEq, Repr

/-- The synchronous part of `redraw` (lines 310-375): the guard, the clamp, the cache
lookup, and the set-up of the page container. -/
def redrawStart (st : State) (scale rotation : ℚ) (index : Int) : State × Started :=
  if st.pageContents.length = 0 then
    (st, Started.done (Completion.error "No pages available"))
  else
    let index := clampIndex index st.pageContents.length
    let st1 : State := { st with currPageIndex := index }
    match arrayAt st.renderedPages index with
    | some cached =>
      let sized := st.canvas.resize (cached.width * scale) (cached.height * scale)
      let drawn := sized.draw [CtxOp.scale scale scale, CtxOp.drawImage cached 0 0]
      ({ st1 with canvas := drawn }, Started.done Completion.ok)
    | none =>
      (st1, Started.awaiting
        { index := index.toNat, content := st.pageContents.getD index.toNat [],
          scale := scale, rotation := rotation })

/-- The asynchronous part of `redraw` (lines 376-448): `html2canvas` is called on the page
container; `fails` tells whether the chain is rejected. -/
def redrawFinish (st : State) (job : Job) (fails : Bool) : State × Completion :=
  if fails then
    let errorCanvas : Canvas :=
      { width := DEFAULT_WIDTH, height := DEFAULT_HEIGHT, source := Source.errorPage job.index }
    let sized := st.canvas.resize (DEFAULT_WIDTH * job.scale) (DEFAULT_HEIGHT * job.scale)
    let drawn := sized.draw [CtxOp.scale job.scale job.scale, CtxOp.drawImage errorCanvas 0 0]
    ({ st with renderedPages := arrayAssign st.renderedPages job.index errorCanvas
               canvas := drawn
               html2canvasCalls := st.html2canvasCalls + 1 },
      Completion.error "html2canvas failed")
  else
    let renderedCanvas : Canvas :=
      { width := DEFAULT_WIDTH, height := DEFAULT_HEIGHT,
        source := Source.region job.content st.html2canvasCalls }
    let sized := st.canvas.resize (renderedCanvas.width * job.scale)
      (renderedCanvas.height * job.scale)
    let drawn := sized.draw
      (pageDrawCalls renderedCanvas job.scale job.rotation sized.width sized.height)
    ({ st with renderedPages := arrayAssign st.renderedPages job.index renderedCanvas
               canvas := drawn
               html2canvasCalls := st.html2canvasCalls + 1 },
      Completion.ok)

/-- A `redraw` whose rasterization, if any, settles before anything else happens. -/
def redraw (st : State) (scale rotation : ℚ) (index : Int) (fails : Bool) :
    State × Completion :=
  match redrawStart st scale rotation index with
  | (st1, Started.done completion) => (st1, completion)
  | (st1, Started.awaiting job) => redrawFinish st1 job fails

/-- `drawDocument(scale, rotation, onCompletion)`. -/
def drawDocument (st : State) (scale rotation : ℚ) (fails : Bool) : State × Completion :=
  redraw st scale rotation st.currPageIndex fails

/-- Progress of the `for` loop of `createCanvases`: the export so far and the jobs that were
started and have not settled. -/
structure Loop where
  progress : Export State
  jobs : List Job

/-- `createCanvases(callback, dpiCalcFunction, fromPage, pageCount)` (lines 517-542): the
loop issues every `redraw`; the rasterizations that it started settle afterwards in the
order `settle jobs`, `fails` telling which are rejected. -/
def createCanvases (st : State) (fromPage pageCount : Int) (settle : List Job → List Job)
    (fails : Nat → Bool) : Export State :=
  if st.pageContents.length = 0 then
    { state := st, canvases := [], completed := 0, callbacks := [[]] }
  else
    let toPage : Int := min ((st.pageContents.length : Int) - 1) (fromPage + pageCount - 1)
    let issued : Loop := (loopIndices fromPage toPage).foldl
      (fun l i =>
        match redrawStart l.progress.state 1 0 i with
        | (st1, Started.done _) =>
          { progress := l.progress.complete st1 st1.canvas (toPage - fromPage + 1),
            jobs := l.jobs }
        | (st1, Started.awaiting job) =>
          { progress := { l.progress with state := st1 }, jobs := l.jobs ++ [job] })
      { progress := { state := st, canvases := [], completed := 0, callbacks := [] },
        jobs := [] }
    (settle issued.jobs).foldl
      (fun e job =>
        let r := redrawFinish e.state job (fails job.index)
        e.complete r.1 r.1.canvas (toPage - fromPage + 1))
      issued.progress

/-- A drawing request made by a caller of the handler, with the outcome of the
rasterizations it starts. -/
inductive Op where
  | redraw (scale rotation : ℚ) (index : Int) (fails : Bool)
  | drawDocument (scale rotation : ℚ) (fails : Bool)
  | createCanvases (fromPage pageCount : Int) (settle : List Job → List Job)
      (fails : Nat → Bool)

/-- The state after a drawing request. -/
def perform (st : State) : Op → State
  | Op.redraw scale rotation index fails => (redraw st scale rotation index fails).1
  | Op.drawDocument scale rotation fails => (drawDocument st scale rotation fails).1
  | Op.createCanvases fromPage pageCount settle fails =>
    (createCanvases st fromPage pageCount settle fails).state

end Focused

/-! ## enhanced-docx-handler.js: loading -/

namespace Enhanced

/-- The node is an element (it is matched by the selector `*`), not a text or comment
node. -/
def isElement (node : Node) : Bool :=
  !(node.nodeName == "#text" || node.nodeName == "#comment")

/-- Number of entries of `container.querySelectorAll('*')` that a child node accounts for:
itself and its descendant elements. -/
def elementSpan (node : Node) : Nat :=
  if isElement node then 1 + node.elements else 0

/-- `elements.indexOf(breakPoint.element)` for every break point, in document order; `pos`
is the number of elements before the first of `nodes`. -/
def breakPositions : List Node → Nat → List Nat
  | [], _ => []
  | n :: rest, pos =>
    if isPageBreak n then pos :: breakPositions rest (pos + elementSpan n)
    else breakPositions rest (pos + elementSpan n)

/-- The calls `renderPageFromRange(startPos, endPos, pageIndex)` made by
`breakPoints.forEach` (lines 374-390), in order; `total` is `elements.length`. -/
def pageRanges (total : Nat) : Nat → List Nat → List (Nat × Nat)
  | _, [] => []
  | currentPos, [breakPos] => [(currentPos, breakPos), (breakPos + 1, total)]
  | currentPos, breakPos :: later => (currentPos, breakPos) :: pageRanges total (breakPos + 1) later

/-- The pages `renderPaginatedContent` sets out to render (lines 293-391), each given by
what is rasterized; `none` when the page count is `Infinity` or `NaN`. -/
def plannedPages (settings : PageSettings) (childNodes : List Node) (scrollHeight : Nat) :
    Option (List Source) :=
  let contentPerPage : ℚ := settings.height - settings.margins.top - settings.margins.bottom
  if (querySelectorAllPageBreak childNodes).length = 0 then
    (Updated.estimatedPageCount scrollHeight contentPerPage).map fun totalPages =>
      (List.range totalPages).map fun i => Source.window (pageWindow settings i)
  else
    some ((pageRanges (childNodes.map elementSpan).sum 0 (breakPositions childNodes 0)).map
      fun r => Source.elementRange r.1 r.2)

/-- `renderPaginatedContent(htmlContent)` (lines 279-396): `renderPageToCanvas` rejects for
the pages `i` with `fails i`, and that rejection is passed on; `documentPages` is assigned
once every page has been rendered. -/
def renderPaginatedContent (st : State) (childNodes : List Node) (scrollHeight : Nat)
    (fails : Nat → Bool) : State × Promise :=
  match plannedPages st.pageSettings childNodes scrollHeight with
  | none => (st, Promise.pending)
  | some sources =>
    if (List.range sources.length).any fails then (st, Promise.rejected)
    else
      let pages := sources.map fun source => some
        { width := canvasDimension st.pageSettings.width,
          height := canvasDimension st.pageSettings.height, source := source }
      ({ st with documentPages := pages }, Promise.resolved)

/-- Outcome of the extraction steps of `processDocument` (unzipping, reading the three XML
parts, `processDocumentStructure`): a rejection, or the page settings that
`extractPageSettings` leaves in `pageSettings`. -/
inductive Extraction where
  | rejects
  | resolves (settings : PageSettings)
  deriving DecidableEq, Repr

/-- `processDocument()` (lines 65-119): the state and the returned promise. -/
def processDocument (st : State) (extraction : Extraction) (mammoth : Mammoth)
    (fails : Nat → Bool) : State × Promise :=
  match extraction with
  | Extraction.rejects => (st, Promise.rejected)
  | Extraction.resolves settings =>
    let st1 : State := { st with pageSettings := settings }
    match mammoth with
    | Mammoth.rejects => (st1, Promise.rejected)
    | Mammoth.resolves childNodes scrollHeight =>
      match renderPaginatedContent st1 childNodes scrollHeight fails with
      | (st2, Promise.resolved) => ({ st2 with documentLoaded := true }, Promise.resolved)
      | (st2, promise) => (st2, promise)

end Enhanced

/-! ## enhanced-docx-handler.js: break location in `word/document.xml` -/

/-- An element of the parsed `word/document.xml`.  A document is the list of its elements
in document order; `parent` is the position of the element's `parentNode` in that list, or
`none` when the parent is the document node. -/
structure XmlElement where
  /-- The qualified name `nodeName`, such as "w:p" or "w:br". -/
  nodeName : String
  /-- The local name. -/
  localName : String
  /-- The element is in the WordprocessingML main namespace. -/
  wordprocessing : Bool
  /-- The attribute `w:type`. -/
  type : Option String
  parent : Option Nat
  deriving DecidableEq, Repr

/-- `docXml.getElementsByTagNameNS(W, localName)`: the positions of the matching elements,
in document order. -/
def getElementsByTagNameNS (doc : List XmlElement) (localName : String) : List Nat :=
  (List.range doc.length).filter fun i =>
    match doc.get? i with
    | some e => e.wordprocessing && e.localName == localName
    | none => false

/-- The loop `while (parent && parent.nodeName !== "w:p") parent = parent.parentNode`; the
walk is bounded by `fuel`, which the depth of a tree never exceeds. -/
def enclosingParagraph (doc : List XmlElement) : Nat → Option Nat → Option Nat
  | 0, _ => none
  | _ + 1, none => none
  | fuel + 1, some i =>
    match doc.get? i with
    | none => none
    | some e => if e.nodeName = "w:p" then some i else enclosingParagraph doc fuel e.parent

/-- The loop `for (j ...) if (paragraphs[j] === parent) { position = j; break; }`: the first
`j` with `paragraphs[j] = parent`, if any; `j` counts the entries passed. -/
def paragraphIndex : List Nat → Nat → Nat → Option Nat
  | [], _, _ => none
  | p :: rest, parent, j => if p = parent then some j else paragraphIndex rest parent (j + 1)

/-- An entry of the break lists. -/
structure BreakEntry where
  type : String
  position : Nat
  element : Nat
  deriving DecidableEq, Repr

/-- Loop state of `findExplicitPageBreaks`: `breaks` and the variable `position`, which is
declared before the loop. -/
structure BreakScan where
  breaks : List BreakEntry
  position : Nat
  deriving DecidableEq, Repr

/-- Body of the `for` loop of `findExplicitPageBreaks` (lines 206-232) for the `br` element
at position `br`. -/
def BreakScan.step (doc : List XmlElement) (s : BreakScan) (br : Nat) : BreakScan :=
  match doc.get? br with
  | none => s
  | some e =>
    if e.type = some "page" then
      let position :=
        match enclosingParagraph doc doc.length e.parent with
        | some parent =>
          match paragraphIndex (getElementsByTagNameNS doc "p") parent 0 with
          | some j => j
          | none => s.position
        | none => s.position
      { breaks := s.breaks ++ [{ type := "explicit", position := position, element := br }],
        position := position }
    else s

/-- `findExplicitPageBreaks(docXml)` (lines 201-235). -/
def findExplicitPageBreaks (doc : List XmlElement) : List BreakEntry :=
  ((getElementsByTagNameNS doc "br").foldl (BreakScan.step doc)
    { breaks := [], position := 0 }).breaks

/-- Body of the `for` loop of `findSectionBreaks` (lines 244-271) for the `sectPr` element
at position `sectPr`. -/
def sectionBreakStep (doc : List XmlElement) (breaks : List BreakEntry) (sectPr : Nat) :
    List BreakEntry :=
  match doc.get? sectPr with
  | none => breaks
  | some e =>
    match enclosingParagraph doc doc.length e.parent with
    | some parent =>
      let position := (paragraphIndex (getElementsByTagNameNS doc "p") parent 0).getD 0
      breaks ++ [{ type := "section", position := position, element := sectPr }]
    | none => breaks

/-- `findSectionBreaks(docXml)` (lines 240-274). -/
def findSectionBreaks (doc : List XmlElement) : List BreakEntry :=
  (getElementsByTagNameNS doc "sectPr").foldl (sectionBreakStep doc) []

/-- An element of the WordprocessingML namespace written with the prefix `w`. -/
def wElement (localName : String) (type : Option String) (parent : Option Nat) : XmlElement :=
  { nodeName := "w:" ++ localName, localName := localName, wordprocessing := true,
    type := type, parent := parent }

/-- A document body with two paragraphs, a page break inside a run of the second
paragraph, and a page break and section properties that are children of the body. -/
def orphanBreakDocument : List XmlElement :=
  [wElement "body" none none, wElement "p" none (some 0), wElement "p" none (some 0),
    wElement "r" none (some 2), wElement "br" (some "page") (some 3),
    wElement "br" (some "page") (some 0), wElement "sectPr" none (some 0)]

/-! ## Loop invariants (proof devices) -/

/-- Invariant of the loop of `splitContentByImageCount` after the nodes `processed`. -/
structure ImageSplit.Inv (s : ImageSplit) (processed : List Node) : Prop where
  cover : s.subPages.flatten ++ s.currentPage = processed
  counter : s.imageCounter = imageBlocks s.currentPage
  bound : s.imageCounter ≤ MAX_IMAGES_PER_PAGE
  full : ∀ r ∈ s.subPages, imageBlocks r = MAX_IMAGES_PER_PAGE
  pos : s.subPages ≠ [] → 1 ≤ s.imageCounter

/-- Invariant of the loop of `createAutomaticPagination` after the nodes `processed`. -/
structure AutoPagination.Inv (s : AutoPagination) (processed : List Node) : Prop where
  cover : s.pageContents.flatten ++ s.currentPage = processed
  counter : s.imageCounter = imageBlocks s.currentPage
  height : s.estimatedHeight = totalEstimatedHeight s.currentPage
  nonempty : ∀ r ∈ s.pageContents, r ≠ []
  started : processed ≠ [] → s.currentPage ≠ []
  fits : ∀ r ∈ s.pageContents, 2 ≤ r.length →
    totalEstimatedHeight r ≤ CONTENT_HEIGHT ∧ imageBlocks r ≤ MAX_IMAGES_PER_PAGE
  fitsCurrent : 2 ≤ s.currentPage.length →
    s.estimatedHeight ≤ CONTENT_HEIGHT ∧ s.imageCounter ≤ MAX_IMAGES_PER_PAGE

/-- The surface `renderPageElement` stores for page `index` under page settings `ps`. -/
def Updated.expectedSurface (fails : Nat → Bool) (ps : PageSettings) (index : Nat) : Canvas :=
  { width := canvasDimension ps.width, height := canvasDimension ps.height,
    source := if fails index then Source.errorPage index else Source.pageElement index }

/-- The first `m` entries of `pages` are the surfaces of pages `0 .. m-1`, and there are no
further entries. -/
def Updated.Filled (fails : Nat → Bool) (ps : PageSettings) (pages : List (Option Canvas))
    (m : Nat) : Prop :=
  pages.length = m ∧ ∀ j, j < m → pages.getD j none = some (Updated.expectedSurface fails ps j)

/-- The primary strategy fails: `docx.renderAsync` throws, its promise rejects, or the
rendered container holds no `docx-page` element. -/
def Updated.RenderAsync.failed : Updated.RenderAsync → Bool
  | Updated.RenderAsync.throws => true
  | Updated.RenderAsync.rejects => true
  | Updated.RenderAsync.resolves pageElements _ _ => pageElements == 0

/-- Every entry that is set in `base` is the same in `after`. -/
def Focused.CacheKept (base after : List (Option Canvas)) : Prop :=
  ∀ k c, base.getD k none = some c → after.getD k none = some c

/-- The rasterizations started by a `createCanvases` request all settle, in some order. -/
def Focused.Op.settlesAll : Focused.Op → Prop
  | Focused.Op.createCanvases _ _ settle _ => ∀ jobs, (settle jobs).Perm jobs
  | _ => True

/-- The page surfaces drawn on an output canvas since its bitmap was last reset. -/
def OutputCanvas.images (c : OutputCanvas) : List Canvas :=
  c.ops.filterMap fun op =>
    match op with
    | CtxOp.drawImage image _ _ => some image
    | _ => none

/-- A handler of updated-docx-handler.js or enhanced-docx-handler.js that has loaded a
document of one page. -/
def onePageLoaded : State :=
  { State.initial { width := 300, height := 150, ops := [] } with
    documentPages := [some { width := 816, height := 1056, source := Source.pageElement 0 }]
    documentLoaded := true }

/-- Converted content with two page-break markers: three pages. -/
def threePageContent : List Node :=
  [para 0 10, pageBreakMarker, para 1 10, pageBreakMarker, para 2 10]

/-- A handler of pagination-focused-docx-handler.js that loaded a three-page document, drew
its last page, and then loaded a one-page document. -/
def Focused.reloaded : Focused.State :=
  let first := (Focused.processWithMammoth
    (Focused.State.initial { width := 300, height := 150, ops := [] })
    (Mammoth.resolves threePageContent 60)).1
  let drawn := (Focused.redraw first 1 0 2 false).1
  (Focused.processWithMammoth drawn (Mammoth.resolves [para 0 10] 20)).1

/-- A handler of updated-docx-handler.js that loaded a three-page document through the
fallback, drew its last page, and then loaded a one-page document through the fallback. -/
def Updated.reloaded : State :=
  let first := (Updated.processDocument
    (State.initial { width := 300, height := 150, ops := [] }) Updated.RenderAsync.rejects
    (fun _ => false) id (Mammoth.resolves threePageContent 60) (fun _ => false)).state
  let drawn := (Updated.redraw first 1 0 2).1
  (Updated.processDocument drawn Updated.RenderAsync.rejects (fun _ => false) id
    (Mammoth.resolves [para 0 10] 20) (fun _ => false)).state

/-- A handler of pagination-focused-docx-handler.js that has loaded a document of one
page. -/
def Focused.onePageLoaded : Focused.State :=
  (Focused.processWithMammoth (Focused.State.initial { width := 300, height := 150, ops := [] })
    (Mammoth.resolves [para 0 10] 20)).1

/-- A handler of updated-docx-handler.js that loaded a three-page document of 816 x 1056
pages through the primary strategy and then a one-page document of 794 x 1123 pages, again
through the primary strategy. -/
def Updated.reloadedPrimary : Updated.Load :=
  let first := (Updated.processDocument
    (State.initial { width := 300, height := 150, ops := [] })
    (Updated.RenderAsync.resolves 3 816 1056) (fun _ => false) id Mammoth.rejects
    (fun _ => false)).state
  Updated.processDocument first (Updated.RenderAsync.resolves 1 794 1123) (fun _ => false) id
    Mammoth.rejects (fun _ => false)

/-- A paragraph holding six images. -/
def sixImagePara : Node :=
  { nodeName := "P", classList := [], imgs := 6, rows := 0, textLength := 0, payload := 9 }

/-- The rule by which `createPagesFromExplicitBreaks` turns one page content into pages. -/
def pagesOfRegion (pageContent : Region) : List Region :=
  if imgElements pageContent > MAX_IMAGES_PER_PAGE then splitContentByImageCount pageContent
  else [pageContent]

/-- A handler of pagination-focused-docx-handler.js that loaded a one-page document, drew
its page, and then loaded another one-page document. -/
def Focused.reloadedAfterDraw : Focused.State :=
  let first := (Focused.processWithMammoth
    (Focused.State.initial { width := 300, height := 150, ops := [] })
    (Mammoth.resolves [para 0 10] 20)).1
  let drawn := (Focused.redraw first 1 0 0 false).1
  (Focused.processWithMammoth drawn (Mammoth.resolves [para 1 10] 20)).1

/-- A handler of pagination-focused-docx-handler.js that loaded a one-page document and
drew its page once, unrotated. -/
def Focused.drawnOnce : Focused.State :=
  (Focused.redraw Focused.onePageLoaded 1 0 0 false).1

/-- The page indices of batch `b` for `totalPages` pages:
`startIdx = b * batchSize` up to `Math.min(startIdx + batchSize, totalPages)`. -/
def Updated.batchIndices (totalPages b : Nat) : List Nat :=
  List.range' (b * 3) (min (b * 3 + 3) totalPages - b * 3)

/-! ## Page geometry as numbers -/

/-- The numbers held by a `pageSettings` object. -/
structure PageGeometry where
  width : ℚ
  height : ℚ
  top : ℚ
  right : ℚ
  bottom : ℚ
  left : ℚ
  deriving DecidableEq, Repr

/-- The `pageSettings` a handler is constructed with: `8.5 * DPI` by `11 * DPI`, margins of
`DPI`. -/
def PageGeometry.initial : PageGeometry :=
  { width := 17 / 2 * DPI, height := 11 * DPI, top := DPI, right := DPI, bottom := DPI,
    left := DPI }

/-- The numbers of a `pageSettings` object. -/
def PageSettings.toGeometry (ps : PageSettings) : PageGeometry :=
  { width := ps.width, height := ps.height, top := ps.margins.top, right := ps.margins.right,
    bottom := ps.margins.bottom, left := ps.margins.left }

/-- The attributes `w:w` and `w:h` of a `pgSz` element, each as `parseInt` reads it; `none`
when the attribute is absent or empty. -/
structure PgSz where
  w : Option Int
  h : Option Int
  deriving DecidableEq, Repr

/-- The attributes `w:top`, `w:right`, `w:bottom` and `w:left` of a `pgMar` element. -/
structure PgMar where
  top : Option Int
  right : Option Int
  bottom : Option Int
  left : Option Int
  deriving DecidableEq, Repr

/-- A `sectPr` element: its first `pgSz` and its first `pgMar` descendant, if any. -/
structure SectPr where
  pgSz : Option PgSz
  pgMar : Option PgMar
  deriving DecidableEq, Repr

/-- `(twips * self.DPI) / 1440`. -/
def twipsToPixels (twips : Int) : ℚ :=
  ((twips : ℚ) * DPI) / 1440

/-- `extractPageSettings(docXml)` of enhanced-docx-handler.js (lines 158-196): the new value
of `pageSettings`; `sectPrs` are the `sectPr` elements of the document in document order. -/
def extractPageSettings (pageSettings : PageGeometry) (sectPrs : List SectPr) : PageGeometry :=
  match sectPrs with
  | [] => pageSettings
  | sectPr :: _ =>
    let sized : PageGeometry :=
      match sectPr.pgSz with
      | some pgSz =>
        { pageSettings with
          width := twipsToPixels (pgSz.w.getD 12240)
          height := twipsToPixels (pgSz.h.getD 15840) }
      | none => pageSettings
    match sectPr.pgMar with
    | some pgMar =>
      { sized with
        top := twipsToPixels (pgMar.top.getD 1440)
        right := twipsToPixels (pgMar.right.getD 1440)
        bottom := twipsToPixels (pgMar.bottom.getD 1440)
        left := twipsToPixels (pgMar.left.getD 1440) }
    | none => sized

/-- Where and how large a rendered content canvas is drawn on its page canvas. -/
structure Placement where
  dx : ℚ
  dy : ℚ
  dWidth : ℚ
  dHeight : ℚ
  deriving DecidableEq, Repr

/-- The `drawImage` call of the explicit-break branch of `processMammothFallback` in
updated-docx-handler.js (lines 388-411) for a rendered canvas of the given size; without
size arguments `drawImage` draws the canvas at its own size. -/
def Updated.placeExplicitPage (pageSettings : PageGeometry)
    (renderedWidth renderedHeight : ℚ) : Placement :=
  let contentHeight := renderedHeight
  let availableHeight := pageSettings.height - pageSettings.top - pageSettings.bottom
  if contentHeight > availableHeight then
    let scale := availableHeight / contentHeight
    let scaledWidth := renderedWidth * scale
    { dx := pageSettings.left, dy := pageSettings.top, dWidth := scaledWidth,
      dHeight := availableHeight }
  else
    { dx := pageSettings.left, dy := pageSettings.top, dWidth := renderedWidth,
      dHeight := renderedHeight }

/-! ## enhanced-docx-handler.js: the break list and the page partition -/

/-- The object assigned to `pageMetrics` by `processDocumentStructure`. -/
structure Enhanced.PageMetrics where
  pageSize : PageSettings
  breaks : List BreakEntry
  deriving DecidableEq, Repr

/-- The variables of the enhanced handler: those of `State`, and `pageMetrics`, which holds
no break list (`none`) until `processDocumentStructure` assigns it. -/
structure Enhanced.Session where
  state : State
  pageMetrics : Option Enhanced.PageMetrics

/-- `processDocumentStructure(documentXml, stylesXml, settingsXml)` (lines 124-153);
`settings` is what `extractPageSettings(docXml)` leaves in `pageSettings`.  The sort is
stable and orders by `position`. -/
def Enhanced.processDocumentStructure (s : Enhanced.Session) (settings : PageSettings)
    (docXml : List XmlElement) : Enhanced.Session :=
  let pageBreaks := findExplicitPageBreaks docXml
  let sectionBreaks := findSectionBreaks docXml
  let allBreaks :=
    (pageBreaks ++ sectionBreaks).insertionSort fun a b => a.position ≤ b.position
  { state := { s.state with pageSettings := settings },
    pageMetrics := some { pageSize := settings, breaks := allBreaks } }

/-- `renderPaginatedContent(htmlContent)` (lines 279-396) as a function of all the variables
of the handler: it reads `pageSettings` and assigns `documentPages`. -/
def Enhanced.Session.renderPaginatedContent (s : Enhanced.Session) (childNodes : List Node)
    (scrollHeight : Nat) (fails : Nat → Bool) : Enhanced.Session × Promise :=
  let r := Enhanced.renderPaginatedContent s.state childNodes scrollHeight fails
  ({ s with state := r.1 }, r.2)

/-- `processDocument()` (lines 65-119) once the three XML parts have been read:
`processDocumentStructure`, then the conversion to HTML, then `renderPaginatedContent`. -/
def Enhanced.Session.processDocument (s : Enhanced.Session) (settings : PageSettings)
    (docXml : List XmlElement) (mammoth : Mammoth) (fails : Nat → Bool) :
    Enhanced.Session × Promise :=
  let s1 := Enhanced.processDocumentStructure s settings docXml
  match mammoth with
  | Mammoth.rejects => (s1, Promise.rejected)
  | Mammoth.resolves childNodes scrollHeight =>
    match s1.renderPaginatedContent childNodes scrollHeight fails with
    | (s2, Promise.resolved) =>
      ({ s2 with state := { s2.state with documentLoaded := true } }, Promise.resolved)
    | (s2, promise) => (s2, promise)

/-- The document `orphanBreakDocument` with section properties added to its second
paragraph. -/
def sectionBreakDocument : List XmlElement :=
  orphanBreakDocument ++ [wElement "sectPr" none (some 2)]

/-- A handler of updated-docx-handler.js that loaded a one-page document of 794 x 1123
pages through the primary strategy. -/
def Updated.oddPageLoaded : State :=
  (Updated.processDocument (State.initial { width := 300, height := 150, ops := [] })
    (Updated.RenderAsync.resolves 1 794 1123) (fun _ => false) id Mammoth.rejects
    (fun _ => false)).state

/-- A handler of enhanced-docx-handler.js that loaded a two-page document whose section
properties give pages of 794 x 1123. -/
def Enhanced.oddPageLoaded : State :=
  (Enhanced.processDocument (State.initial { width := 300, height := 150, ops := [] })
    (Enhanced.Extraction.resolves
      { width := 794, height := 1123,
        margins := { top := 96, right := 96, bottom := 96, left := 96 } })
    (Mammoth.resolves [para 0 10, pageBreakMarker, para 1 10] 100) (fun _ => false)).1

/-! ## pagination-focused-docx-handler.js: overlapping requests -/

/-- A handler of pagination-focused-docx-handler.js while requests overlap: its state and
the rasterizations that were started and have not settled yet, oldest first. -/
structure Focused.Running where
  state : Focused.State
  pending : List Focused.Job
  deriving DecidableEq, Repr

/-- What happens next to a running handler: a caller makes a drawing request, or one of the
pending rasterizations settles. -/
inductive Focused.Event where
  | redraw (scale rotation : ℚ) (index : Int)
  | drawDocument (scale rotation : ℚ)
  | createCanvases (fromPage pageCount : Int)
  /-- The pending rasterization at position `k` settles; `fails` tells whether its chain is
  rejected. -/
  | settle (k : Nat) (fails : Bool)
  deriving DecidableEq, Repr

/-- A call of `redraw`: its synchronous part runs, and the rasterization it starts, if any,
is left pending. -/
def Focused.Running.request (r : Focused.Running) (scale rotation : ℚ) (index : Int) :
    Focused.Running :=
  match Focused.redrawStart r.state scale rotation index with
  | (st1, Focused.Started.done _) => { r with state := st1 }
  | (st1, Focused.Started.awaiting job) => { state := st1, pending := r.pending ++ [job] }

/-- The handler after an event.  `createCanvases` makes its calls of `redraw` one after the
other before anything settles; a rasterization settles by running the asynchronous part of
the `redraw` that started it on the state as it is then. -/
def Focused.Running.step (r : Focused.Running) : Focused.Event → Focused.Running
  | Focused.Event.redraw scale rotation index => r.request scale rotation index
  | Focused.Event.drawDocument scale rotation =>
    r.request scale rotation r.state.currPageIndex
  | Focused.Event.createCanvases fromPage pageCount =>
    if r.state.pageContents.length = 0 then r
    else
      let toPage : Int :=
        min ((r.state.pageContents.length : Int) - 1) (fromPage + pageCount - 1)
      (loopIndices fromPage toPage).foldl (fun running i => running.request 1 0 i) r
  | Focused.Event.settle k fails =>
    match r.pending.get? k with
    | none => r
    | some job =>
      { state := (Focused.redrawFinish r.state job fails).1, pending := r.pending.eraseIdx k }

/-- Entry `i` of the cache holds `surface` and no pending rasterization is for page `i`;
the document has `pages` pages. -/
def Focused.Running.Quiet (r : Focused.Running) (pages i : Nat) (surface : Canvas) : Prop :=
  r.state.pageContents.length = pages
    ∧ r.state.renderedPages.getD i none = some surface
    ∧ ∀ job ∈ r.pending, job.index ≠ i

/-- A handler that has loaded a one-page document and in which `redraw` of page 0 was
called twice before any rasterization settled. -/
def Focused.twoRequests : Focused.Running :=
  [Focused.Event.redraw 1 0 0, Focused.Event.redraw 1 0 0].foldl Focused.Running.step
    { state := Focused.onePageLoaded, pending := [] }

/-- A handler that has loaded a document of two pages and in which `redraw` of page 1 was
called and has not settled. -/
def Focused.secondPageRequested : Focused.Running :=
  Focused.Running.step
    { state := (Focused.processWithMammoth
        (Focused.State.initial { width := 300, height := 150, ops := [] })
        (Mammoth.resolves [para 0 10, pageBreakMarker, para 1 10] 60)).1,
      pending := [] }
    (Focused.Event.redraw 1 0 1)

/-! # Theorems -/

/-! ## Explicit-break splitting -/

theorem BreakSplit.run_nil (s : BreakSplit) :
    BreakSplit.run s [] = s.pageContents ++ [s.currentContent] := rfl

theorem BreakSplit.run_cons (s : BreakSplit) (n : Node) (rest : List Node) :
    BreakSplit.run s (n :: rest) = BreakSplit.run (s.step n) rest := rfl

theorem BreakSplit.run_length (nodes : List Node) (s : BreakSplit) :
    (BreakSplit.run s nodes).length
      = s.pageContents.length + 1 + (nodes.filter isPageBreak).length := by
  induction nodes generalizing s with
  | nil => simp [BreakSplit.run_nil]
  | cons n rest ih =>
    rw [BreakSplit.run_cons, ih]
    by_cases h : isPageBreak n = true
    · simp [BreakSplit.step, h]; omega
    · simp [BreakSplit.step, h]

theorem BreakSplit.run_flatten (nodes : List Node) (s : BreakSplit) :
    (BreakSplit.run s nodes).flatten
      = s.pageContents.flatten ++ s.currentContent
          ++ nodes.filter (fun n => !isPageBreak n) := by
  induction nodes generalizing s with
  | nil => simp [BreakSplit.run_nil]
  | cons n rest ih =>
    rw [BreakSplit.run_cons, ih]
    by_cases h : isPageBreak n = true
    · simp [BreakSplit.step, h]
    · simp [BreakSplit.step, h]

theorem BreakSplit.run_prefix (nodes : List Node) (pages : List Region) (cur : Region) :
    BreakSplit.run { pageContents := pages, currentContent := cur } nodes
      = pages ++ BreakSplit.run { pageContents := [], currentContent := cur } nodes := by
  induction nodes generalizing pages cur with
  | nil => simp [BreakSplit.run_nil]
  | cons n rest ih =>
    rw [BreakSplit.run_cons, BreakSplit.run_cons]
    by_cases h : isPageBreak n = true
    · simp only [BreakSplit.step, h, if_true]
      rw [ih (pages ++ [cur]) [], ih ([] ++ [cur]) []]
      simp
    · simp only [BreakSplit.step, h]
      exact ih pages (cur ++ [n])

theorem pageBreakPositions_length (nodes : List Node) (i : Nat) :
    (pageBreakPositions nodes i).length = (nodes.filter isPageBreak).length := by
  induction nodes generalizing i with
  | nil => rfl
  | cons n rest ih =>
    by_cases h : isPageBreak n = true
    · simp [pageBreakPositions, h, ih]
    · simp [pageBreakPositions, h, ih]

theorem collectUntil_none (nodes : List Node) (cur : Nat) :
    collectUntil nodes cur none = nodes := by
  induction nodes generalizing cur with
  | nil => rfl
  | cons n rest ih => simp [collectUntil, ih]

theorem collectUntil_stop (seg : Region) (nodes : List Node) (cur : Nat) :
    collectUntil (seg ++ nodes) cur (some (cur + seg.length)) = seg ++
      collectUntil nodes (cur + seg.length) (some (cur + seg.length)) := by
  induction seg generalizing cur with
  | nil => simp
  | cons n rest ih =>
    have h : ¬ (cur = cur + (rest.length + 1)) := by omega
    have e : cur + (rest.length + 1) = cur + 1 + rest.length := by omega
    simp only [List.cons_append, collectUntil, List.length_cons, Option.some.injEq, h,
      if_false]
    rw [e]
    exact congrArg (List.cons n) (ih (cur + 1))

theorem pageContentBetween_eq (c pre rest : List Node) (start stop : Option Nat)
    (hc : c = pre ++ rest)
    (hs : (start = none ∧ pre = []) ∨ ∃ s, start = some s ∧ s + 1 = pre.length) :
    pageContentBetween c start stop = collectUntil rest pre.length stop := by
  rcases hs with ⟨h1, h2⟩ | ⟨s, h1, h2⟩
  · subst h1 h2
    simp [pageContentBetween, hc]
  · subst h1
    simp [pageContentBetween, hc, h2]

theorem regionsFrom_eq_run (nodes : List Node) :
    ∀ (c pre seg : List Node) (start : Option Nat), c = pre ++ (seg ++ nodes) →
      ((start = none ∧ pre = []) ∨ ∃ s, start = some s ∧ s + 1 = pre.length) →
      regionsFrom c start (pageBreakPositions nodes (pre.length + seg.length))
        = BreakSplit.run { pageContents := [], currentContent := seg } nodes := by
  induction nodes with
  | nil =>
    intro c pre seg start hc hs
    simp [pageBreakPositions, regionsFrom, pageContentBetween_eq c pre (seg ++ []) start none hc hs,
      collectUntil_none, BreakSplit.run_nil]
  | cons n rest ih =>
    intro c pre seg start hc hs
    by_cases h : isPageBreak n = true
    · have hfirst : pageContentBetween c start (some (pre.length + seg.length)) = seg := by
        rw [pageContentBetween_eq c pre (seg ++ n :: rest) start _ hc hs, collectUntil_stop]
        simp [collectUntil]
      have hrest := ih c (pre ++ seg ++ [n]) [] (some (pre.length + seg.length))
        (by simp [hc]) (Or.inr ⟨_, rfl, by simp; omega⟩)
      simp only [List.length_append, List.length_singleton, List.length_nil, Nat.add_zero]
        at hrest
      simp only [pageBreakPositions, h, if_true, regionsFrom, hfirst, hrest,
        BreakSplit.run_cons, BreakSplit.step]
      rw [BreakSplit.run_prefix rest ([] ++ [seg]) []]
      simp
    · have hrest := ih c pre (seg ++ [n]) start (by simp [hc]) hs
      simp only [List.length_append, List.length_singleton, ← Nat.add_assoc] at hrest
      simp only [pageBreakPositions, h, BreakSplit.run_cons, BreakSplit.step]
      simpa using hrest

theorem explicitBreakRegions_eq_splitAtPageBreaks (childNodes : List Node) :
    explicitBreakRegions childNodes (querySelectorAllPageBreak childNodes)
      = splitAtPageBreaks childNodes := by
  have h := regionsFrom_eq_run childNodes childNodes [] [] none (by simp) (Or.inl ⟨rfl, rfl⟩)
  simpa [explicitBreakRegions, querySelectorAllPageBreak, splitAtPageBreaks] using h

/-- C1: with N top-level page-break markers, explicit-mode splitting (the explicit-break
branch of processMammothFallback, and createPagesFromExplicitBreaks before image
sub-splitting) yields exactly N+1 regions whose concatenation is the block sequence with the
markers removed; blocks 0,1,2, marker, 3,4 give [0,1,2] and [3,4]. -/
theorem explicit_split_regions (childNodes : List Node) :
    (splitAtPageBreaks childNodes).length = (childNodes.filter isPageBreak).length + 1
    ∧ (splitAtPageBreaks childNodes).flatten = childNodes.filter (fun n => !isPageBreak n)
    ∧ (querySelectorAllPageBreak childNodes).length = (childNodes.filter isPageBreak).length
    ∧ (explicitBreakRegions childNodes (querySelectorAllPageBreak childNodes)).length
        = (childNodes.filter isPageBreak).length + 1
    ∧ (explicitBreakRegions childNodes (querySelectorAllPageBreak childNodes)).flatten
        = childNodes.filter (fun n => !isPageBreak n)
    ∧ splitAtPageBreaks
        [para 0 10, para 1 10, para 2 10, pageBreakMarker, para 3 10, para 4 10]
        = [[para 0 10, para 1 10, para 2 10], [para 3 10, para 4 10]]
    ∧ explicitBreakRegions
        [para 0 10, para 1 10, para 2 10, pageBreakMarker, para 3 10, para 4 10]
        (querySelectorAllPageBreak
          [para 0 10, para 1 10, para 2 10, pageBreakMarker, para 3 10, para 4 10])
        = [[para 0 10, para 1 10, para 2 10], [para 3 10, para 4 10]] := by
  have hlen : (splitAtPageBreaks childNodes).length
      = (childNodes.filter isPageBreak).length + 1 := by
    simp [splitAtPageBreaks, BreakSplit.run_length]
    omega
  have hcat : (splitAtPageBreaks childNodes).flatten
      = childNodes.filter (fun n => !isPageBreak n) := by
    simp [splitAtPageBreaks, BreakSplit.run_flatten]
  refine ⟨hlen, hcat, pageBreakPositions_length childNodes 0, ?_, ?_, by decide, by decide⟩
  · rw [explicitBreakRegions_eq_splitAtPageBreaks]; exact hlen
  · rw [explicitBreakRegions_eq_splitAtPageBreaks]; exact hcat

/-! ## Image sub-splitting -/

theorem imageBlocks_append (a b : Region) :
    imageBlocks (a ++ b) = imageBlocks a + imageBlocks b := by
  simp [imageBlocks]

theorem imageBlocks_singleton (n : Node) :
    imageBlocks [n] = if isImage n then 1 else 0 := by
  by_cases h : isImage n = true <;> simp [imageBlocks, h]

theorem imageBlocks_le_length (r : Region) : imageBlocks r ≤ r.length := by
  simpa [imageBlocks] using List.length_filter_le isImage r

theorem imageBlocks_flatten_full (pages : List Region)
    (h : ∀ r ∈ pages, imageBlocks r = MAX_IMAGES_PER_PAGE) :
    imageBlocks pages.flatten = MAX_IMAGES_PER_PAGE * pages.length := by
  induction pages with
  | nil => simp [imageBlocks]
  | cons r rest ih =>
    have h1 := h r (by simp)
    have h2 := ih (fun x hx => h x (by simp [hx]))
    simp only [List.flatten_cons, imageBlocks_append, h1, h2, List.length_cons]
    ring

theorem imageSplit_inv_init :
    ImageSplit.Inv { subPages := [], currentPage := [], imageCounter := 0 } [] := by
  constructor <;> simp [imageBlocks]

theorem imageSplit_inv_step {s : ImageSplit} {processed : List Node}
    (h : ImageSplit.Inv s processed) (node : Node) :
    ImageSplit.Inv (s.step node) (processed ++ [node]) := by
  obtain ⟨hcover, hcounter, hbound, hfull, hpos⟩ := h
  have hlen := imageBlocks_le_length s.currentPage
  simp only [MAX_IMAGES_PER_PAGE] at hbound hfull ⊢
  by_cases himg : isImage node = true
  · by_cases hsplit : s.imageCounter + 1 > MAX_IMAGES_PER_PAGE ∧ s.currentPage.length > 0
    · simp only [MAX_IMAGES_PER_PAGE] at hsplit
      simp only [ImageSplit.step, himg, if_true, MAX_IMAGES_PER_PAGE, hsplit, and_self]
      constructor
      · simp [← hcover]
      · simp [imageBlocks_singleton, himg]
      · simp [MAX_IMAGES_PER_PAGE]
      · intro r hr
        simp only [List.mem_append, List.mem_singleton] at hr
        rcases hr with hr | hr
        · simpa [MAX_IMAGES_PER_PAGE] using hfull r hr
        · subst hr
          simp only [MAX_IMAGES_PER_PAGE]
          omega
      · simp
    · simp only [MAX_IMAGES_PER_PAGE] at hsplit
      simp only [ImageSplit.step, himg, if_true, MAX_IMAGES_PER_PAGE, hsplit, if_false]
      constructor
      · simp [← hcover]
      · simp [imageBlocks_append, imageBlocks_singleton, himg, hcounter]
      · simp only [MAX_IMAGES_PER_PAGE]
        omega
      · simpa [MAX_IMAGES_PER_PAGE] using hfull
      · intro _
        simp
  · simp only [ImageSplit.step, himg]
    constructor
    · simp [← hcover]
    · simp [imageBlocks_append, imageBlocks_singleton, himg, hcounter]
    · simpa [MAX_IMAGES_PER_PAGE] using hbound
    · simpa [MAX_IMAGES_PER_PAGE] using hfull
    · simpa using hpos

theorem imageSplit_inv_foldl (nodes : List Node) :
    ∀ (s : ImageSplit) (processed : List Node), ImageSplit.Inv s processed →
      ImageSplit.Inv (nodes.foldl ImageSplit.step s) (processed ++ nodes) := by
  induction nodes with
  | nil => intro s processed h; simpa using h
  | cons n rest ih =>
    intro s processed h
    have h2 := ih (s.step n) (processed ++ [n]) (imageSplit_inv_step h n)
    simpa using h2

theorem splitContentByImageCount_inv (content : Region) :
    ImageSplit.Inv
      (content.foldl ImageSplit.step { subPages := [], currentPage := [], imageCounter := 0 })
      content := by
  simpa using imageSplit_inv_foldl content _ [] imageSplit_inv_init

theorem imageSplit_foldl_no_split (nodes : List Node) :
    ∀ (s : ImageSplit), s.imageCounter = imageBlocks s.currentPage →
      imageBlocks s.currentPage + imageBlocks nodes ≤ MAX_IMAGES_PER_PAGE →
      nodes.foldl ImageSplit.step s
        = { subPages := s.subPages, currentPage := s.currentPage ++ nodes,
            imageCounter := s.imageCounter + imageBlocks nodes } := by
  induction nodes with
  | nil => intro s _ _; simp [imageBlocks]
  | cons n rest ih =>
    intro s hc hb
    have hcons : imageBlocks (n :: rest) = imageBlocks [n] + imageBlocks rest :=
      imageBlocks_append [n] rest
    rw [hcons, imageBlocks_singleton] at hb
    simp only [MAX_IMAGES_PER_PAGE] at hb
    by_cases himg : isImage n = true
    · simp only [himg, if_true] at hb
      have hstep : s.step n =
          { subPages := s.subPages, currentPage := s.currentPage ++ [n],
            imageCounter := s.imageCounter + 1 } := by
        have : ¬ (s.imageCounter + 1 > 5 ∧ s.currentPage.length > 0) := by omega
        simp [ImageSplit.step, himg, MAX_IMAGES_PER_PAGE, this]
      rw [List.foldl_cons, hstep, ih]
      · simp [hcons, imageBlocks_singleton, himg]
        omega
      · simp [imageBlocks_append, imageBlocks_singleton, himg, hc]
      · simp only [imageBlocks_append, imageBlocks_singleton, himg, if_true,
          MAX_IMAGES_PER_PAGE]
        omega
    · simp only [himg] at hb
      have hstep : s.step n =
          { subPages := s.subPages, currentPage := s.currentPage ++ [n],
            imageCounter := s.imageCounter } := by
        simp [ImageSplit.step, himg]
      rw [List.foldl_cons, hstep, ih]
      · simp [hcons, imageBlocks_singleton, himg]
      · simp [imageBlocks_append, imageBlocks_singleton, himg, hc]
      · simp only [imageBlocks_append, imageBlocks_singleton, himg, MAX_IMAGES_PER_PAGE]
        simp only [Bool.false_eq_true, if_false]
        omega

theorem splitContentByImageCount_compliant (r : Region) (hne : r ≠ [])
    (hcap : imageBlocks r ≤ MAX_IMAGES_PER_PAGE) : splitContentByImageCount r = [r] := by
  have h := imageSplit_foldl_no_split r { subPages := [], currentPage := [], imageCounter := 0 }
    (by simp [imageBlocks]) (by simpa [imageBlocks] using hcap)
  have hpos : 0 < r.length := List.length_pos.mpr hne
  simp [splitContentByImageCount, h, ImageSplit.finish, hpos]

theorem splitContentByImageCount_mem (content r : Region)
    (hr : r ∈ splitContentByImageCount content) :
    r ≠ [] ∧ imageBlocks r ≤ MAX_IMAGES_PER_PAGE := by
  have inv := splitContentByImageCount_inv content
  have hfull : ∀ x ∈ (content.foldl ImageSplit.step
      { subPages := [], currentPage := [], imageCounter := 0 }).subPages,
      x ≠ [] ∧ imageBlocks x ≤ MAX_IMAGES_PER_PAGE := by
    intro x hx
    have h5 := inv.full x hx
    refine ⟨?_, by omega⟩
    intro hnil
    rw [hnil] at h5
    simp [imageBlocks, MAX_IMAGES_PER_PAGE] at h5
  unfold splitContentByImageCount ImageSplit.finish at hr
  split at hr
  · rename_i hlen
    simp only [List.mem_append, List.mem_singleton] at hr
    rcases hr with hr | hr
    · exact hfull r hr
    · subst hr
      refine ⟨List.length_pos.mp hlen, ?_⟩
      rw [← inv.counter]
      exact inv.bound
  · exact hfull r hr

/-- C4: a region with k >= 1 image blocks is split into exactly ceil(k / 5) sub-regions whose
concatenation is the input; every sub-region but the last holds exactly 5 image blocks and
the last holds between 1 and 5 (8 images give sub-regions of 5 and 3 images). -/
theorem splitContentByImageCount_spec (content : Region) (hk : 1 ≤ imageBlocks content) :
    (splitContentByImageCount content).length = (imageBlocks content + 4) / 5
    ∧ (splitContentByImageCount content).flatten = content
    ∧ (∀ r ∈ (splitContentByImageCount content).dropLast, imageBlocks r = 5)
    ∧ (∃ last, (splitContentByImageCount content).getLast? = some last
        ∧ 1 ≤ imageBlocks last ∧ imageBlocks last ≤ 5)
    ∧ (splitContentByImageCount (List.map imagePara (List.range 8))).map imageBlocks
        = [5, 3] := by
  have inv := splitContentByImageCount_inv content
  obtain ⟨hcover, hcounter, hbound, hfull, hpos⟩ := inv
  generalize hs : content.foldl ImageSplit.step
    { subPages := [], currentPage := [], imageCounter := 0 } = s at *
  have htotal : imageBlocks content = 5 * s.subPages.length + s.imageCounter := by
    rw [← hcover, imageBlocks_append, imageBlocks_flatten_full _ hfull, ← hcounter]
    rfl
  have hc1 : 1 ≤ s.imageCounter := by
    by_cases hsub : s.subPages = []
    · simp only [hsub, List.length_nil] at htotal
      omega
    · exact hpos hsub
  have hlen : 0 < s.currentPage.length := by
    have := imageBlocks_le_length s.currentPage
    omega
  have hres : splitContentByImageCount content = s.subPages ++ [s.currentPage] := by
    simp [splitContentByImageCount, hs, ImageSplit.finish, hlen]
  simp only [MAX_IMAGES_PER_PAGE] at hbound hfull
  refine ⟨?_, ?_, ?_, ?_, by decide⟩
  · rw [hres, htotal]
    simp only [List.length_append, List.length_singleton]
    omega
  · rw [hres]
    simpa using hcover
  · rw [hres]
    simpa using hfull
  · refine ⟨s.currentPage, by simp [hres], ?_, ?_⟩ <;> omega

/-- Witness for C4: a region of eight image paragraphs. -/
theorem splitContentByImageCount_spec_witness :
    1 ≤ imageBlocks (List.map imagePara (List.range 8))
    ∧ (splitContentByImageCount (List.map imagePara (List.range 8))).length
        = (imageBlocks (List.map imagePara (List.range 8)) + 4) / 5 :=
  ⟨by decide, (splitContentByImageCount_spec (List.map imagePara (List.range 8))
    (by decide)).1⟩

/-- C5: sub-splitting is idempotent: splitting any sub-region of a split returns that
sub-region alone, so re-running the split on its own output gives the same list. -/
theorem splitContentByImageCount_idempotent (r : Region) :
    (∀ p ∈ splitContentByImageCount r, splitContentByImageCount p = [p])
    ∧ (splitContentByImageCount r).flatMap splitContentByImageCount
        = splitContentByImageCount r := by
  have h : ∀ p ∈ splitContentByImageCount r, splitContentByImageCount p = [p] := by
    intro p hp
    obtain ⟨hne, hcap⟩ := splitContentByImageCount_mem r p hp
    exact splitContentByImageCount_compliant p hne hcap
  refine ⟨h, ?_⟩
  generalize splitContentByImageCount r = pages at h
  induction pages with
  | nil => rfl
  | cons p rest ih =>
    rw [List.flatMap_cons, h p (by simp), ih (fun x hx => h x (by simp [hx]))]
    rfl

/-! ## Automatic pagination -/

theorem totalEstimatedHeight_append (a b : Region) :
    totalEstimatedHeight (a ++ b) = totalEstimatedHeight a + totalEstimatedHeight b := by
  simp [totalEstimatedHeight]

theorem totalEstimatedHeight_singleton (n : Node) :
    totalEstimatedHeight [n] = elementHeight n := by
  simp [totalEstimatedHeight]

theorem elementHeight_image (n : Node) (h : isImage n = true) : elementHeight n = 200 := by
  simp [elementHeight, h]

theorem imageBlocks_height (r : Region) : 200 * imageBlocks r ≤ totalEstimatedHeight r := by
  induction r with
  | nil => simp [imageBlocks, totalEstimatedHeight]
  | cons n rest ih =>
    have h1 : imageBlocks (n :: rest) = imageBlocks [n] + imageBlocks rest :=
      imageBlocks_append [n] rest
    have h2 : totalEstimatedHeight (n :: rest)
        = totalEstimatedHeight [n] + totalEstimatedHeight rest :=
      totalEstimatedHeight_append [n] rest
    rw [h1, h2, imageBlocks_singleton, totalEstimatedHeight_singleton]
    by_cases himg : isImage n = true
    · rw [elementHeight_image n himg]
      simp only [himg, if_true]
      omega
    · simp only [himg]
      simp only [Bool.false_eq_true, if_false]
      omega

theorem autoPagination_inv_init :
    AutoPagination.Inv
      { pageContents := [], currentPage := [], imageCounter := 0, estimatedHeight := 0 } [] := by
  constructor <;> simp [imageBlocks, totalEstimatedHeight]

theorem autoPagination_inv_step {s : AutoPagination} {processed : List Node}
    (h : AutoPagination.Inv s processed) (element : Node) :
    AutoPagination.Inv (s.step element) (processed ++ [element]) := by
  obtain ⟨hcover, hcounter, hheight, hnonempty, hstarted, hfits, hfitsCur⟩ := h
  have hic : (if isImage element = true then s.imageCounter + 1 else s.imageCounter)
      = imageBlocks (s.currentPage ++ [element]) := by
    rw [imageBlocks_append, imageBlocks_singleton, ← hcounter]
    by_cases himg : isImage element = true <;> simp [himg]
  have hest : s.estimatedHeight + elementHeight element
      = totalEstimatedHeight (s.currentPage ++ [element]) := by
    rw [totalEstimatedHeight_append, totalEstimatedHeight_singleton, hheight]
  by_cases hfull : ((if isImage element = true then s.imageCounter + 1 else s.imageCounter)
      > MAX_IMAGES_PER_PAGE ∨ s.estimatedHeight + elementHeight element > CONTENT_HEIGHT)
      ∧ s.currentPage.length > 0
  · have hstep : s.step element =
        { pageContents := s.pageContents ++ [s.currentPage]
          currentPage := [element]
          imageCounter := if isImage element = true then 1 else 0
          estimatedHeight := elementHeight element } := by
      simp only [AutoPagination.step]
      rw [if_pos hfull]
    rw [hstep]
    constructor
    · simp [← hcover]
    · simp [imageBlocks_singleton]
    · simp [totalEstimatedHeight_singleton]
    · intro r hr
      simp only [List.mem_append, List.mem_singleton] at hr
      rcases hr with hr | hr
      · exact hnonempty r hr
      · subst hr
        exact List.length_pos.mp hfull.2
    · simp
    · intro r hr hlen
      simp only [List.mem_append, List.mem_singleton] at hr
      rcases hr with hr | hr
      · exact hfits r hr hlen
      · subst hr
        have := hfitsCur hlen
        rw [← hheight, ← hcounter]
        exact this
    · intro hlen
      simp at hlen
  · have hstep : s.step element =
        { pageContents := s.pageContents
          currentPage := s.currentPage ++ [element]
          imageCounter := if isImage element = true then s.imageCounter + 1 else s.imageCounter
          estimatedHeight := s.estimatedHeight + elementHeight element } := by
      simp only [AutoPagination.step]
      rw [if_neg hfull]
    rw [hstep]
    constructor
    · simp [← hcover]
    · exact hic
    · exact hest
    · exact hnonempty
    · simp
    · exact hfits
    · intro hlen
      simp only [List.length_append, List.length_singleton] at hlen
      have hpos : s.currentPage.length > 0 := by omega
      constructor
      · show s.estimatedHeight + elementHeight element ≤ CONTENT_HEIGHT
        by_contra hcon
        exact hfull ⟨Or.inr (by omega), hpos⟩
      · show (if isImage element = true then s.imageCounter + 1 else s.imageCounter)
            ≤ MAX_IMAGES_PER_PAGE
        by_contra hcon
        exact hfull ⟨Or.inl (by omega), hpos⟩

theorem autoPagination_inv_foldl (nodes : List Node) :
    ∀ (s : AutoPagination) (processed : List Node), AutoPagination.Inv s processed →
      AutoPagination.Inv (nodes.foldl AutoPagination.step s) (processed ++ nodes) := by
  induction nodes with
  | nil => intro s processed h; simpa using h
  | cons n rest ih =>
    intro s processed h
    have h2 := ih (s.step n) (processed ++ [n]) (autoPagination_inv_step h n)
    simpa using h2

theorem createAutomaticPagination_inv (childNodes : List Node) :
    AutoPagination.Inv
      (childNodes.foldl AutoPagination.step
        { pageContents := [], currentPage := [], imageCounter := 0, estimatedHeight := 0 })
      childNodes := by
  simpa using autoPagination_inv_foldl childNodes _ [] autoPagination_inv_init

theorem createAutomaticPagination_flatten (childNodes : List Node) :
    (createAutomaticPagination childNodes).flatten = childNodes := by
  have inv := createAutomaticPagination_inv childNodes
  have hcover := inv.cover
  unfold createAutomaticPagination AutoPagination.finish
  split
  · simpa using hcover
  · rename_i hlen
    have hnil : (childNodes.foldl AutoPagination.step
        { pageContents := [], currentPage := [], imageCounter := 0,
          estimatedHeight := 0 }).currentPage = [] := by
      apply List.eq_nil_of_length_eq_zero
      omega
    simpa [hnil] using hcover

theorem createAutomaticPagination_pages (childNodes r : Region)
    (hr : r ∈ createAutomaticPagination childNodes) :
    r ≠ [] ∧ (2 ≤ r.length →
      totalEstimatedHeight r ≤ CONTENT_HEIGHT ∧ imageBlocks r ≤ MAX_IMAGES_PER_PAGE) := by
  have inv := createAutomaticPagination_inv childNodes
  unfold createAutomaticPagination AutoPagination.finish at hr
  split at hr
  · rename_i hlen
    simp only [List.mem_append, List.mem_singleton] at hr
    rcases hr with hr | hr
    · exact ⟨inv.nonempty r hr, inv.fits r hr⟩
    · subst hr
      refine ⟨List.length_pos.mp hlen, fun h2 => ?_⟩
      have := inv.fitsCurrent h2
      rw [← inv.height, ← inv.counter]
      exact this
  · exact ⟨inv.nonempty r hr, inv.fits r hr⟩

/-- C2: the pages produced by createAutomaticPagination partition the block sequence:
concatenating the pages in order gives exactly the input, so every block lies in exactly
one page and the original order is kept. -/
theorem createAutomaticPagination_partition (childNodes : List Node) :
    (createAutomaticPagination childNodes).flatten = childNodes
    ∧ ((createAutomaticPagination childNodes).map List.length).sum = childNodes.length := by
  have h := createAutomaticPagination_flatten childNodes
  refine ⟨h, ?_⟩
  have h2 := congrArg List.length h
  rw [List.length_flatten] at h2
  exact h2

theorem length_le_length_flatten (pages : List Region) (h : ∀ r ∈ pages, r ≠ []) :
    pages.length ≤ pages.flatten.length := by
  induction pages with
  | nil => simp
  | cons r rest ih =>
    have h1 : 0 < r.length := List.length_pos.mpr (h r (by simp))
    have h2 := ih (fun x hx => h x (by simp [hx]))
    simp only [List.flatten_cons, List.length_append, List.length_cons]
    omega

theorem totalEstimatedHeight_flatten_le (pages : List Region) (bound : Nat)
    (h : ∀ r ∈ pages, totalEstimatedHeight r ≤ bound) :
    totalEstimatedHeight pages.flatten ≤ bound * pages.length := by
  induction pages with
  | nil => simp [totalEstimatedHeight]
  | cons r rest ih =>
    have h1 := h r (by simp)
    have h2 := ih (fun x hx => h x (by simp [hx]))
    simp only [List.flatten_cons, totalEstimatedHeight_append, List.length_cons]
    rw [Nat.mul_succ]
    omega

theorem autoPagination_foldl_no_split (nodes : List Node) :
    ∀ (s : AutoPagination), s.imageCounter = imageBlocks s.currentPage →
      s.estimatedHeight = totalEstimatedHeight s.currentPage →
      totalEstimatedHeight s.currentPage + totalEstimatedHeight nodes ≤ CONTENT_HEIGHT →
      nodes.foldl AutoPagination.step s
        = { pageContents := s.pageContents, currentPage := s.currentPage ++ nodes,
            imageCounter := imageBlocks (s.currentPage ++ nodes),
            estimatedHeight := totalEstimatedHeight (s.currentPage ++ nodes) } := by
  induction nodes with
  | nil =>
    intro s hc hh _
    simp [← hc, ← hh]
  | cons n rest ih =>
    intro s hc hh hb
    have hcons : totalEstimatedHeight (n :: rest)
        = totalEstimatedHeight [n] + totalEstimatedHeight rest :=
      totalEstimatedHeight_append [n] rest
    rw [hcons, totalEstimatedHeight_singleton] at hb
    have himgs := imageBlocks_height (s.currentPage ++ [n])
    rw [totalEstimatedHeight_append, totalEstimatedHeight_singleton] at himgs
    have hic : (if isImage n = true then s.imageCounter + 1 else s.imageCounter)
        = imageBlocks (s.currentPage ++ [n]) := by
      rw [imageBlocks_append, imageBlocks_singleton, ← hc]
      by_cases himg : isImage n = true <;> simp [himg]
    simp only [CONTENT_HEIGHT, DEFAULT_HEIGHT, DEFAULT_MARGIN] at hb
    have hno : ¬ (((if isImage n = true then s.imageCounter + 1 else s.imageCounter)
        > MAX_IMAGES_PER_PAGE ∨ s.estimatedHeight + elementHeight n > CONTENT_HEIGHT)
        ∧ s.currentPage.length > 0) := by
      rw [hic, hh]
      simp only [CONTENT_HEIGHT, DEFAULT_HEIGHT, DEFAULT_MARGIN, MAX_IMAGES_PER_PAGE]
      omega
    have hstep : s.step n =
        { pageContents := s.pageContents
          currentPage := s.currentPage ++ [n]
          imageCounter := imageBlocks (s.currentPage ++ [n])
          estimatedHeight := totalEstimatedHeight (s.currentPage ++ [n]) } := by
      simp only [AutoPagination.step]
      rw [if_neg hno, hic, hh, totalEstimatedHeight_append, totalEstimatedHeight_singleton]
    rw [List.foldl_cons, hstep, ih]
    · simp
    · rfl
    · rfl
    · simp only [totalEstimatedHeight_append, totalEstimatedHeight_singleton, CONTENT_HEIGHT,
        DEFAULT_HEIGHT, DEFAULT_MARGIN]
      omega

theorem createAutomaticPagination_single (childNodes : List Node) (hne : childNodes ≠ [])
    (hfit : totalEstimatedHeight childNodes ≤ CONTENT_HEIGHT) :
    createAutomaticPagination childNodes = [childNodes] := by
  have h := autoPagination_foldl_no_split childNodes
    { pageContents := [], currentPage := [], imageCounter := 0, estimatedHeight := 0 }
    (by simp [imageBlocks]) (by simp [totalEstimatedHeight])
    (by simpa [totalEstimatedHeight] using hfit)
  have hpos : 0 < childNodes.length := List.length_pos.mpr hne
  simp [createAutomaticPagination, h, AutoPagination.finish, hpos]

theorem createAutomaticPagination_page_height (childNodes : List Node)
    (hblocks : ∀ n ∈ childNodes, elementHeight n ≤ CONTENT_HEIGHT) :
    ∀ r ∈ createAutomaticPagination childNodes, totalEstimatedHeight r ≤ CONTENT_HEIGHT := by
  intro r hr
  obtain ⟨hne, hfits⟩ := createAutomaticPagination_pages childNodes r hr
  have hsub : ∀ n ∈ r, n ∈ childNodes := by
    intro n hn
    rw [← createAutomaticPagination_flatten childNodes]
    exact List.mem_flatten.mpr ⟨r, hr, hn⟩
  match r, hne, hfits, hsub with
  | [n], _, _, hsub =>
    rw [totalEstimatedHeight_singleton]
    exact hblocks n (hsub n (by simp))
  | a :: b :: rest, _, hfits, _ =>
    exact (hfits (by simp)).1

/-- C3 (counterexample): three 2000-character paragraphs (510px each, 1530px in all) are
placed on 3 pages although ceil(1530 / 864) = 2, and one 6880-character paragraph (1730px)
is placed on 1 page although ceil(1730 / 864) = 3; neither holds a break marker. -/
theorem createAutomaticPagination_count_counterexample :
    (∀ n ∈ [para 0 2000, para 1 2000, para 2 2000, para 3 6880], isPageBreak n = false)
    ∧ (createAutomaticPagination [para 0 2000, para 1 2000, para 2 2000]).length = 3
    ∧ max 1 ((totalEstimatedHeight [para 0 2000, para 1 2000, para 2 2000]
        + (CONTENT_HEIGHT - 1)) / CONTENT_HEIGHT) = 2
    ∧ (createAutomaticPagination [para 3 6880]).length = 1
    ∧ max 1 ((totalEstimatedHeight [para 3 6880] + (CONTENT_HEIGHT - 1)) / CONTENT_HEIGHT)
        = 3 := by
  decide

/-- C3 (amended): for a non-empty block sequence createAutomaticPagination yields at least
one page and at most one page per block; when every block's estimated height is at most
CONTENT_HEIGHT it yields at least ceil(totalEstimatedHeight / CONTENT_HEIGHT) pages; and
when the total estimated height is at most CONTENT_HEIGHT it yields exactly
max(1, ceil(totalEstimatedHeight / CONTENT_HEIGHT)) = 1 page (three paragraphs of 30px
each give 1 page). -/
theorem createAutomaticPagination_count (childNodes : List Node) (hne : childNodes ≠ []) :
    1 ≤ (createAutomaticPagination childNodes).length
    ∧ (createAutomaticPagination childNodes).length ≤ childNodes.length
    ∧ ((∀ n ∈ childNodes, elementHeight n ≤ CONTENT_HEIGHT) →
        (totalEstimatedHeight childNodes + (CONTENT_HEIGHT - 1)) / CONTENT_HEIGHT
          ≤ (createAutomaticPagination childNodes).length)
    ∧ (totalEstimatedHeight childNodes ≤ CONTENT_HEIGHT →
        (createAutomaticPagination childNodes).length
          = max 1 ((totalEstimatedHeight childNodes + (CONTENT_HEIGHT - 1)) / CONTENT_HEIGHT)
        ∧ (createAutomaticPagination childNodes).length = 1) := by
  have hflat := createAutomaticPagination_flatten childNodes
  have hnonempty : ∀ r ∈ createAutomaticPagination childNodes, r ≠ [] :=
    fun r hr => (createAutomaticPagination_pages childNodes r hr).1
  refine ⟨?_, ?_, ?_, ?_⟩
  · apply List.length_pos.mpr
    intro hnil
    rw [hnil] at hflat
    exact hne hflat.symm
  · have := length_le_length_flatten _ hnonempty
    rwa [hflat] at this
  · intro hblocks
    have hsum := totalEstimatedHeight_flatten_le _ CONTENT_HEIGHT
      (createAutomaticPagination_page_height childNodes hblocks)
    rw [hflat] at hsum
    simp only [CONTENT_HEIGHT, DEFAULT_HEIGHT, DEFAULT_MARGIN] at hsum ⊢
    omega
  · intro hfit
    rw [createAutomaticPagination_single childNodes hne hfit]
    simp only [CONTENT_HEIGHT, DEFAULT_HEIGHT, DEFAULT_MARGIN] at hfit ⊢
    refine ⟨?_, rfl⟩
    have : (totalEstimatedHeight childNodes + (1056 - 96 * 2 - 1)) / (1056 - 96 * 2) ≤ 1 := by
      omega
    simp only [List.length_singleton]
    omega

/-- Witness for C3 (amended): three paragraphs of 30px each give exactly one page. -/
theorem createAutomaticPagination_count_witness :
    [para 0 40, para 1 80, para 2 1] ≠ []
    ∧ totalEstimatedHeight [para 0 40, para 1 80, para 2 1] = 90
    ∧ (createAutomaticPagination [para 0 40, para 1 80, para 2 1]).length = 1 :=
  ⟨by decide, by decide,
    ((createAutomaticPagination_count [para 0 40, para 1 80, para 2 1] (by decide)).2.2.2
      (by decide)).2⟩

/-! ## Canvas dimensions -/

theorem canvasDimension_eq_floor (x : ℚ) : canvasDimension x = ⌊x⌋₊ :=
  Int.floor_toNat x

theorem canvasDimension_natCast (n : Nat) : canvasDimension (n : ℚ) = n := by
  rw [canvasDimension_eq_floor]
  exact Nat.floor_natCast n

/-! ## JavaScript arrays -/

theorem arrayAt_natCast {α : Type} (arr : List (Option α)) (i : Nat) :
    arrayAt arr (i : Int) = arr.getD i none := by
  unfold arrayAt
  rw [if_neg (by omega)]
  rfl

theorem arrayAssign_length {α : Type} (arr : List (Option α)) (i : Nat) (v : α) :
    (arrayAssign arr i v).length = max arr.length (i + 1) := by
  unfold arrayAssign
  split
  · simp only [List.length_set]
    omega
  · simp only [List.length_append, List.length_replicate, List.length_singleton]
    omega

theorem arrayAssign_getD {α : Type} (arr : List (Option α)) (i j : Nat) (v : α) :
    (arrayAssign arr i v).getD j none = if j = i then some v else arr.getD j none := by
  unfold arrayAssign
  simp only [List.getD_eq_getElem?_getD]
  split
  · rename_i h
    rw [List.getElem?_set]
    by_cases hji : j = i
    · subst hji
      simp [h]
    · have : ¬ i = j := fun e => hji e.symm
      simp [hji, this]
  · rename_i h
    by_cases hji : j = i
    · subst hji
      rw [List.getElem?_append_right (by simp; omega)]
      have e : j - (arr ++ List.replicate (j - arr.length) none).length = 0 := by
        simp only [List.length_append, List.length_replicate]
        omega
      rw [e]
      simp
    · simp only [hji, if_false]
      by_cases hlt : j < arr.length
      · rw [List.append_assoc, List.getElem?_append_left hlt]
      · rw [List.getElem?_eq_none (l := arr) (by omega)]
        by_cases hj2 : j < i
        · rw [List.getElem?_append_left (by simp; omega),
            List.getElem?_append_right (by omega), List.getElem?_replicate]
          split <;> rfl
        · rw [List.getElem?_eq_none (by simp; omega)]

/-! ## updated-docx-handler.js: the primary strategy -/

theorem renderPageElement_documentPages (fails : Nat → Bool) (st : State) (index : Nat) :
    (Updated.renderPageElement fails st index).documentPages
      = arrayAssign st.documentPages index
          (Updated.expectedSurface fails st.pageSettings index) := by
  unfold Updated.renderPageElement Updated.expectedSurface
  by_cases h : fails index = true <;> simp [h]

theorem renderPageElement_frame (fails : Nat → Bool) (st : State) (index : Nat) :
    (Updated.renderPageElement fails st index).pageSettings = st.pageSettings
    ∧ (Updated.renderPageElement fails st index).currPageIndex = st.currPageIndex
    ∧ (Updated.renderPageElement fails st index).documentLoaded = st.documentLoaded
    ∧ (Updated.renderPageElement fails st index).canvas = st.canvas := by
  unfold Updated.renderPageElement
  by_cases h : fails index = true <;> simp [h]

theorem renderBatch_spec (fails : Nat → Bool) (order : List Nat) :
    ∀ (st : State),
      (order.foldl (Updated.renderPageElement fails) st).pageSettings = st.pageSettings
      ∧ (order.foldl (Updated.renderPageElement fails) st).currPageIndex = st.currPageIndex
      ∧ (order.foldl (Updated.renderPageElement fails) st).canvas = st.canvas
      ∧ st.documentPages.length
          ≤ (order.foldl (Updated.renderPageElement fails) st).documentPages.length
      ∧ (∀ i ∈ order,
          i < (order.foldl (Updated.renderPageElement fails) st).documentPages.length)
      ∧ (∀ bound, st.documentPages.length ≤ bound → (∀ i ∈ order, i < bound) →
          (order.foldl (Updated.renderPageElement fails) st).documentPages.length ≤ bound)
      ∧ (∀ j, (order.foldl (Updated.renderPageElement fails) st).documentPages.getD j none
          = if j ∈ order then some (Updated.expectedSurface fails st.pageSettings j)
            else st.documentPages.getD j none) := by
  induction order with
  | nil => intro st; simp
  | cons i rest ih =>
    intro st
    obtain ⟨h1, h2, h3, h4, h5, h6, h7⟩ := ih (Updated.renderPageElement fails st i)
    obtain ⟨f1, f2, _, f4⟩ := renderPageElement_frame fails st i
    have hlen : (Updated.renderPageElement fails st i).documentPages.length
        = max st.documentPages.length (i + 1) := by
      rw [renderPageElement_documentPages, arrayAssign_length]
    simp only [List.foldl_cons]
    refine ⟨h1.trans f1, h2.trans f2, h3.trans f4, by omega, ?_, ?_, ?_⟩
    · intro k hk
      simp only [List.mem_cons] at hk
      rcases hk with hk | hk
      · subst hk; omega
      · exact h5 k hk
    · intro bound hb hall
      apply h6 bound
      · have := hall i (by simp)
        omega
      · intro k hk
        exact hall k (by simp [hk])
    · intro j
      rw [h7 j, f1, renderPageElement_documentPages, arrayAssign_getD]
      by_cases hj : j ∈ rest
      · simp [hj]
      · by_cases hji : j = i
        · subst hji; simp
        · simp [hj, hji]

theorem processNextBatch_spec (fails : Nat → Bool) (settle : List Nat → List Nat)
    (hsettle : ∀ l, (settle l).Perm l) (n : Nat) :
    ∀ (fuel currentBatch : Nat) (st : State) (batches : List (List Nat)),
      Updated.Filled fails st.pageSettings st.documentPages (min (currentBatch * 3) n) →
      n - currentBatch * 3 < fuel →
      ∃ st2 bs, Updated.processNextBatch fails settle n fuel currentBatch st batches
          = some (st2, bs)
        ∧ Updated.Filled fails st.pageSettings st2.documentPages n
        ∧ st2.documentLoaded = true
        ∧ st2.pageSettings = st.pageSettings
        ∧ st2.currPageIndex = st.currPageIndex
        ∧ st2.canvas = st.canvas := by
  intro fuel
  induction fuel with
  | zero => intro cb st batches _ hfuel; omega
  | succ fuel ih =>
    intro cb st batches hfilled hfuel
    rw [Updated.processNextBatch]
    simp only [Updated.batchSize]
    by_cases hdone : cb * 3 ≥ n
    · rw [if_pos hdone]
      refine ⟨_, _, rfl, ?_, rfl, rfl, rfl, rfl⟩
      have e : min (cb * 3) n = n := by omega
      rw [e] at hfilled
      exact hfilled
    · rw [if_neg hdone]
      have hm : min (cb * 3) n = cb * 3 := by omega
      rw [hm] at hfilled
      obtain ⟨hlen, hget⟩ := hfilled
      have hmem : ∀ i, i ∈ settle (List.range' (cb * 3) (min (cb * 3 + 3) n - cb * 3))
          ↔ cb * 3 ≤ i ∧ i < min (cb * 3 + 3) n := by
        intro i
        rw [(hsettle _).mem_iff, List.mem_range'_1]
        omega
      obtain ⟨h1, h2, h3, h4, h5, h6, h7⟩ := renderBatch_spec fails
        (settle (List.range' (cb * 3) (min (cb * 3 + 3) n - cb * 3))) st
      have hnext : Updated.Filled fails st.pageSettings
          ((settle (List.range' (cb * 3) (min (cb * 3 + 3) n - cb * 3))).foldl
            (Updated.renderPageElement fails) st).documentPages
          (min ((cb + 1) * 3) n) := by
        constructor
        · have hlast := h5 (min (cb * 3 + 3) n - 1) ((hmem _).mpr (by omega))
          have hle := h6 (min (cb * 3 + 3) n) (by omega)
            (fun i hi => ((hmem i).mp hi).2)
          omega
        · intro j hj
          rw [h7 j]
          by_cases hin : j ∈ settle (List.range' (cb * 3) (min (cb * 3 + 3) n - cb * 3))
          · simp [hin]
          · simp only [hin, if_false]
            apply hget
            have := (hmem j).not.mp hin
            omega
      rw [← h1] at hnext
      obtain ⟨st2, bs, e1, e2, e3, e4, e5, e6⟩ := ih (cb + 1) _ (batches ++
        [List.range' (cb * 3) (min (cb * 3 + 3) n - cb * 3)]) hnext (by omega)
      refine ⟨st2, bs, e1, ?_, e3, e4.trans h1, e5.trans h2, e6.trans h3⟩
      rw [h1] at e2
      exact e2

/-- C6: on a first load through the primary path with n >= 1 pages, whichever pages fail
to rasterize and in whatever order the renders of a batch settle, the load completes with
the document marked loaded, documentPages holds exactly one surface for every index in
[0, n), each of the size pageSettings.width x pageSettings.height and a placeholder for
each failed page, and pageCount() returns n. -/
theorem primary_load_fills_pages (canvas : OutputCanvas) (n w h : Nat) (fails : Nat → Bool)
    (settle : List Nat → List Nat) (mammoth : Mammoth) (fallbackFails : Nat → Bool)
    (hn : 1 ≤ n) (hsettle : ∀ l, (settle l).Perm l) :
    (Updated.processDocument (State.initial canvas) (Updated.RenderAsync.resolves n w h)
        fails settle mammoth fallbackFails).promise = Promise.resolved
    ∧ (Updated.processDocument (State.initial canvas) (Updated.RenderAsync.resolves n w h)
        fails settle mammoth fallbackFails).state.documentLoaded = true
    ∧ (Updated.processDocument (State.initial canvas) (Updated.RenderAsync.resolves n w h)
        fails settle mammoth fallbackFails).state.documentPages.length = n
    ∧ (Updated.processDocument (State.initial canvas) (Updated.RenderAsync.resolves n w h)
        fails settle mammoth fallbackFails).state.pageCount = n
    ∧ ∀ i : Nat, i < n → ∃ surface,
        arrayAt (Updated.processDocument (State.initial canvas)
          (Updated.RenderAsync.resolves n w h) fails settle mammoth
          fallbackFails).state.documentPages i = some surface
        ∧ surface.width = (Updated.processDocument (State.initial canvas)
            (Updated.RenderAsync.resolves n w h) fails settle mammoth
            fallbackFails).state.pageSettings.width
        ∧ surface.height = (Updated.processDocument (State.initial canvas)
            (Updated.RenderAsync.resolves n w h) fails settle mammoth
            fallbackFails).state.pageSettings.height
        ∧ (fails i = true → surface.source = Source.errorPage i)
        ∧ (fails i = false → surface.source = Source.pageElement i) := by
  have hn0 : ¬ n = 0 := by omega
  obtain ⟨st2, bs, e1, ⟨hlen, hget⟩, e3, e4, _, _⟩ := processNextBatch_spec fails settle
    hsettle n (n + 1) 0
    { State.initial canvas with
      pageSettings := { (State.initial canvas).pageSettings with width := w, height := h } } []
    (by constructor <;> simp [State.initial]) (by omega)
  have hrun : Updated.processDocument (State.initial canvas)
      (Updated.RenderAsync.resolves n w h) fails settle mammoth fallbackFails
      = { state := st2, promise := Promise.resolved, calls := [Updated.Strategy.docxPreview],
          fallbackPromise := none, batches := bs } := by
    simp only [Updated.processDocument, hn0, if_false]
    rw [e1]
  rw [hrun]
  refine ⟨rfl, e3, hlen, ?_, ?_⟩
  · simp [State.pageCount, hlen, hn0]
  · intro i hi
    refine ⟨Updated.expectedSurface fails st2.pageSettings i, ?_, ?_, ?_, ?_, ?_⟩
    · have := hget i hi
      rw [← e4] at this
      simpa [arrayAt] using this
    · show ((canvasDimension st2.pageSettings.width : Nat) : ℚ) = st2.pageSettings.width
      rw [e4]
      show ((canvasDimension (w : ℚ) : Nat) : ℚ) = (w : ℚ)
      rw [canvasDimension_natCast]
    · show ((canvasDimension st2.pageSettings.height : Nat) : ℚ) = st2.pageSettings.height
      rw [e4]
      show ((canvasDimension (h : ℚ) : Nat) : ℚ) = (h : ℚ)
      rw [canvasDimension_natCast]
    · intro hf; simp [Updated.expectedSurface, hf]
    · intro hf; simp [Updated.expectedSurface, hf]

/-- Witness for C6: five pages of which pages 1 and 4 fail, each batch settling in reverse
order. -/
theorem primary_load_fills_pages_witness :
    (1 ≤ 5 ∧ ∀ l : List Nat, (List.reverse l).Perm l)
    ∧ (Updated.processDocument (State.initial { width := 300, height := 150, ops := [] })
        (Updated.RenderAsync.resolves 5 794 1123) (fun i => i == 1 || i == 4) List.reverse
        Mammoth.rejects (fun _ => false)).state.pageCount = 5 :=
  ⟨⟨by decide, fun l => List.reverse_perm l⟩,
    (primary_load_fills_pages { width := 300, height := 150, ops := [] } 5 794 1123
      (fun i => i == 1 || i == 4) List.reverse Mammoth.rejects (fun _ => false) (by decide)
      (fun l => List.reverse_perm l)).2.2.2.1⟩

theorem processNextBatch_terminates (fails : Nat → Bool) (settle : List Nat → List Nat)
    (n : Nat) :
    ∀ (fuel currentBatch : Nat) (st : State) (batches : List (List Nat)),
      n - currentBatch * 3 < fuel →
      ∃ r, Updated.processNextBatch fails settle n fuel currentBatch st batches = some r := by
  intro fuel
  induction fuel with
  | zero => intro cb st batches hfuel; omega
  | succ fuel ih =>
    intro cb st batches hfuel
    rw [Updated.processNextBatch]
    simp only [Updated.batchSize]
    by_cases hdone : cb * 3 ≥ n
    · rw [if_pos hdone]
      exact ⟨_, rfl⟩
    · rw [if_neg hdone]
      exact ih (cb + 1) _ _ (by omega)

theorem processMammothFallback_rejected (st : State) (mammoth : Mammoth)
    (fallbackFails : Nat → Bool) :
    (Updated.processMammothFallback st mammoth fallbackFails).2 = Promise.rejected
      ↔ mammoth = Mammoth.rejects := by
  cases mammoth with
  | rejects => simp [Updated.processMammothFallback]
  | resolves childNodes scrollHeight =>
    simp only [Updated.processMammothFallback]
    split
    · split <;> simp
    · simp

theorem estimatedPageCount_pos (contentHeight : Nat) (contentPerPage : ℚ)
    (hpos : 0 < contentPerPage) :
    Updated.estimatedPageCount contentHeight contentPerPage
      = some (max 1 ⌈(contentHeight : ℚ) / contentPerPage⌉₊) := by
  simp [Updated.estimatedPageCount, hpos]

theorem initial_contentPerPage (canvas : OutputCanvas) :
    (State.initial canvas).pageSettings.contentPerPage = 864 := by
  simp [State.initial, PageSettings.contentPerPage, DPI]
  norm_num

theorem processMammothFallback_height (st : State) (childNodes : List Node)
    (scrollHeight : Nat) (fails : Nat → Bool)
    (hauto : (querySelectorAllPageBreak childNodes).length = 0)
    (hpos : 0 < st.pageSettings.contentPerPage) :
    Updated.processMammothFallback st (Mammoth.resolves childNodes scrollHeight) fails
      = ({ st with
            documentPages :=
              (List.range (max 1 ⌈(scrollHeight : ℚ) / st.pageSettings.contentPerPage⌉₊)).map
                fun i => some
                  { width := canvasDimension st.pageSettings.width
                    height := canvasDimension st.pageSettings.height
                    source := if fails i then Source.blank
                      else Source.window (pageWindow st.pageSettings i) }
            documentLoaded := true },
          Promise.resolved) := by
  have hcount := estimatedPageCount_pos scrollHeight st.pageSettings.contentPerPage hpos
  unfold PageSettings.contentPerPage at hcount
  unfold Updated.processMammothFallback
  simp only [hauto, if_true]
  rw [hcount]
  rfl

theorem updated_reloaded_state :
    Updated.reloaded.currPageIndex = 2 ∧ Updated.reloaded.documentPages.length = 1 := by
  have hdrawn : ∃ drawn : State, drawn.currPageIndex = 2
      ∧ drawn.pageSettings
        = (State.initial { width := 300, height := 150, ops := [] }).pageSettings
      ∧ Updated.reloaded = (Updated.processDocument drawn Updated.RenderAsync.rejects
          (fun _ => false) id (Mammoth.resolves [para 0 10] 20) (fun _ => false)).state :=
    ⟨_, by decide, by decide, rfl⟩
  obtain ⟨drawn, hindex, hsettings, hreloaded⟩ := hdrawn
  have hpos : 0 < drawn.pageSettings.contentPerPage := by
    rw [hsettings, initial_contentPerPage]
    norm_num
  have hone : max 1 ⌈((20 : Nat) : ℚ) / drawn.pageSettings.contentPerPage⌉₊ = 1 := by
    rw [hsettings, initial_contentPerPage]
    have : ⌈((20 : Nat) : ℚ) / 864⌉₊ = 1 := by
      rw [Nat.ceil_eq_iff (by norm_num)]
      norm_num
    rw [this]
    rfl
  rw [hreloaded]
  simp only [Updated.processDocument, Updated.viaFallback]
  rw [processMammothFallback_height drawn [para 0 10] 20 (fun _ => false) (by decide) hpos,
    hone]
  exact ⟨hindex, rfl⟩

/-- C7: processDocument calls the primary strategy once; it calls processMammothFallback
exactly once when the primary strategy fails (it throws, its promise rejects or it yields
zero pages) and never otherwise; the load is rejected if and only if the primary strategy
fails and the promise of the fallback is rejected; no strategy is called twice. -/
theorem fallback_invoked_once (st : State) (primary : Updated.RenderAsync)
    (fails : Nat → Bool) (settle : List Nat → List Nat) (mammoth : Mammoth)
    (fallbackFails : Nat → Bool) :
    (Updated.processDocument st primary fails settle mammoth fallbackFails).calls.count
        Updated.Strategy.mammothFallback = (if primary.failed then 1 else 0)
    ∧ (Updated.processDocument st primary fails settle mammoth fallbackFails).calls.count
        Updated.Strategy.docxPreview = 1
    ∧ (Updated.processDocument st primary fails settle mammoth fallbackFails).calls.Nodup
    ∧ (Updated.processDocument st primary fails settle mammoth fallbackFails).fallbackPromise
        = (if primary.failed then
            some (Updated.processMammothFallback st mammoth fallbackFails).2 else none)
    ∧ ((Updated.processDocument st primary fails settle mammoth fallbackFails).promise
        = Promise.rejected
        ↔ primary.failed = true
          ∧ (Updated.processMammothFallback st mammoth fallbackFails).2 = Promise.rejected)
    ∧ (Updated.processDocument st primary fails settle mammoth fallbackFails).promise
        = (if primary.failed then (Updated.processMammothFallback st mammoth fallbackFails).2
            else Promise.resolved) := by
  cases primary with
  | throws =>
    simp [Updated.processDocument, Updated.viaFallback, Updated.RenderAsync.failed]
  | rejects =>
    simp [Updated.processDocument, Updated.viaFallback, Updated.RenderAsync.failed]
  | resolves n w h =>
    by_cases hn : n = 0
    · simp [Updated.processDocument, Updated.viaFallback, Updated.RenderAsync.failed, hn]
    · obtain ⟨r, hr⟩ := processNextBatch_terminates fails settle n (n + 1) 0
        { st with pageSettings := { st.pageSettings with width := w, height := h } } []
        (by omega)
      simp only [Updated.processDocument, hn, if_false, hr, Updated.RenderAsync.failed]
      simp [hn]

/-! ## pagination-focused-docx-handler.js: the render cache -/

theorem clampIndex_nonneg (index : Int) (length : Nat) : 0 ≤ clampIndex index length := by
  unfold clampIndex
  omega

theorem clampIndex_le (index : Int) (length : Nat) (h : length ≠ 0) :
    clampIndex index length ≤ (length : Int) - 1 := by
  unfold clampIndex
  omega

theorem arrayAt_clampIndex {α : Type} (arr : List (Option α)) (index : Int) (length : Nat) :
    arrayAt arr (clampIndex index length) = arr.getD (clampIndex index length).toNat none := by
  have := clampIndex_nonneg index length
  unfold arrayAt
  rw [if_neg (by omega)]

theorem focused_redrawStart_empty (st : Focused.State) (scale rotation : ℚ) (index : Int)
    (h : st.pageContents.length = 0) :
    Focused.redrawStart st scale rotation index
      = (st, Focused.Started.done (Completion.error "No pages available")) := by
  simp [Focused.redrawStart, h]

theorem focused_redrawStart_hit (st : Focused.State) (scale rotation : ℚ) (index : Int)
    (cached : Canvas) (h : st.pageContents.length ≠ 0)
    (hc : arrayAt st.renderedPages (clampIndex index st.pageContents.length) = some cached) :
    Focused.redrawStart st scale rotation index
      = ({ st with
            currPageIndex := clampIndex index st.pageContents.length
            canvas := (st.canvas.resize (cached.width * scale) (cached.height * scale)).draw
              [CtxOp.scale scale scale, CtxOp.drawImage cached 0 0] },
          Focused.Started.done Completion.ok) := by
  simp only [Focused.redrawStart, h, if_false, hc]

theorem focused_redrawStart_miss (st : Focused.State) (scale rotation : ℚ) (index : Int)
    (h : st.pageContents.length ≠ 0)
    (hc : arrayAt st.renderedPages (clampIndex index st.pageContents.length) = none) :
    Focused.redrawStart st scale rotation index
      = ({ st with currPageIndex := clampIndex index st.pageContents.length },
          Focused.Started.awaiting
            { index := (clampIndex index st.pageContents.length).toNat
              content := st.pageContents.getD (clampIndex index st.pageContents.length).toNat []
              scale := scale, rotation := rotation }) := by
  simp only [Focused.redrawStart, h, if_false, hc]

theorem focused_redrawFinish_frame (st : Focused.State) (job : Focused.Job) (fails : Bool) :
    (Focused.redrawFinish st job fails).1.pageContents = st.pageContents
    ∧ (Focused.redrawFinish st job fails).1.currPageIndex = st.currPageIndex
    ∧ (Focused.redrawFinish st job fails).1.html2canvasCalls = st.html2canvasCalls + 1
    ∧ ∃ surface, (Focused.redrawFinish st job fails).1.renderedPages
        = arrayAssign st.renderedPages job.index surface := by
  cases fails <;> simp [Focused.redrawFinish]

theorem focused_redrawFinish_kept (base : List (Option Canvas)) (st : Focused.State)
    (job : Focused.Job) (fails : Bool) (hfree : base.getD job.index none = none)
    (hkept : Focused.CacheKept base st.renderedPages) :
    Focused.CacheKept base (Focused.redrawFinish st job fails).1.renderedPages := by
  obtain ⟨_, _, _, surface, hs⟩ := focused_redrawFinish_frame st job fails
  intro k c hk
  rw [hs, arrayAssign_getD]
  have hne : k ≠ job.index := by
    intro e
    rw [e, hfree] at hk
    exact Option.noConfusion hk
  simp only [hne, if_false]
  exact hkept k c hk

theorem focused_cacheKept_refl (pages : List (Option Canvas)) :
    Focused.CacheKept pages pages := fun _ _ h => h

theorem focused_cacheKept_trans {a b c : List (Option Canvas)}
    (hab : Focused.CacheKept a b) (hbc : Focused.CacheKept b c) : Focused.CacheKept a c :=
  fun k x h => hbc k x (hab k x h)

/-- What the synchronous part of `redraw` leaves untouched, and what it starts. -/
theorem focused_redrawStart_frame (st : Focused.State) (scale rotation : ℚ) (index : Int) :
    (Focused.redrawStart st scale rotation index).1.pageContents = st.pageContents
    ∧ (Focused.redrawStart st scale rotation index).1.renderedPages = st.renderedPages
    ∧ (Focused.redrawStart st scale rotation index).1.html2canvasCalls = st.html2canvasCalls
    ∧ (∀ job, (Focused.redrawStart st scale rotation index).2 = Focused.Started.awaiting job →
        st.renderedPages.getD job.index none = none)
    ∧ (st.pageContents.length = 0 →
        (Focused.redrawStart st scale rotation index).1.currPageIndex = st.currPageIndex)
    ∧ (st.pageContents.length ≠ 0 →
        (Focused.redrawStart st scale rotation index).1.currPageIndex
          = clampIndex index st.pageContents.length) := by
  by_cases h : st.pageContents.length = 0
  · rw [focused_redrawStart_empty st scale rotation index h]
    simp [h]
  · cases hc : arrayAt st.renderedPages (clampIndex index st.pageContents.length) with
    | some cached =>
      rw [focused_redrawStart_hit st scale rotation index cached h hc]
      simp [h]
    | none =>
      rw [focused_redrawStart_miss st scale rotation index h hc]
      refine ⟨rfl, rfl, rfl, ?_, fun h0 => absurd h0 h, fun _ => rfl⟩
      intro job hjob
      simp only [Focused.Started.awaiting.injEq] at hjob
      rw [← hjob]
      rw [arrayAt_clampIndex] at hc
      exact hc

theorem export_complete_state {σ : Type} (e : Export σ) (st : σ) (canvas : OutputCanvas)
    (expected : Int) : (e.complete st canvas expected).state = st := rfl

theorem focused_issue_induct (Q : Focused.State → Prop) (expected : Int)
    (hstart : ∀ s scale rotation i, Q s → Q (Focused.redrawStart s scale rotation i).1)
    (indices : List Int) :
    ∀ (l : Focused.Loop), Q l.progress.state →
      Q (indices.foldl
        (fun (l : Focused.Loop) i =>
          match Focused.redrawStart l.progress.state 1 0 i with
          | (st1, Focused.Started.done _) =>
            { progress := l.progress.complete st1 st1.canvas expected, jobs := l.jobs }
          | (st1, Focused.Started.awaiting job) =>
            { progress := { l.progress with state := st1 }, jobs := l.jobs ++ [job] })
        l).progress.state := by
  induction indices with
  | nil => intro l h; exact h
  | cons i rest ih =>
    intro l h
    rw [List.foldl_cons]
    apply ih
    have hq := hstart l.progress.state 1 0 i h
    generalize Focused.redrawStart l.progress.state 1 0 i = r at hq
    obtain ⟨st1, started⟩ := r
    cases started <;> exact hq

theorem focused_settle_induct (Q : Focused.State → Prop) (expected : Int) (fails : Nat → Bool)
    (hfinish : ∀ s job f, Q s → Q (Focused.redrawFinish s job f).1) (jobs : List Focused.Job) :
    ∀ (e : Export Focused.State), Q e.state →
      Q (jobs.foldl
        (fun (e : Export Focused.State) job =>
          let r := Focused.redrawFinish e.state job (fails job.index)
          e.complete r.1 r.1.canvas expected)
        e).state := by
  induction jobs with
  | nil => intro e h; exact h
  | cons job rest ih =>
    intro e h
    rw [List.foldl_cons]
    apply ih
    exact hfinish e.state job (fails job.index) h

theorem focused_createCanvases_induct (Q : Focused.State → Prop)
    (hstart : ∀ s scale rotation i, Q s → Q (Focused.redrawStart s scale rotation i).1)
    (hfinish : ∀ s job f, Q s → Q (Focused.redrawFinish s job f).1)
    (st : Focused.State) (fromPage pageCount : Int)
    (settle : List Focused.Job → List Focused.Job) (fails : Nat → Bool) (h : Q st) :
    Q (Focused.createCanvases st fromPage pageCount settle fails).state := by
  unfold Focused.createCanvases
  split
  · exact h
  · apply focused_settle_induct Q _ fails hfinish
    apply focused_issue_induct Q _ hstart
    exact h

theorem focused_redraw_induct (Q : Focused.State → Prop)
    (hstart : ∀ s scale rotation i, Q s → Q (Focused.redrawStart s scale rotation i).1)
    (hfinish : ∀ s job f, Q s → Q (Focused.redrawFinish s job f).1)
    (st : Focused.State) (scale rotation : ℚ) (index : Int) (fails : Bool) (h : Q st) :
    Q (Focused.redraw st scale rotation index fails).1 := by
  unfold Focused.redraw
  have hq := hstart st scale rotation index h
  generalize Focused.redrawStart st scale rotation index = r at hq
  obtain ⟨st1, started⟩ := r
  cases started with
  | done completion => exact hq
  | awaiting job => exact hfinish st1 job fails hq

theorem focused_perform_induct (Q : Focused.State → Prop)
    (hstart : ∀ s scale rotation i, Q s → Q (Focused.redrawStart s scale rotation i).1)
    (hfinish : ∀ s job f, Q s → Q (Focused.redrawFinish s job f).1)
    (st : Focused.State) (op : Focused.Op) (h : Q st) : Q (Focused.perform st op) := by
  cases op with
  | redraw scale rotation index fails =>
    exact focused_redraw_induct Q hstart hfinish st scale rotation index fails h
  | drawDocument scale rotation fails =>
    exact focused_redraw_induct Q hstart hfinish st scale rotation st.currPageIndex fails h
  | createCanvases fromPage pageCount settle fails =>
    exact focused_createCanvases_induct Q hstart hfinish st fromPage pageCount settle fails h

theorem focused_perform_pageContents (st : Focused.State) (op : Focused.Op) :
    (Focused.perform st op).pageContents = st.pageContents := by
  apply focused_perform_induct (fun s => s.pageContents = st.pageContents)
  · intro s scale rotation i h
    exact (focused_redrawStart_frame s scale rotation i).1.trans h
  · intro s job f h
    exact (focused_redrawFinish_frame s job f).1.trans h
  · rfl

theorem focused_redraw_kept (st : Focused.State) (scale rotation : ℚ) (index : Int)
    (fails : Bool) :
    Focused.CacheKept st.renderedPages
      (Focused.redraw st scale rotation index fails).1.renderedPages := by
  unfold Focused.redraw
  obtain ⟨_, h2, _, h4, _, _⟩ := focused_redrawStart_frame st scale rotation index
  generalize Focused.redrawStart st scale rotation index = r at h2 h4
  obtain ⟨st1, started⟩ := r
  cases started with
  | done completion =>
    simp only at h2 ⊢
    rw [h2]
    exact focused_cacheKept_refl _
  | awaiting job =>
    simp only at h2 h4 ⊢
    apply focused_redrawFinish_kept st.renderedPages st1 job fails (h4 job rfl)
    rw [h2]
    exact focused_cacheKept_refl _

theorem focused_issue_jobs (base : List (Option Canvas)) (expected : Int)
    (indices : List Int) :
    ∀ (l : Focused.Loop), l.progress.state.renderedPages = base →
      (∀ job ∈ l.jobs, base.getD job.index none = none) →
      (indices.foldl
        (fun (l : Focused.Loop) i =>
          match Focused.redrawStart l.progress.state 1 0 i with
          | (st1, Focused.Started.done _) =>
            { progress := l.progress.complete st1 st1.canvas expected, jobs := l.jobs }
          | (st1, Focused.Started.awaiting job) =>
            { progress := { l.progress with state := st1 }, jobs := l.jobs ++ [job] })
        l).progress.state.renderedPages = base
      ∧ ∀ job ∈ (indices.foldl
        (fun (l : Focused.Loop) i =>
          match Focused.redrawStart l.progress.state 1 0 i with
          | (st1, Focused.Started.done _) =>
            { progress := l.progress.complete st1 st1.canvas expected, jobs := l.jobs }
          | (st1, Focused.Started.awaiting job) =>
            { progress := { l.progress with state := st1 }, jobs := l.jobs ++ [job] })
        l).jobs, base.getD job.index none = none := by
  induction indices with
  | nil => intro l h1 h2; exact ⟨h1, h2⟩
  | cons i rest ih =>
    intro l h1 h2
    rw [List.foldl_cons]
    obtain ⟨_, f2, _, f4, _, _⟩ := focused_redrawStart_frame l.progress.state 1 0 i
    generalize Focused.redrawStart l.progress.state 1 0 i = r at f2 f4
    obtain ⟨st1, started⟩ := r
    cases started with
    | done completion =>
      apply ih
      · exact f2.trans h1
      · exact h2
    | awaiting job =>
      apply ih
      · exact f2.trans h1
      · intro j hj
        simp only [List.mem_append, List.mem_singleton] at hj
        rcases hj with hj | hj
        · exact h2 j hj
        · subst hj
          rw [← h1]
          exact f4 j rfl

theorem focused_settle_kept (base : List (Option Canvas)) (expected : Int)
    (fails : Nat → Bool) (jobs : List Focused.Job) :
    ∀ (e : Export Focused.State), Focused.CacheKept base e.state.renderedPages →
      (∀ job ∈ jobs, base.getD job.index none = none) →
      Focused.CacheKept base (jobs.foldl
        (fun (e : Export Focused.State) job =>
          let r := Focused.redrawFinish e.state job (fails job.index)
          e.complete r.1 r.1.canvas expected)
        e).state.renderedPages := by
  induction jobs with
  | nil => intro e h _; exact h
  | cons job rest ih =>
    intro e h hfree
    rw [List.foldl_cons]
    apply ih
    · exact focused_redrawFinish_kept base e.state job (fails job.index)
        (hfree job (by simp)) h
    · intro j hj
      exact hfree j (by simp [hj])

theorem focused_createCanvases_kept (st : Focused.State) (fromPage pageCount : Int)
    (settle : List Focused.Job → List Focused.Job) (fails : Nat → Bool)
    (hsettle : ∀ jobs, (settle jobs).Perm jobs) :
    Focused.CacheKept st.renderedPages
      (Focused.createCanvases st fromPage pageCount settle fails).state.renderedPages := by
  unfold Focused.createCanvases
  split
  · exact focused_cacheKept_refl _
  · simp only
    obtain ⟨h1, h2⟩ := focused_issue_jobs st.renderedPages
      (min ((st.pageContents.length : Int) - 1) (fromPage + pageCount - 1) - fromPage + 1)
      (loopIndices fromPage (min ((st.pageContents.length : Int) - 1)
        (fromPage + pageCount - 1)))
      { progress := { state := st, canvases := [], completed := 0, callbacks := [] },
        jobs := [] } rfl (by simp)
    apply focused_settle_kept
    · rw [h1]
      exact focused_cacheKept_refl _
    · intro job hjob
      exact h2 job ((hsettle _).mem_iff.mp hjob)

theorem focused_perform_kept (st : Focused.State) (op : Focused.Op) (hop : op.settlesAll) :
    Focused.CacheKept st.renderedPages (Focused.perform st op).renderedPages := by
  cases op with
  | redraw scale rotation index fails => exact focused_redraw_kept st scale rotation index fails
  | drawDocument scale rotation fails =>
    exact focused_redraw_kept st scale rotation st.currPageIndex fails
  | createCanvases fromPage pageCount settle fails =>
    exact focused_createCanvases_kept st fromPage pageCount settle fails hop

theorem focused_run_kept (ops : List Focused.Op) :
    ∀ (st : Focused.State), (∀ op ∈ ops, op.settlesAll) →
      (ops.foldl Focused.perform st).pageContents = st.pageContents
      ∧ Focused.CacheKept st.renderedPages (ops.foldl Focused.perform st).renderedPages := by
  induction ops with
  | nil => intro st _; exact ⟨rfl, focused_cacheKept_refl _⟩
  | cons op rest ih =>
    intro st hops
    obtain ⟨h1, h2⟩ := ih (Focused.perform st op) (fun o ho => hops o (by simp [ho]))
    rw [List.foldl_cons]
    refine ⟨h1.trans (focused_perform_pageContents st op), ?_⟩
    exact focused_cacheKept_trans (focused_perform_kept st op (hops op (by simp))) h2

theorem focused_redraw_fills (st : Focused.State) (scale rotation : ℚ) (index : Int)
    (fails : Bool) (h : st.pageContents.length ≠ 0) :
    (Focused.redraw st scale rotation index fails).1.pageContents = st.pageContents
    ∧ ∃ surface, (Focused.redraw st scale rotation index fails).1.renderedPages.getD
        (clampIndex index st.pageContents.length).toNat none = some surface := by
  cases hc : arrayAt st.renderedPages (clampIndex index st.pageContents.length) with
  | some cached =>
    simp only [Focused.redraw, focused_redrawStart_hit st scale rotation index cached h hc]
    rw [arrayAt_clampIndex] at hc
    exact ⟨by trivial, cached, hc⟩
  | none =>
    simp only [Focused.redraw, focused_redrawStart_miss st scale rotation index h hc]
    obtain ⟨f1, _, _, surface, hs⟩ := focused_redrawFinish_frame
      { st with currPageIndex := clampIndex index st.pageContents.length }
      { index := (clampIndex index st.pageContents.length).toNat
        content := st.pageContents.getD (clampIndex index st.pageContents.length).toNat []
        scale := scale, rotation := rotation } fails
    refine ⟨f1, surface, ?_⟩
    rw [hs, arrayAssign_getD]
    simp

/-! ## Exporting pages: `createCanvases` -/

/-- C9 (failing input): on a loaded document of one page, createCanvases with fromPage = 0
and pageCount = 2 hands its callback two entries, not min(2, 1 - 0) = 1: the loop runs up
to index documentPages.length.  In updated-docx-handler.js the second redraw is clamped and
draws page 0 again; in enhanced-docx-handler.js it is refused and the canvas still showing
page 0 is cloned again.  pagination-focused-docx-handler.js stops at pageContents.length - 1
and hands over one entry. -/
theorem createCanvases_exports_past_last_page :
    onePageLoaded.pageCount = 1
    ∧ (Updated.createCanvases onePageLoaded 0 2).callbacks.map List.length = [2]
    ∧ (Updated.createCanvases onePageLoaded 0 2).callbacks
      = [[{ width := 816, height := 1056, originalDocumentDpi := 96 },
          { width := 816, height := 1056, originalDocumentDpi := 96 }]]
    ∧ (Updated.redraw (Updated.redraw onePageLoaded 1 0 0).1 1 0 1).2 = Completion.ok
    ∧ (Updated.redraw (Updated.redraw onePageLoaded 1 0 0).1 1 0 1).1.currPageIndex = 0
    ∧ (Updated.redraw (Updated.redraw onePageLoaded 1 0 0).1 1 0 1).1.canvas.images.map
        (fun image => image.source) = [Source.pageElement 0]
    ∧ (Enhanced.createCanvases onePageLoaded 0 2).callbacks.map List.length = [2]
    ∧ (Enhanced.createCanvases onePageLoaded 0 2).callbacks
      = [[{ width := 816, height := 1056, originalDocumentDpi := 96 },
          { width := 816, height := 1056, originalDocumentDpi := 96 }]]
    ∧ (Enhanced.redraw (Enhanced.redraw onePageLoaded 1 0 0).1 1 0 1).2
      = Completion.error "Invalid page index"
    ∧ (Enhanced.redraw (Enhanced.redraw onePageLoaded 1 0 0).1 1 0 1).1.canvas.images.map
        (fun image => image.source) = [Source.pageElement 0]
    ∧ Focused.onePageLoaded.pageCount = 1
    ∧ (Focused.createCanvases Focused.onePageLoaded 0 2 id (fun _ => false)).callbacks.map
        List.length = [1] := by
  have hw : canvasDimension (816 : ℚ) = 816 := by
    have h : (816 : ℚ) = ((816 : Nat) : ℚ) := by norm_num
    rw [h, canvasDimension_natCast]
  have hh : canvasDimension (1056 : ℚ) = 1056 := by
    have h : (1056 : ℚ) = ((1056 : Nat) : ℚ) := by norm_num
    rw [h, canvasDimension_natCast]
  refine ⟨by decide, ?_, ?_, by decide, by decide, by decide, ?_, ?_, by decide, by decide,
    by decide, by decide⟩
  · simp [Updated.createCanvases, createCanvasesWith, loopIndices, Export.complete,
      Updated.redraw, onePageLoaded, State.initial, arrayAt, clampIndex, OutputCanvas.resize,
      OutputCanvas.draw, pageDrawCalls, DPI, hw, hh, List.range_succ]
  · simp [Updated.createCanvases, createCanvasesWith, loopIndices, Export.complete,
      Updated.redraw, onePageLoaded, State.initial, arrayAt, clampIndex, OutputCanvas.resize,
      OutputCanvas.draw, pageDrawCalls, DPI, hw, hh, List.range_succ]
  · simp [Enhanced.createCanvases, createCanvasesWith, loopIndices, Export.complete,
      Enhanced.redraw, onePageLoaded, State.initial, arrayAt, clampIndex, OutputCanvas.resize,
      OutputCanvas.draw, pageDrawCalls, DPI, hw, hh, List.range_succ]
  · simp [Enhanced.createCanvases, createCanvasesWith, loopIndices, Export.complete,
      Enhanced.redraw, onePageLoaded, State.initial, arrayAt, clampIndex, OutputCanvas.resize,
      OutputCanvas.draw, pageDrawCalls, DPI, hw, hh, List.range_succ]

/-! ## The active page index -/

theorem updated_redraw_inRange (st : State) (scale rotation : ℚ) (index : Int)
    (h : st.indexInRange) : (Updated.redraw st scale rotation index).1.indexInRange := by
  unfold Updated.redraw
  split
  · exact h
  · rename_i hguard
    have hlen : st.documentPages.length ≠ 0 := fun e => hguard (Or.inr e)
    have h0 := clampIndex_nonneg index st.documentPages.length
    have h1 := clampIndex_le index st.documentPages.length hlen
    simp only
    split <;> exact ⟨h0, by simpa [State.pageCount, hlen] using h1⟩

theorem enhanced_redraw_inRange (st : State) (scale rotation : ℚ) (index : Int)
    (h : st.indexInRange) : (Enhanced.redraw st scale rotation index).1.indexInRange := by
  unfold Enhanced.redraw
  split
  · exact h
  · split
    · exact h
    · rename_i hguard
      have hlen : st.documentPages.length ≠ 0 := by
        intro e
        rw [e] at hguard
        omega
      simp only
      split <;> refine ⟨by simp only; omega, ?_⟩ <;>
        simp only [State.pageCount, hlen, if_false] <;> omega

theorem createCanvasesWith_induct (Q : State → Prop)
    (redraw : State → ℚ → ℚ → Int → State × Completion)
    (hredraw : ∀ s scale rotation i, Q s → Q (redraw s scale rotation i).1)
    (st : State) (fromPage pageCount : Int) (h : Q st) :
    Q (createCanvasesWith redraw st fromPage pageCount).state := by
  unfold createCanvasesWith
  simp only
  generalize loopIndices fromPage _ = indices
  generalize hinit : ({ state := st, canvases := [], completed := 0, callbacks := [] } :
    Export State) = e
  have he : Q e.state := by rw [← hinit]; exact h
  clear hinit
  induction indices generalizing e with
  | nil => exact he
  | cons i rest ih =>
    rw [List.foldl_cons]
    apply ih
    exact hredraw e.state 1 0 i he

theorem updated_perform_inRange (st : State) (op : DrawOp) (h : st.indexInRange) :
    (Updated.perform st op).indexInRange := by
  cases op with
  | redraw scale rotation index => exact updated_redraw_inRange st scale rotation index h
  | drawDocument scale rotation =>
    exact updated_redraw_inRange st scale rotation st.currPageIndex h
  | createCanvases fromPage pageCount =>
    exact createCanvasesWith_induct State.indexInRange Updated.redraw
      updated_redraw_inRange st fromPage pageCount h

theorem enhanced_perform_inRange (st : State) (op : DrawOp) (h : st.indexInRange) :
    (Enhanced.perform st op).indexInRange := by
  cases op with
  | redraw scale rotation index => exact enhanced_redraw_inRange st scale rotation index h
  | drawDocument scale rotation =>
    exact enhanced_redraw_inRange st scale rotation st.currPageIndex h
  | createCanvases fromPage pageCount =>
    exact createCanvasesWith_induct State.indexInRange Enhanced.redraw
      enhanced_redraw_inRange st fromPage pageCount h

theorem focused_perform_inRange (st : Focused.State) (op : Focused.Op)
    (h : st.indexInRange) : (Focused.perform st op).indexInRange := by
  apply focused_perform_induct Focused.State.indexInRange
  · intro s scale rotation i hs
    obtain ⟨f1, _, _, _, f5, f6⟩ := focused_redrawStart_frame s scale rotation i
    by_cases hlen : s.pageContents.length = 0
    · unfold Focused.State.indexInRange Focused.State.pageCount at hs ⊢
      rw [f1, f5 hlen]
      exact hs
    · have h0 := clampIndex_nonneg i s.pageContents.length
      have h1 := clampIndex_le i s.pageContents.length hlen
      unfold Focused.State.indexInRange Focused.State.pageCount
      rw [f1, f6 hlen]
      simp only [hlen, if_false]
      exact ⟨h0, h1⟩
  · intro s job f hs
    obtain ⟨f1, f2, _, _⟩ := focused_redrawFinish_frame s job f
    unfold Focused.State.indexInRange Focused.State.pageCount at hs ⊢
    rw [f1, f2]
    exact hs
  · exact h

theorem processNextBatch_currPageIndex (fails : Nat → Bool) (settle : List Nat → List Nat)
    (n : Nat) :
    ∀ (fuel currentBatch : Nat) (st : State) (batches : List (List Nat))
      (r : State × List (List Nat)),
      Updated.processNextBatch fails settle n fuel currentBatch st batches = some r →
      r.1.currPageIndex = st.currPageIndex := by
  intro fuel
  induction fuel with
  | zero =>
    intro cb st batches r hr
    simp [Updated.processNextBatch] at hr
  | succ fuel ih =>
    intro cb st batches r hr
    rw [Updated.processNextBatch] at hr
    simp only at hr
    split at hr
    · simp only [Option.some.injEq] at hr
      rw [← hr]
    · rw [ih _ _ _ _ hr]
      exact (renderBatch_spec fails _ st).2.1

theorem updated_processDocument_currPageIndex (st : State) (primary : Updated.RenderAsync)
    (fails : Nat → Bool) (settle : List Nat → List Nat) (mammoth : Mammoth)
    (fallbackFails : Nat → Bool) :
    (Updated.processDocument st primary fails settle mammoth fallbackFails).state.currPageIndex
      = st.currPageIndex := by
  have hfb : (Updated.viaFallback st mammoth fallbackFails).state.currPageIndex
      = st.currPageIndex := by
    unfold Updated.viaFallback Updated.processMammothFallback
    cases mammoth with
    | rejects => rfl
    | resolves childNodes scrollHeight =>
      simp only
      split
      · split <;> rfl
      · rfl
  cases primary with
  | throws => exact hfb
  | rejects => exact hfb
  | resolves n w h =>
    unfold Updated.processDocument
    simp only
    split
    · exact hfb
    · split
      · rename_i r hr
        have e := processNextBatch_currPageIndex fails settle n _ _ _ _ r hr
        exact e
      · rfl

theorem focused_processWithMammoth_currPageIndex (st : Focused.State) (mammoth : Mammoth) :
    (Focused.processWithMammoth st mammoth).1.currPageIndex = st.currPageIndex := by
  unfold Focused.processWithMammoth
  cases mammoth with
  | rejects => rfl
  | resolves childNodes scrollHeight =>
    simp only
    split <;> rfl

theorem state_indexInRange_of_zero (st : State) (h : st.currPageIndex = 0) :
    st.indexInRange := by
  unfold State.indexInRange State.pageCount
  rw [h]
  split <;> omega

theorem focused_indexInRange_of_zero (st : Focused.State) (h : st.currPageIndex = 0) :
    st.indexInRange := by
  unfold Focused.State.indexInRange Focused.State.pageCount
  rw [h]
  split <;> omega

/-- C10 (counterexample): after a three-page document is loaded and its last page drawn,
loading a one-page document leaves currPageIndex = 2 while pageCount() = 1, in
pagination-focused-docx-handler.js and in updated-docx-handler.js. -/
theorem active_index_stale_after_reload :
    Focused.reloaded.currPageIndex = 2 ∧ Focused.reloaded.pageCount = 1
    ∧ ¬ Focused.reloaded.indexInRange
    ∧ Updated.reloaded.currPageIndex = 2 ∧ Updated.reloaded.pageCount = 1
    ∧ ¬ Updated.reloaded.indexInRange := by
  have hcount : Updated.reloaded.pageCount = 1 := by
    unfold State.pageCount
    rw [updated_reloaded_state.2]
    rfl
  refine ⟨by decide, by decide, ?_, updated_reloaded_state.1, hcount, ?_⟩
  · unfold Focused.State.indexInRange
    decide
  · unfold State.indexInRange
    rw [updated_reloaded_state.1, hcount]
    decide

/-- C10 (amended): the active page index is within [0, pageCount() - 1] in the constructor
state, and this bound is kept by every sequence of redraw, drawDocument and createCanvases
requests in all three handlers; loading a document does not write currPageIndex (shown for
updated-docx-handler.js and pagination-focused-docx-handler.js), so the bound holds after a
first load. -/
theorem active_index_in_range_between_loads (updated enhanced : State)
    (focused : Focused.State) (requests : List DrawOp) (focusedRequests : List Focused.Op)
    (canvas : OutputCanvas) (primary : Updated.RenderAsync) (fails : Nat → Bool)
    (settle : List Nat → List Nat) (mammoth : Mammoth) (fallbackFails : Nat → Bool)
    (hu : updated.indexInRange) (he : enhanced.indexInRange) (hf : focused.indexInRange) :
    (requests.foldl Updated.perform updated).indexInRange
    ∧ (requests.foldl Enhanced.perform enhanced).indexInRange
    ∧ (focusedRequests.foldl Focused.perform focused).indexInRange
    ∧ (State.initial canvas).indexInRange
    ∧ (Focused.State.initial canvas).indexInRange
    ∧ (Updated.processDocument updated primary fails settle mammoth
        fallbackFails).state.currPageIndex = updated.currPageIndex
    ∧ (Focused.processWithMammoth focused mammoth).1.currPageIndex = focused.currPageIndex
    ∧ (Updated.processDocument (State.initial canvas) primary fails settle mammoth
        fallbackFails).state.indexInRange
    ∧ (Focused.processWithMammoth (Focused.State.initial canvas) mammoth).1.indexInRange := by
  refine ⟨?_, ?_, ?_, state_indexInRange_of_zero _ rfl, focused_indexInRange_of_zero _ rfl,
    updated_processDocument_currPageIndex _ _ _ _ _ _,
    focused_processWithMammoth_currPageIndex _ _, ?_, ?_⟩
  · clear he hf
    induction requests generalizing updated with
    | nil => exact hu
    | cons op rest ih => exact ih _ (updated_perform_inRange updated op hu)
  · clear hu hf
    induction requests generalizing enhanced with
    | nil => exact he
    | cons op rest ih => exact ih _ (enhanced_perform_inRange enhanced op he)
  · clear hu he
    induction focusedRequests generalizing focused with
    | nil => exact hf
    | cons op rest ih => exact ih _ (focused_perform_inRange focused op hf)
  · apply state_indexInRange_of_zero
    rw [updated_processDocument_currPageIndex]
    rfl
  · apply focused_indexInRange_of_zero
    rw [focused_processWithMammoth_currPageIndex]
    rfl

/-- Witness for C10 (amended): a loaded one-page document in the first two handlers and a
loaded three-page document in the third, each asked to draw page 7 and then to export. -/
theorem active_index_in_range_between_loads_witness :
    (onePageLoaded.indexInRange
      ∧ (Focused.processWithMammoth
          (Focused.State.initial { width := 300, height := 150, ops := [] })
          (Mammoth.resolves threePageContent 60)).1.indexInRange)
    ∧ ([DrawOp.redraw 2 90 7, DrawOp.createCanvases 0 2].foldl Updated.perform
        onePageLoaded).indexInRange :=
  ⟨⟨state_indexInRange_of_zero _ rfl, focused_indexInRange_of_zero _ rfl⟩,
    (active_index_in_range_between_loads onePageLoaded onePageLoaded
      (Focused.processWithMammoth
        (Focused.State.initial { width := 300, height := 150, ops := [] })
        (Mammoth.resolves threePageContent 60)).1
      [DrawOp.redraw 2 90 7, DrawOp.createCanvases 0 2]
      [Focused.Op.redraw 2 90 7 false, Focused.Op.createCanvases 0 2 id (fun _ => false)]
      { width := 300, height := 150, ops := [] } Updated.RenderAsync.rejects (fun _ => false) id
      Mammoth.rejects (fun _ => false)
      (state_indexInRange_of_zero _ rfl) (state_indexInRange_of_zero _ rfl)
      (focused_indexInRange_of_zero _ rfl)).1⟩

/-! ## Page counts after a load -/

/-- C11 (failing input): a three-page document is loaded through the primary strategy and
then a one-page document, again through the primary strategy.  The second load renders one
page (one batch holding index 0) and resolves, but documentPages keeps the entries 1 and 2
of the first document, so pageCount() returns 3. -/
theorem pageCount_stale_after_primary_reload :
    Updated.reloadedPrimary.promise = Promise.resolved
    ∧ Updated.reloadedPrimary.batches = [[0]]
    ∧ Updated.reloadedPrimary.state.pageCount = 3
    ∧ Updated.reloadedPrimary.state.documentPages
      = [some { width := 794, height := 1123, source := Source.pageElement 0 },
         some { width := 816, height := 1056, source := Source.pageElement 1 },
         some { width := 816, height := 1056, source := Source.pageElement 2 }]
    ∧ Updated.reloaded.pageCount = 1 := by
  refine ⟨by decide, by decide, by decide, by decide, ?_⟩
  unfold State.pageCount
  rw [updated_reloaded_state.2]
  rfl

theorem focused_processWithMammoth_automatic (st : Focused.State) (childNodes : List Node)
    (scrollHeight : Nat) (h : querySelectorAllPageBreak childNodes = []) :
    (Focused.processWithMammoth st (Mammoth.resolves childNodes scrollHeight)).1.pageContents
      = createAutomaticPagination childNodes := by
  simp [Focused.processWithMammoth, h]

/-- C12 (counterexample): for the empty block sequence createAutomaticPagination stores no
page: pageContents is empty, pageCount() reports 1, and redraw reports that no pages are
available. -/
theorem createAutomaticPagination_empty_document :
    createAutomaticPagination [] = []
    ∧ (Focused.processWithMammoth
        (Focused.State.initial { width := 300, height := 150, ops := [] })
        (Mammoth.resolves [] 0)).1.pageContents.length = 0
    ∧ (Focused.processWithMammoth
        (Focused.State.initial { width := 300, height := 150, ops := [] })
        (Mammoth.resolves [] 0)).1.pageCount = 1
    ∧ (Focused.redraw (Focused.processWithMammoth
        (Focused.State.initial { width := 300, height := 150, ops := [] })
        (Mammoth.resolves [] 0)).1 1 0 0 false).2 = Completion.error "No pages available" := by
  decide

/-- C12 (amended): for every non-empty block sequence without break markers
createAutomaticPagination leaves at least one page in pageContents and the number of
stored regions equals pageCount(); pageCount() is at least 1 in every state. -/
theorem createAutomaticPagination_region_count (st : Focused.State) (childNodes : List Node)
    (scrollHeight : Nat) (hne : childNodes ≠ [])
    (hauto : querySelectorAllPageBreak childNodes = []) :
    1 ≤ (createAutomaticPagination childNodes).length
    ∧ (Focused.processWithMammoth st
        (Mammoth.resolves childNodes scrollHeight)).1.pageContents
      = createAutomaticPagination childNodes
    ∧ (Focused.processWithMammoth st (Mammoth.resolves childNodes scrollHeight)).1.pageCount
      = (Focused.processWithMammoth st
          (Mammoth.resolves childNodes scrollHeight)).1.pageContents.length
    ∧ 1 ≤ st.pageCount := by
  have hflat := createAutomaticPagination_flatten childNodes
  have hlen : 1 ≤ (createAutomaticPagination childNodes).length := by
    apply List.length_pos.mpr
    intro hnil
    rw [hnil] at hflat
    exact hne hflat.symm
  have hpc := focused_processWithMammoth_automatic st childNodes scrollHeight hauto
  refine ⟨hlen, hpc, ?_, ?_⟩
  · unfold Focused.State.pageCount
    rw [hpc]
    rw [if_neg (by omega)]
  · unfold Focused.State.pageCount
    split <;> omega

/-- Witness for C12 (amended): three paragraphs. -/
theorem createAutomaticPagination_region_count_witness :
    ([para 0 40, para 1 80, para 2 1] ≠ []
      ∧ querySelectorAllPageBreak [para 0 40, para 1 80, para 2 1] = [])
    ∧ 1 ≤ (createAutomaticPagination [para 0 40, para 1 80, para 2 1]).length :=
  ⟨⟨by decide, by decide⟩,
    (createAutomaticPagination_region_count
      (Focused.State.initial { width := 300, height := 150, ops := [] })
      [para 0 40, para 1 80, para 2 1] 90 (by decide) (by decide)).1⟩

/-! ## Explicit mode: empty regions and the image cap -/

theorem createPagesFromExplicitBreaks_eq (childNodes : List Node) (pageBreaks : List Nat) :
    createPagesFromExplicitBreaks childNodes pageBreaks
      = (explicitBreakRegions childNodes pageBreaks).flatMap pagesOfRegion := rfl

theorem splitContentByImageCount_flatten (content : Region) :
    (splitContentByImageCount content).flatten = content := by
  have inv := splitContentByImageCount_inv content
  have hcover := inv.cover
  unfold splitContentByImageCount ImageSplit.finish
  split
  · simpa using hcover
  · rename_i hlen
    have hnil : (content.foldl ImageSplit.step
        { subPages := [], currentPage := [], imageCounter := 0 }).currentPage = [] := by
      apply List.eq_nil_of_length_eq_zero
      omega
    simpa [hnil] using hcover

theorem imgElements_nil : imgElements [] = 0 := rfl

theorem pagesOfRegion_nil : pagesOfRegion [] = [[]] := by
  simp [pagesOfRegion, imgElements_nil, MAX_IMAGES_PER_PAGE]

theorem pagesOfRegion_flatten (r : Region) : (pagesOfRegion r).flatten = r := by
  unfold pagesOfRegion
  split
  · exact splitContentByImageCount_flatten r
  · simp

theorem pagesOfRegion_length (r : Region) : 1 ≤ (pagesOfRegion r).length := by
  unfold pagesOfRegion
  split
  · rename_i h
    apply List.length_pos.mpr
    intro hnil
    have hflat := splitContentByImageCount_flatten r
    rw [hnil] at hflat
    have hr : r = [] := by simpa using hflat.symm
    rw [hr, imgElements_nil] at h
    simp [MAX_IMAGES_PER_PAGE] at h
  · simp

theorem flatMap_pagesOfRegion_length (regions : List Region) :
    regions.length ≤ (regions.flatMap pagesOfRegion).length := by
  induction regions with
  | nil => simp
  | cons r rest ih =>
    have := pagesOfRegion_length r
    simp only [List.flatMap_cons, List.length_append, List.length_cons]
    omega

theorem flatMap_pagesOfRegion_flatten (regions : List Region) :
    (regions.flatMap pagesOfRegion).flatten = regions.flatten := by
  induction regions with
  | nil => simp
  | cons r rest ih =>
    simp only [List.flatMap_cons, List.flatten_append, List.flatten_cons, ih,
      pagesOfRegion_flatten]

theorem imageBlocks_le_imgElements (r : Region) : imageBlocks r ≤ imgElements r := by
  induction r with
  | nil => simp [imageBlocks, imgElements]
  | cons n rest ih =>
    have h1 : imageBlocks (n :: rest) = imageBlocks [n] + imageBlocks rest :=
      imageBlocks_append [n] rest
    have h2 : imgElements (n :: rest)
        = ((if n.nodeName == "IMG" then 1 else 0) + n.imgs) + imgElements rest := by
      simp [imgElements]
    rw [h1, h2, imageBlocks_singleton]
    have h3 : (if isImage n = true then 1 else 0)
        ≤ (if n.nodeName == "IMG" then 1 else 0) + n.imgs := by
      unfold isImage
      by_cases himg : (n.nodeName == "IMG") = true
      · simp [himg]
      · by_cases hp : (n.nodeName == "P") = true
        · by_cases hpos : 0 < n.imgs
          · simp [himg, hp, hpos]
            omega
          · simp [himg, hp, hpos]
        · simp [himg, hp]
    omega

theorem pagesOfRegion_imageBlocks (r page : Region) (h : page ∈ pagesOfRegion r) :
    imageBlocks page ≤ MAX_IMAGES_PER_PAGE := by
  unfold pagesOfRegion at h
  split at h
  · exact (splitContentByImageCount_mem r page h).2
  · rename_i hcap
    simp only [List.mem_singleton] at h
    subst h
    have := imageBlocks_le_imgElements page
    omega

/-- C13 (counterexample): a marker at the very start gives an empty first page, and two
adjacent markers give an empty page between two non-empty ones; neither handler drops it. -/
theorem explicit_mode_emits_empty_pages :
    splitAtPageBreaks [pageBreakMarker, para 0 10] = [[], [para 0 10]]
    ∧ createPagesFromExplicitBreaks [pageBreakMarker, para 0 10]
        (querySelectorAllPageBreak [pageBreakMarker, para 0 10]) = [[], [para 0 10]]
    ∧ splitAtPageBreaks [para 0 10, pageBreakMarker, pageBreakMarker, para 1 10]
      = [[para 0 10], [], [para 1 10]]
    ∧ createPagesFromExplicitBreaks [para 0 10, pageBreakMarker, pageBreakMarker, para 1 10]
        (querySelectorAllPageBreak [para 0 10, pageBreakMarker, pageBreakMarker, para 1 10])
      = [[para 0 10], [], [para 1 10]]
    ∧ (Updated.processMammothFallback
        (State.initial { width := 300, height := 150, ops := [] })
        (Mammoth.resolves [pageBreakMarker, para 0 10] 40)
        (fun _ => false)).1.documentPages.length = 2 := by
  decide

/-- C13 (amended): in explicit mode no region is dropped.  With N >= 1 top-level markers the
fallback of updated-docx-handler.js stores exactly N + 1 pages, and
createPagesFromExplicitBreaks stores at least N + 1 pages whose concatenation is the content
without its markers; every empty region (adjacent markers, a marker at the start or at the
end) is emitted as an empty page. -/
theorem explicit_mode_keeps_every_region (st : State) (focused : Focused.State)
    (childNodes : List Node) (scrollHeight : Nat) (fails : Nat → Bool)
    (hexplicit : (querySelectorAllPageBreak childNodes).length ≠ 0) :
    (Updated.processMammothFallback st (Mammoth.resolves childNodes scrollHeight)
        fails).1.documentPages.length = (childNodes.filter isPageBreak).length + 1
    ∧ (Focused.processWithMammoth focused
        (Mammoth.resolves childNodes scrollHeight)).1.pageContents
      = createPagesFromExplicitBreaks childNodes (querySelectorAllPageBreak childNodes)
    ∧ (childNodes.filter isPageBreak).length + 1
      ≤ (createPagesFromExplicitBreaks childNodes
          (querySelectorAllPageBreak childNodes)).length
    ∧ (createPagesFromExplicitBreaks childNodes
        (querySelectorAllPageBreak childNodes)).flatten
      = childNodes.filter (fun n => !isPageBreak n)
    ∧ ([] ∈ splitAtPageBreaks childNodes →
        [] ∈ createPagesFromExplicitBreaks childNodes (querySelectorAllPageBreak childNodes))
    := by
  have hregions := explicitBreakRegions_eq_splitAtPageBreaks childNodes
  have hlen : (splitAtPageBreaks childNodes).length
      = (childNodes.filter isPageBreak).length + 1 := by
    simp [splitAtPageBreaks, BreakSplit.run_length]
    omega
  have hcat : (splitAtPageBreaks childNodes).flatten
      = childNodes.filter (fun n => !isPageBreak n) := by
    simp [splitAtPageBreaks, BreakSplit.run_flatten]
  refine ⟨?_, ?_, ?_, ?_, ?_⟩
  · simp only [Updated.processMammothFallback, hexplicit, if_false, List.length_map,
      List.enum_length, hlen]
  · have hpos : (querySelectorAllPageBreak childNodes).length > 0 := by omega
    simp [Focused.processWithMammoth, hpos]
  · rw [createPagesFromExplicitBreaks_eq, hregions, ← hlen]
    exact flatMap_pagesOfRegion_length _
  · rw [createPagesFromExplicitBreaks_eq, hregions, flatMap_pagesOfRegion_flatten, hcat]
  · intro hmem
    rw [createPagesFromExplicitBreaks_eq, hregions, List.mem_flatMap]
    exact ⟨[], hmem, by simp [pagesOfRegion_nil]⟩

/-- Witness for C13 (amended): a paragraph, two adjacent markers, a paragraph. -/
theorem explicit_mode_keeps_every_region_witness :
    (querySelectorAllPageBreak
        [para 0 10, pageBreakMarker, pageBreakMarker, para 1 10]).length ≠ 0
    ∧ (Updated.processMammothFallback
        (State.initial { width := 300, height := 150, ops := [] })
        (Mammoth.resolves [para 0 10, pageBreakMarker, pageBreakMarker, para 1 10] 80)
        (fun _ => false)).1.documentPages.length
      = ([para 0 10, pageBreakMarker, pageBreakMarker, para 1 10].filter isPageBreak).length
        + 1 :=
  ⟨by decide,
    (explicit_mode_keeps_every_region
      (State.initial { width := 300, height := 150, ops := [] })
      (Focused.State.initial { width := 300, height := 150, ops := [] })
      [para 0 10, pageBreakMarker, pageBreakMarker, para 1 10] 80 (fun _ => false)
      (by decide)).1⟩

/-- C14 (counterexample): a region made of one paragraph with six images exceeds the cap,
is handed to splitContentByImageCount, and comes back as a single page that still holds six
img elements. -/
theorem explicit_page_exceeds_image_cap :
    createPagesFromExplicitBreaks [para 0 10, pageBreakMarker, sixImagePara]
        (querySelectorAllPageBreak [para 0 10, pageBreakMarker, sixImagePara])
      = [[para 0 10], [sixImagePara]]
    ∧ imgElements [sixImagePara] = 6
    ∧ MAX_IMAGES_PER_PAGE = 5 := by
  decide

/-- C14 (amended): every page emitted by createPagesFromExplicitBreaks holds at most
MAX_IMAGES_PER_PAGE = 5 image blocks, an image block being a top-level IMG element or a
top-level paragraph that contains an image. -/
theorem explicit_pages_image_blocks (childNodes : List Node) (page : Region)
    (hpage : page ∈ createPagesFromExplicitBreaks childNodes
      (querySelectorAllPageBreak childNodes)) :
    imageBlocks page ≤ 5 := by
  rw [createPagesFromExplicitBreaks_eq, List.mem_flatMap] at hpage
  obtain ⟨r, _, hr⟩ := hpage
  exact pagesOfRegion_imageBlocks r page hr

/-- Witness for C14 (amended): eight image paragraphs after a marker; the second page. -/
theorem explicit_pages_image_blocks_witness :
    List.map imagePara (List.range 5) ∈ createPagesFromExplicitBreaks
        (pageBreakMarker :: List.map imagePara (List.range 8))
        (querySelectorAllPageBreak (pageBreakMarker :: List.map imagePara (List.range 8)))
    ∧ imageBlocks (List.map imagePara (List.range 5)) ≤ 5 :=
  ⟨by decide,
    explicit_pages_image_blocks (pageBreakMarker :: List.map imagePara (List.range 8))
      (List.map imagePara (List.range 5)) (by decide)⟩

/-! ## The render cache across loads, and rotation -/

/-- C15 (failing input): a one-page document is loaded and its page drawn, then another
one-page document is loaded.  After the second load renderedPages still holds the surface
rasterized from the first document, and redraw of page 0 draws that surface without calling
html2canvas, although pageContents holds the second document. -/
theorem cache_survives_reload :
    Focused.reloadedAfterDraw.pageContents = [[para 1 10]]
    ∧ Focused.reloadedAfterDraw.renderedPages
      = [some { width := 816, height := 1056, source := Source.region [para 0 10] 0 }]
    ∧ (Focused.redraw Focused.reloadedAfterDraw 1 0 0 false).1.canvas.images
      = [{ width := 816, height := 1056, source := Source.region [para 0 10] 0 }]
    ∧ (Focused.redraw Focused.reloadedAfterDraw 1 0 0 false).1.html2canvasCalls
      = Focused.reloadedAfterDraw.html2canvasCalls
    ∧ (Focused.redraw Focused.reloadedAfterDraw 1 0 0 false).2 = Completion.ok := by
  decide

/-- C16 (failing input): page 0 is in the cache; redraw with scale 2 and rotation 90 issues
only scale and drawImage on the output canvas, with no translate and no rotate, whereas the
first draw of the page with the same arguments, and redraw of updated-docx-handler.js,
translate to the centre of the canvas and rotate by 90 degrees. -/
theorem cached_redraw_ignores_rotation :
    (Focused.redraw Focused.drawnOnce 2 90 0 false).1.canvas.ops
      = [CtxOp.scale 2 2,
         CtxOp.drawImage
           { width := 816, height := 1056, source := Source.region [para 0 10] 0 } 0 0]
    ∧ (Focused.redraw Focused.onePageLoaded 2 90 0 false).1.canvas.ops
      = [CtxOp.save, CtxOp.translate (816 * 2 / 2) (1056 * 2 / 2), CtxOp.rotate 90,
         CtxOp.scale 2 2,
         CtxOp.drawImage
           { width := 816, height := 1056, source := Source.region [para 0 10] 0 }
           (-816 / 2) (-1056 / 2),
         CtxOp.restore]
    ∧ (Updated.redraw onePageLoaded 2 90 0).1.canvas.ops
      = [CtxOp.fillRect 0 0 (816 * 2) (1056 * 2),
         CtxOp.save, CtxOp.translate (816 * 2 / 2) (1056 * 2 / 2), CtxOp.rotate 90,
         CtxOp.scale 2 2,
         CtxOp.drawImage { width := 816, height := 1056, source := Source.pageElement 0 }
           (-816 / 2) (-1056 / 2),
         CtxOp.restore] := by
  have hw : canvasDimension ((816 : ℚ) * 2) = 1632 := by
    have h : (816 : ℚ) * 2 = ((1632 : Nat) : ℚ) := by norm_num
    rw [h, canvasDimension_natCast]
  have hh : canvasDimension ((1056 : ℚ) * 2) = 2112 := by
    have h : (1056 : ℚ) * 2 = ((2112 : Nat) : ℚ) := by norm_num
    rw [h, canvasDimension_natCast]
  refine ⟨?_, ?_, ?_⟩
  · rfl
  · have h1 : Focused.onePageLoaded = Focused.State.mk 0 [[para 0 10]] []
        (OutputCanvas.mk 300 150 []) 0 := by decide
    rw [h1]
    simp [Focused.redraw, Focused.redrawStart, Focused.redrawFinish, arrayAt,
      clampIndex, pageDrawCalls, OutputCanvas.draw, OutputCanvas.resize, DEFAULT_WIDTH,
      DEFAULT_HEIGHT, hw, hh]
    norm_num
  · simp [Updated.redraw, onePageLoaded, State.initial, arrayAt,
      clampIndex, pageDrawCalls, OutputCanvas.draw, OutputCanvas.resize, hw, hh]
    norm_num

/-! ## Output dimensions and refused requests -/

theorem updated_redraw_drawn (st : State) (scale rotation : ℚ) (index : Int) (page : Canvas)
    (hloaded : st.documentLoaded = true) (h0 : 0 ≤ index)
    (h1 : index < (st.documentPages.length : Int))
    (hpage : arrayAt st.documentPages index = some page) :
    Updated.redraw st scale rotation index
      = ({ st with
            currPageIndex := index
            canvas := (st.canvas.resize (page.width * scale) (page.height * scale)).draw
              (CtxOp.fillRect 0 0 (canvasDimension (page.width * scale))
                  (canvasDimension (page.height * scale)) ::
                pageDrawCalls page scale rotation (canvasDimension (page.width * scale))
                  (canvasDimension (page.height * scale))) },
          Completion.ok) := by
  have hlen : st.documentPages.length ≠ 0 := by
    intro e
    rw [e] at h1
    omega
  have hclamp : clampIndex index st.documentPages.length = index := by
    unfold clampIndex
    omega
  simp only [Updated.redraw, hloaded, hlen, Bool.true_eq_false, or_self, if_false, hclamp,
    hpage, OutputCanvas.resize]

theorem enhanced_redraw_drawn (st : State) (scale rotation : ℚ) (index : Int) (page : Canvas)
    (hloaded : st.documentLoaded = true) (h0 : 0 ≤ index)
    (h1 : index < (st.documentPages.length : Int))
    (hpage : arrayAt st.documentPages index = some page) :
    Enhanced.redraw st scale rotation index
      = ({ st with
            currPageIndex := index
            canvas := ((st.canvas.draw
                [CtxOp.fillRect 0 0 st.canvas.width st.canvas.height]).resize
                (page.width * scale) (page.height * scale)).draw
              (pageDrawCalls page scale rotation (canvasDimension (page.width * scale))
                (canvasDimension (page.height * scale))) },
          Completion.ok) := by
  have hguard : ¬ (index < 0 ∨ index ≥ (st.documentPages.length : Int)) := by omega
  simp only [Enhanced.redraw, hloaded, Bool.true_eq_false, if_false, hguard, hpage,
    OutputCanvas.resize]

theorem redraw_canvas_size (st : State) (scale rotation : ℚ) (index : Int) (page : Canvas)
    (hloaded : st.documentLoaded = true) (h0 : 0 ≤ index)
    (h1 : index < (st.documentPages.length : Int))
    (hpage : arrayAt st.documentPages index = some page) :
    ((Updated.redraw st scale rotation index).2 = Completion.ok
      ∧ (Updated.redraw st scale rotation index).1.canvas.width
        = canvasDimension (page.width * scale)
      ∧ (Updated.redraw st scale rotation index).1.canvas.height
        = canvasDimension (page.height * scale))
    ∧ ((Enhanced.redraw st scale rotation index).2 = Completion.ok
      ∧ (Enhanced.redraw st scale rotation index).1.canvas.width
        = canvasDimension (page.width * scale)
      ∧ (Enhanced.redraw st scale rotation index).1.canvas.height
        = canvasDimension (page.height * scale)) := by
  rw [updated_redraw_drawn st scale rotation index page hloaded h0 h1 hpage,
    enhanced_redraw_drawn st scale rotation index page hloaded h0 h1 hpage]
  simp [OutputCanvas.draw, OutputCanvas.resize]

/-- C17 (counterexample): a page of 794 x 1123 is drawn with scale 1/2.  In both variants the
redraw succeeds and leaves an output canvas of 397 x 561, whereas page.height * scale is
1123/2. -/
theorem redraw_truncates_output_dimensions :
    (arrayAt Updated.oddPageLoaded.documentPages 0
        = some { width := 794, height := 1123, source := Source.pageElement 0 }
      ∧ (Updated.redraw Updated.oddPageLoaded (1 / 2) 0 0).2 = Completion.ok
      ∧ (Updated.redraw Updated.oddPageLoaded (1 / 2) 0 0).1.canvas.width = 397
      ∧ (Updated.redraw Updated.oddPageLoaded (1 / 2) 0 0).1.canvas.height = 561
      ∧ ((Updated.redraw Updated.oddPageLoaded (1 / 2) 0 0).1.canvas.height : ℚ)
        ≠ (1123 : ℚ) * (1 / 2))
    ∧ (arrayAt Enhanced.oddPageLoaded.documentPages 0
        = some { width := 794, height := 1123, source := Source.elementRange 0 1 }
      ∧ (Enhanced.redraw Enhanced.oddPageLoaded (1 / 2) 0 0).2 = Completion.ok
      ∧ (Enhanced.redraw Enhanced.oddPageLoaded (1 / 2) 0 0).1.canvas.width = 397
      ∧ (Enhanced.redraw Enhanced.oddPageLoaded (1 / 2) 0 0).1.canvas.height = 561
      ∧ ((Enhanced.redraw Enhanced.oddPageLoaded (1 / 2) 0 0).1.canvas.height : ℚ)
        ≠ (1123 : ℚ) * (1 / 2)) := by
  have hw : canvasDimension (((794 : Nat) : ℚ) * (1 / 2)) = 397 := by
    have h : ((794 : Nat) : ℚ) * (1 / 2) = ((397 : Nat) : ℚ) := by norm_num
    rw [h, canvasDimension_natCast]
  have hh : canvasDimension (((1123 : Nat) : ℚ) * (1 / 2)) = 561 := by
    rw [canvasDimension_eq_floor, Nat.floor_eq_iff (by norm_num)]
    norm_num
  have hu := (redraw_canvas_size Updated.oddPageLoaded (1 / 2) 0 0
    { width := 794, height := 1123, source := Source.pageElement 0 }
    (by decide) (by decide) (by decide) (by decide)).1
  have he := (redraw_canvas_size Enhanced.oddPageLoaded (1 / 2) 0 0
    { width := 794, height := 1123, source := Source.elementRange 0 1 }
    (by decide) (by decide) (by decide) (by decide)).2
  rw [hw, hh] at hu he
  refine ⟨⟨by decide, hu.1, hu.2.1, hu.2.2, ?_⟩, ⟨by decide, he.1, he.2.1, he.2.2, ?_⟩⟩
  · rw [hu.2.2]
    norm_num
  · rw [he.2.2]
    norm_num

/-- C17 (amended): for a loaded document, every scale > 0, every rotation and every valid
page index, redraw of updated-docx-handler.js and of enhanced-docx-handler.js completes
without an error and sets the output canvas to the whole parts of page.width * scale and
page.height * scale (the products being below 2^31), whatever the rotation; when a product
is a whole number the dimension is exactly that product. -/
theorem redraw_output_dimensions (st : State) (scale rotation : ℚ) (index : Int)
    (page : Canvas) (hloaded : st.documentLoaded = true) (h0 : 0 ≤ index)
    (h1 : index < (st.documentPages.length : Int))
    (hpage : arrayAt st.documentPages index = some page) (hscale : 0 < scale)
    (hwidth : (page.width : ℚ) * scale < 2147483648)
    (hheight : (page.height : ℚ) * scale < 2147483648) :
    ((Updated.redraw st scale rotation index).2 = Completion.ok
      ∧ (Updated.redraw st scale rotation index).1.canvas.width
        = ⌊(page.width : ℚ) * scale⌋₊
      ∧ (Updated.redraw st scale rotation index).1.canvas.height
        = ⌊(page.height : ℚ) * scale⌋₊)
    ∧ ((Enhanced.redraw st scale rotation index).2 = Completion.ok
      ∧ (Enhanced.redraw st scale rotation index).1.canvas.width
        = ⌊(page.width : ℚ) * scale⌋₊
      ∧ (Enhanced.redraw st scale rotation index).1.canvas.height
        = ⌊(page.height : ℚ) * scale⌋₊)
    ∧ (∀ n : Nat, (page.width : ℚ) * scale = n →
        ((Updated.redraw st scale rotation index).1.canvas.width : ℚ) = page.width * scale
        ∧ ((Enhanced.redraw st scale rotation index).1.canvas.width : ℚ)
          = page.width * scale)
    ∧ (∀ n : Nat, (page.height : ℚ) * scale = n →
        ((Updated.redraw st scale rotation index).1.canvas.height : ℚ) = page.height * scale
        ∧ ((Enhanced.redraw st scale rotation index).1.canvas.height : ℚ)
          = page.height * scale)
    ∧ (∀ other : ℚ,
        (Updated.redraw st scale other index).1.canvas.width
          = (Updated.redraw st scale rotation index).1.canvas.width
        ∧ (Updated.redraw st scale other index).1.canvas.height
          = (Updated.redraw st scale rotation index).1.canvas.height
        ∧ (Enhanced.redraw st scale other index).1.canvas.width
          = (Enhanced.redraw st scale rotation index).1.canvas.width
        ∧ (Enhanced.redraw st scale other index).1.canvas.height
          = (Enhanced.redraw st scale rotation index).1.canvas.height)
    ∧ (Updated.redraw st scale rotation index).1.canvas.width < 2147483648
    ∧ (Updated.redraw st scale rotation index).1.canvas.height < 2147483648 := by
  have hw0 : (0 : ℚ) ≤ (page.width : ℚ) * scale :=
    mul_nonneg (Nat.cast_nonneg _) (le_of_lt hscale)
  have hh0 : (0 : ℚ) ≤ (page.height : ℚ) * scale :=
    mul_nonneg (Nat.cast_nonneg _) (le_of_lt hscale)
  have hw := canvasDimension_eq_floor ((page.width : ℚ) * scale)
  have hh := canvasDimension_eq_floor ((page.height : ℚ) * scale)
  have key := redraw_canvas_size st scale rotation index page hloaded h0 h1 hpage
  rw [hw, hh] at key
  refine ⟨key.1, key.2, ?_, ?_, ?_, ?_, ?_⟩
  · intro n hn
    rw [key.1.2.1, key.2.2.1, hn, Nat.floor_natCast]
    exact ⟨rfl, rfl⟩
  · intro n hn
    rw [key.1.2.2, key.2.2.2, hn, Nat.floor_natCast]
    exact ⟨rfl, rfl⟩
  · intro other
    have key2 := redraw_canvas_size st scale other index page hloaded h0 h1 hpage
    rw [hw, hh] at key2
    rw [key.1.2.1, key.1.2.2, key.2.2.1, key.2.2.2]
    exact ⟨key2.1.2.1, key2.1.2.2, key2.2.2.1, key2.2.2.2⟩
  · rw [key.1.2.1]
    exact (Nat.floor_lt hw0).mpr (by exact_mod_cast hwidth)
  · rw [key.1.2.2]
    exact (Nat.floor_lt hh0).mpr (by exact_mod_cast hheight)

/-- Witness for C17 (amended): a page of 816 x 1056 drawn with scale 2 and rotation 90 gives
an output canvas of 1632 x 2112. -/
theorem redraw_output_dimensions_witness :
    (onePageLoaded.documentLoaded = true ∧ (0 : Int) ≤ 0
      ∧ (0 : Int) < (onePageLoaded.documentPages.length : Int)
      ∧ arrayAt onePageLoaded.documentPages 0
        = some { width := 816, height := 1056, source := Source.pageElement 0 }
      ∧ (0 : ℚ) < 2
      ∧ ((816 : Nat) : ℚ) * 2 < 2147483648 ∧ ((1056 : Nat) : ℚ) * 2 < 2147483648)
    ∧ ((Updated.redraw onePageLoaded 2 90 0).1.canvas.width : ℚ) = ((816 : Nat) : ℚ) * 2
    ∧ ((Enhanced.redraw onePageLoaded 2 90 0).1.canvas.height : ℚ)
      = ((1056 : Nat) : ℚ) * 2 :=
  ⟨⟨by decide, by decide, by decide, by decide, by norm_num, by norm_num, by norm_num⟩,
    ((redraw_output_dimensions onePageLoaded 2 90 0
      { width := 816, height := 1056, source := Source.pageElement 0 }
      (by decide) (by decide) (by decide) (by decide) (by norm_num) (by norm_num)
      (by norm_num)).2.2.1 1632 (by norm_num)).1,
    ((redraw_output_dimensions onePageLoaded 2 90 0
      { width := 816, height := 1056, source := Source.pageElement 0 }
      (by decide) (by decide) (by decide) (by decide) (by norm_num) (by norm_num)
      (by norm_num)).2.2.2.1 2112 (by norm_num)).2⟩

/-- C19: a redraw of enhanced-docx-handler.js that is requested before the document is
loaded, or with an index below 0 or not below the number of pages, calls onCompletion with
an error and leaves the whole state, in particular currPageIndex and the dimensions of the
output canvas, unchanged. -/
theorem enhanced_redraw_refused (st : State) (scale rotation : ℚ) (index : Int)
    (h : st.documentLoaded = false ∨ index < 0 ∨ (st.documentPages.length : Int) ≤ index) :
    (∃ message, (Enhanced.redraw st scale rotation index).2 = Completion.error message)
    ∧ (Enhanced.redraw st scale rotation index).1 = st
    ∧ (Enhanced.redraw st scale rotation index).1.currPageIndex = st.currPageIndex
    ∧ (Enhanced.redraw st scale rotation index).1.canvas.width = st.canvas.width
    ∧ (Enhanced.redraw st scale rotation index).1.canvas.height = st.canvas.height := by
  have key : (∃ message, (Enhanced.redraw st scale rotation index).2
      = Completion.error message) ∧ (Enhanced.redraw st scale rotation index).1 = st := by
    unfold Enhanced.redraw
    by_cases hl : st.documentLoaded = false
    · rw [if_pos hl]
      exact ⟨⟨_, rfl⟩, rfl⟩
    · rw [if_neg hl]
      have hidx : index < 0 ∨ index ≥ (st.documentPages.length : Int) := by
        rcases h with h | h | h
        · exact absurd h hl
        · exact Or.inl h
        · exact Or.inr h
      rw [if_pos hidx]
      exact ⟨⟨_, rfl⟩, rfl⟩
  refine ⟨key.1, key.2, ?_, ?_, ?_⟩ <;> rw [key.2]

/-- Witness for C19: page 1 of a one-page document is requested. -/
theorem enhanced_redraw_refused_witness :
    (onePageLoaded.documentLoaded = false ∨ (1 : Int) < 0
      ∨ (onePageLoaded.documentPages.length : Int) ≤ 1)
    ∧ (Enhanced.redraw onePageLoaded 2 90 1).1 = onePageLoaded :=
  ⟨Or.inr (Or.inr (by decide)),
    (enhanced_redraw_refused onePageLoaded 2 90 1 (Or.inr (Or.inr (by decide)))).2.1⟩

/-! ## enhanced-docx-handler.js: a failed page, and the break locator -/

theorem range_any_fails (n : Nat) (fails : Nat → Bool) :
    (List.range n).any fails = true ↔ ∃ i, i < n ∧ fails i = true := by
  simp [List.any_eq_true, List.mem_range]

theorem enhanced_plannedPages_height (settings : PageSettings) (childNodes : List Node)
    (scrollHeight : Nat) (hauto : (querySelectorAllPageBreak childNodes).length = 0)
    (hpos : 0 < settings.contentPerPage) :
    Enhanced.plannedPages settings childNodes scrollHeight
      = some ((List.range (max 1 ⌈(scrollHeight : ℚ) / settings.contentPerPage⌉₊)).map
          fun i => Source.window (pageWindow settings i)) := by
  have hcount := estimatedPageCount_pos scrollHeight settings.contentPerPage hpos
  unfold PageSettings.contentPerPage at hcount
  unfold Enhanced.plannedPages
  simp only [hauto, if_true]
  rw [hcount]
  rfl

theorem enhanced_plannedPages_some (settings : PageSettings) (childNodes : List Node)
    (scrollHeight : Nat)
    (hfinite : (querySelectorAllPageBreak childNodes).length = 0 →
      settings.contentPerPage ≠ 0) :
    ∃ sources, Enhanced.plannedPages settings childNodes scrollHeight = some sources := by
  unfold Enhanced.plannedPages
  by_cases hauto : (querySelectorAllPageBreak childNodes).length = 0
  · have hne := hfinite hauto
    unfold PageSettings.contentPerPage at hne
    simp only [hauto, if_true, Updated.estimatedPageCount]
    by_cases hpos : settings.height - settings.margins.top - settings.margins.bottom > 0
    · simp only [hpos, if_true]
      exact ⟨_, rfl⟩
    · have hneg : settings.height - settings.margins.top - settings.margins.bottom < 0 :=
        lt_of_le_of_ne (not_lt.mp hpos) hne
      simp only [hpos, if_false, hneg, if_true]
      exact ⟨_, rfl⟩
  · simp only [hauto, if_false]
    exact ⟨_, rfl⟩

theorem enhanced_plannedPages_none (settings : PageSettings) (childNodes : List Node)
    (scrollHeight : Nat) (hauto : (querySelectorAllPageBreak childNodes).length = 0)
    (hzero : settings.contentPerPage = 0) :
    Enhanced.plannedPages settings childNodes scrollHeight = none := by
  unfold PageSettings.contentPerPage at hzero
  simp [Enhanced.plannedPages, hauto, Updated.estimatedPageCount, hzero]

theorem ceil_1000_div_864 : max 1 ⌈((1000 : Nat) : ℚ) / 864⌉₊ = 2 := by
  have h : ⌈((1000 : Nat) : ℚ) / 864⌉₊ = 2 := by
    rw [Nat.ceil_eq_iff (by norm_num)]
    norm_num
  rw [h]
  rfl

/-- C18 (counterexample): content of two pages is loaded and the rasterization of page 1
fails: the promise of processDocument is rejected, documentLoaded stays false and
documentPages stays empty; no placeholder is stored. -/
theorem enhanced_load_rejected_on_page_failure :
    (Enhanced.processDocument (State.initial { width := 300, height := 150, ops := [] })
        (Enhanced.Extraction.resolves
          (State.initial { width := 300, height := 150, ops := [] }).pageSettings)
        (Mammoth.resolves [para 0 10] 1000) (fun i => i == 1)).2 = Promise.rejected
    ∧ (Enhanced.processDocument (State.initial { width := 300, height := 150, ops := [] })
        (Enhanced.Extraction.resolves
          (State.initial { width := 300, height := 150, ops := [] }).pageSettings)
        (Mammoth.resolves [para 0 10] 1000) (fun i => i == 1)).1.documentLoaded = false
    ∧ (Enhanced.processDocument (State.initial { width := 300, height := 150, ops := [] })
        (Enhanced.Extraction.resolves
          (State.initial { width := 300, height := 150, ops := [] }).pageSettings)
        (Mammoth.resolves [para 0 10] 1000) (fun i => i == 1)).1.documentPages = []
    ∧ (Enhanced.plannedPages
        (State.initial { width := 300, height := 150, ops := [] }).pageSettings
        [para 0 10] 1000).map List.length = some 2 := by
  have hplan := enhanced_plannedPages_height
    (State.initial { width := 300, height := 150, ops := [] }).pageSettings [para 0 10] 1000
    (by decide) (by rw [initial_contentPerPage]; norm_num)
  rw [initial_contentPerPage, ceil_1000_div_864] at hplan
  have hany : (List.range 2).any (fun i => i == 1) = true := by decide
  refine ⟨?_, ?_, ?_, ?_⟩
  · simp [Enhanced.processDocument, Enhanced.renderPaginatedContent, hplan, hany]
  · simp [Enhanced.processDocument, Enhanced.renderPaginatedContent, hplan, hany]
    rfl
  · simp [Enhanced.processDocument, Enhanced.renderPaginatedContent, hplan, hany]
    rfl
  · rw [hplan]
    simp

/-- C18 (amended): in enhanced-docx-handler.js, provided the content has a page-break
element or contentPerPage is not 0 (so that the number of pages is finite), the pages to
render are determined, and when the rasterization of one of them fails the failure is passed
on: the promise of processDocument is rejected, documentPages and documentLoaded keep their
previous values and no placeholder is stored; when no rasterization fails the load
completes, documentLoaded becomes true and documentPages holds one surface of the page size,
in whole pixels, per page. -/
theorem enhanced_load_needs_every_page (st : State) (settings : PageSettings)
    (childNodes : List Node) (scrollHeight : Nat) (fails : Nat → Bool)
    (hfinite : (querySelectorAllPageBreak childNodes).length = 0 →
      settings.contentPerPage ≠ 0) :
    ∃ sources, Enhanced.plannedPages settings childNodes scrollHeight = some sources
      ∧ ((∃ i, i < sources.length ∧ fails i = true) →
        (Enhanced.processDocument st (Enhanced.Extraction.resolves settings)
            (Mammoth.resolves childNodes scrollHeight) fails).2 = Promise.rejected
        ∧ (Enhanced.processDocument st (Enhanced.Extraction.resolves settings)
            (Mammoth.resolves childNodes scrollHeight) fails).1.documentPages
          = st.documentPages
        ∧ (Enhanced.processDocument st (Enhanced.Extraction.resolves settings)
            (Mammoth.resolves childNodes scrollHeight) fails).1.documentLoaded
          = st.documentLoaded)
      ∧ ((∀ i, i < sources.length → fails i = false) →
        (Enhanced.processDocument st (Enhanced.Extraction.resolves settings)
            (Mammoth.resolves childNodes scrollHeight) fails).2 = Promise.resolved
        ∧ (Enhanced.processDocument st (Enhanced.Extraction.resolves settings)
            (Mammoth.resolves childNodes scrollHeight) fails).1.documentLoaded = true
        ∧ (Enhanced.processDocument st (Enhanced.Extraction.resolves settings)
            (Mammoth.resolves childNodes scrollHeight) fails).1.documentPages
          = sources.map fun source => some
              { width := canvasDimension settings.width
                height := canvasDimension settings.height, source := source }) := by
  obtain ⟨sources, hplan⟩ := enhanced_plannedPages_some settings childNodes scrollHeight
    hfinite
  refine ⟨sources, hplan, ?_, ?_⟩
  · intro hfail
    have hany := (range_any_fails sources.length fails).mpr hfail
    simp [Enhanced.processDocument, Enhanced.renderPaginatedContent, hplan, hany]
  · intro hok
    have hany : ¬ (List.range sources.length).any fails = true := by
      rw [range_any_fails]
      rintro ⟨i, hi, hf⟩
      rw [hok i hi] at hf
      exact Bool.noConfusion hf
    simp [Enhanced.processDocument, Enhanced.renderPaginatedContent, hplan, hany]

/-- Witness for C18 (amended): content without a page-break element on the default page,
where contentPerPage is 864. -/
theorem enhanced_load_needs_every_page_witness :
    ((querySelectorAllPageBreak [para 0 10]).length = 0 →
      (State.initial { width := 300, height := 150, ops := [] }).pageSettings.contentPerPage
        ≠ 0)
    ∧ ∃ sources, Enhanced.plannedPages
        (State.initial { width := 300, height := 150, ops := [] }).pageSettings
        [para 0 10] 1000 = some sources :=
  ⟨fun _ => by rw [initial_contentPerPage]; norm_num,
    (enhanced_load_needs_every_page onePageLoaded
      (State.initial { width := 300, height := 150, ops := [] }).pageSettings
      [para 0 10] 1000 (fun i => i == 1)
      (fun _ => by rw [initial_contentPerPage]; norm_num)).imp fun _ h => h.1⟩

/-- When the content has no page-break element and contentPerPage is 0, the number of pages
is not finite: the promise of the load of enhanced-docx-handler.js never settles and no page
is stored. -/
theorem enhanced_load_never_settles (st : State) (settings : PageSettings)
    (childNodes : List Node) (scrollHeight : Nat) (fails : Nat → Bool)
    (hauto : (querySelectorAllPageBreak childNodes).length = 0)
    (hzero : settings.contentPerPage = 0) :
    (Enhanced.processDocument st (Enhanced.Extraction.resolves settings)
        (Mammoth.resolves childNodes scrollHeight) fails).2 = Promise.pending
    ∧ (Enhanced.processDocument st (Enhanced.Extraction.resolves settings)
        (Mammoth.resolves childNodes scrollHeight) fails).1.documentPages = st.documentPages
    ∧ (Enhanced.processDocument st (Enhanced.Extraction.resolves settings)
        (Mammoth.resolves childNodes scrollHeight) fails).1.documentLoaded
      = st.documentLoaded := by
  have hplan := enhanced_plannedPages_none settings childNodes scrollHeight hauto hzero
  simp [Enhanced.processDocument, Enhanced.renderPaginatedContent, hplan]

/-- C20 (failing input): a body with two paragraphs, a page break inside the second
paragraph, and a page break that is a child of the body.  The second marker has no
containing paragraph, yet findExplicitPageBreaks returns an entry for it, carrying the
position 1 left over from the first marker; findSectionBreaks, for section properties placed
the same way, returns no entry. -/
theorem orphan_page_break_kept :
    findExplicitPageBreaks orphanBreakDocument
      = [{ type := "explicit", position := 1, element := 4 },
         { type := "explicit", position := 1, element := 5 }]
    ∧ getElementsByTagNameNS orphanBreakDocument "br" = [4, 5]
    ∧ enclosingParagraph orphanBreakDocument orphanBreakDocument.length (some 3) = some 2
    ∧ enclosingParagraph orphanBreakDocument orphanBreakDocument.length (some 0) = none
    ∧ getElementsByTagNameNS orphanBreakDocument "sectPr" = [6]
    ∧ findSectionBreaks orphanBreakDocument = [] := by
  decide

/-! ## Automatic pagination: the greedy rule and its bounds -/

/-- C23: createAutomaticPagination is the greedy partition.  After any blocks, the running
totals are the image blocks and the estimated height of the current page; the next block
starts a new page exactly when the current page is non-empty and, with the block added,
the image count exceeds MAX_IMAGES_PER_PAGE or the height exceeds CONTENT_HEIGHT; the block
is then the only block of the new current page and the totals are those of that block
alone; otherwise the block joins the current page. -/
theorem createAutomaticPagination_greedy_step (processed : List Node) (element : Node) :
    ((processed.foldl AutoPagination.step
        { pageContents := [], currentPage := [], imageCounter := 0,
          estimatedHeight := 0 }).imageCounter
      = imageBlocks (processed.foldl AutoPagination.step
          { pageContents := [], currentPage := [], imageCounter := 0,
            estimatedHeight := 0 }).currentPage)
    ∧ ((processed.foldl AutoPagination.step
        { pageContents := [], currentPage := [], imageCounter := 0,
          estimatedHeight := 0 }).estimatedHeight
      = totalEstimatedHeight (processed.foldl AutoPagination.step
          { pageContents := [], currentPage := [], imageCounter := 0,
            estimatedHeight := 0 }).currentPage)
    ∧ (processed ++ [element]).foldl AutoPagination.step
        { pageContents := [], currentPage := [], imageCounter := 0, estimatedHeight := 0 }
      = (if (processed.foldl AutoPagination.step
              { pageContents := [], currentPage := [], imageCounter := 0,
                estimatedHeight := 0 }).currentPage ≠ []
            ∧ (imageBlocks ((processed.foldl AutoPagination.step
                  { pageContents := [], currentPage := [], imageCounter := 0,
                    estimatedHeight := 0 }).currentPage ++ [element]) > MAX_IMAGES_PER_PAGE
              ∨ totalEstimatedHeight ((processed.foldl AutoPagination.step
                  { pageContents := [], currentPage := [], imageCounter := 0,
                    estimatedHeight := 0 }).currentPage ++ [element]) > CONTENT_HEIGHT) then
          { pageContents := (processed.foldl AutoPagination.step
                { pageContents := [], currentPage := [], imageCounter := 0,
                  estimatedHeight := 0 }).pageContents
              ++ [(processed.foldl AutoPagination.step
                { pageContents := [], currentPage := [], imageCounter := 0,
                  estimatedHeight := 0 }).currentPage]
            currentPage := [element]
            imageCounter := imageBlocks [element]
            estimatedHeight := elementHeight element }
        else
          { pageContents := (processed.foldl AutoPagination.step
                { pageContents := [], currentPage := [], imageCounter := 0,
                  estimatedHeight := 0 }).pageContents
            currentPage := (processed.foldl AutoPagination.step
                { pageContents := [], currentPage := [], imageCounter := 0,
                  estimatedHeight := 0 }).currentPage ++ [element]
            imageCounter := imageBlocks ((processed.foldl AutoPagination.step
                { pageContents := [], currentPage := [], imageCounter := 0,
                  estimatedHeight := 0 }).currentPage ++ [element])
            estimatedHeight := totalEstimatedHeight ((processed.foldl AutoPagination.step
                { pageContents := [], currentPage := [], imageCounter := 0,
                  estimatedHeight := 0 }).currentPage ++ [element]) }) := by
  have inv := createAutomaticPagination_inv processed
  obtain ⟨_, hcounter, hheight, _, _, _, _⟩ := inv
  rw [List.foldl_append, List.foldl_cons, List.foldl_nil]
  generalize processed.foldl AutoPagination.step
    { pageContents := [], currentPage := [], imageCounter := 0, estimatedHeight := 0 } = s
    at *
  refine ⟨hcounter, hheight, ?_⟩
  have hic : (if isImage element = true then s.imageCounter + 1 else s.imageCounter)
      = imageBlocks (s.currentPage ++ [element]) := by
    rw [imageBlocks_append, imageBlocks_singleton, ← hcounter]
    by_cases himg : isImage element = true <;> simp [himg]
  have hest : s.estimatedHeight + elementHeight element
      = totalEstimatedHeight (s.currentPage ++ [element]) := by
    rw [totalEstimatedHeight_append, totalEstimatedHeight_singleton, hheight]
  have hne : s.currentPage ≠ [] ↔ s.currentPage.length > 0 :=
    ⟨List.length_pos.mpr, List.length_pos.mp⟩
  simp only [AutoPagination.step]
  rw [hic, hest]
  by_cases hfull : (imageBlocks (s.currentPage ++ [element]) > MAX_IMAGES_PER_PAGE
      ∨ totalEstimatedHeight (s.currentPage ++ [element]) > CONTENT_HEIGHT)
      ∧ s.currentPage.length > 0
  · have hc : s.currentPage ≠ [] ∧ (imageBlocks (s.currentPage ++ [element])
        > MAX_IMAGES_PER_PAGE
        ∨ totalEstimatedHeight (s.currentPage ++ [element]) > CONTENT_HEIGHT) :=
      ⟨hne.mpr hfull.2, hfull.1⟩
    rw [if_pos hfull, if_pos hc, imageBlocks_singleton]
  · have hc : ¬ (s.currentPage ≠ [] ∧ (imageBlocks (s.currentPage ++ [element])
        > MAX_IMAGES_PER_PAGE
        ∨ totalEstimatedHeight (s.currentPage ++ [element]) > CONTENT_HEIGHT)) :=
      fun h => hfull ⟨h.2, hne.mp h.1⟩
    rw [if_neg hfull, if_neg hc]

/-- C24: every page produced by createAutomaticPagination is non-empty; a page of two or
more blocks has a total estimated height of at most CONTENT_HEIGHT (864) and at most
MAX_IMAGES_PER_PAGE (5) image blocks; a page that exceeds the height budget consists of a
single block. -/
theorem createAutomaticPagination_page_budget (childNodes : List Node) (page : Region)
    (hpage : page ∈ createAutomaticPagination childNodes) :
    page ≠ []
    ∧ (2 ≤ page.length → totalEstimatedHeight page ≤ 864 ∧ imageBlocks page ≤ 5)
    ∧ (864 < totalEstimatedHeight page → page.length = 1) := by
  obtain ⟨hne, hfits⟩ := createAutomaticPagination_pages childNodes page hpage
  have hpos : 0 < page.length := List.length_pos.mpr hne
  simp only [CONTENT_HEIGHT, DEFAULT_HEIGHT, DEFAULT_MARGIN, MAX_IMAGES_PER_PAGE] at hfits
  refine ⟨hne, hfits, ?_⟩
  intro hbig
  by_contra hlen
  have := (hfits (by omega)).1
  omega

/-- Witness for C24: one paragraph of 1730px followed by a short one; the first page. -/
theorem createAutomaticPagination_page_budget_witness :
    [para 3 6880] ∈ createAutomaticPagination [para 3 6880, para 0 10]
    ∧ [para 3 6880] ≠ [] :=
  ⟨by decide,
    (createAutomaticPagination_page_budget [para 3 6880, para 0 10] [para 3 6880]
      (by decide)).1⟩

/-- C26: when every block's estimated height is at most CONTENT_HEIGHT (864), the number of
pages produced by createAutomaticPagination is at least
ceil(totalEstimatedHeight / CONTENT_HEIGHT) and at most the number of blocks. -/
theorem createAutomaticPagination_page_count_bounds (childNodes : List Node)
    (hblocks : ∀ n ∈ childNodes, elementHeight n ≤ 864) :
    (totalEstimatedHeight childNodes + 863) / 864
      ≤ (createAutomaticPagination childNodes).length
    ∧ (createAutomaticPagination childNodes).length ≤ childNodes.length := by
  have hflat := createAutomaticPagination_flatten childNodes
  constructor
  · have hsum := totalEstimatedHeight_flatten_le _ CONTENT_HEIGHT
      (createAutomaticPagination_page_height childNodes
        (by simpa [CONTENT_HEIGHT, DEFAULT_HEIGHT, DEFAULT_MARGIN] using hblocks))
    rw [hflat] at hsum
    simp only [CONTENT_HEIGHT, DEFAULT_HEIGHT, DEFAULT_MARGIN] at hsum
    omega
  · have := length_le_length_flatten _
      (fun r hr => (createAutomaticPagination_pages childNodes r hr).1)
    rwa [hflat] at this

/-- Witness for C26: three paragraphs of 510px give 3 pages, between ceil(1530 / 864) = 2
and 3 blocks. -/
theorem createAutomaticPagination_page_count_bounds_witness :
    (∀ n ∈ [para 0 2000, para 1 2000, para 2 2000], elementHeight n ≤ 864)
    ∧ (totalEstimatedHeight [para 0 2000, para 1 2000, para 2 2000] + 863) / 864
      ≤ (createAutomaticPagination [para 0 2000, para 1 2000, para 2 2000]).length :=
  ⟨by decide,
    (createAutomaticPagination_page_count_bounds [para 0 2000, para 1 2000, para 2 2000]
      (by decide)).1⟩

/-! ## updated-docx-handler.js: the batches -/

theorem processNextBatch_batches (fails : Nat → Bool) (settle : List Nat → List Nat)
    (n : Nat) :
    ∀ (fuel currentBatch : Nat) (st : State) (batches : List (List Nat))
      (r : State × List (List Nat)),
      Updated.processNextBatch fails settle n fuel currentBatch st batches = some r →
      r.1.documentLoaded = true
      ∧ r.2 = batches ++ (List.range' currentBatch ((n + 2) / 3 - currentBatch)).map
          (Updated.batchIndices n) := by
  intro fuel
  induction fuel with
  | zero =>
    intro cb st batches r hr
    simp [Updated.processNextBatch] at hr
  | succ fuel ih =>
    intro cb st batches r hr
    rw [Updated.processNextBatch] at hr
    simp only [Updated.batchSize] at hr
    by_cases hdone : cb * 3 ≥ n
    · rw [if_pos hdone] at hr
      simp only [Option.some.injEq] at hr
      have hz : (n + 2) / 3 - cb = 0 := by omega
      rw [← hr, hz]
      simp
    · rw [if_neg hdone] at hr
      obtain ⟨h1, h2⟩ := ih _ _ _ _ hr
      refine ⟨h1, ?_⟩
      have hk : (n + 2) / 3 - cb = ((n + 2) / 3 - (cb + 1)) + 1 := by omega
      rw [h2, hk, List.range'_succ, List.map_cons, List.append_assoc]
      rfl

theorem batchIndices_length (n b : Nat) (hb : b < (n + 2) / 3) :
    1 ≤ (Updated.batchIndices n b).length ∧ (Updated.batchIndices n b).length ≤ 3 := by
  unfold Updated.batchIndices
  rw [List.length_range']
  omega

theorem batchIndices_flatten (n : Nat) :
    ∀ (k b : Nat), b + k = (n + 2) / 3 →
      ((List.range' b k).map (Updated.batchIndices n)).flatten
        = List.range' (b * 3) (n - b * 3) := by
  intro k
  induction k with
  | zero =>
    intro b hb
    have hz : n - b * 3 = 0 := by omega
    rw [hz]
    simp
  | succ k ih =>
    intro b hb
    rw [List.range'_succ, List.map_cons, List.flatten_cons, ih (b + 1) (by omega)]
    unfold Updated.batchIndices
    by_cases hfull : b * 3 + 3 ≤ n
    · have e1 : min (b * 3 + 3) n - b * 3 = 3 := by omega
      have e2 : (b + 1) * 3 = b * 3 + 1 * 3 := by omega
      have e3 : n - b * 3 = (n - (b + 1) * 3) + 3 := by omega
      rw [e1, e3, e2]
      exact List.range'_append (b * 3) 3 (n - (b * 3 + 1 * 3)) 1
    · have e1 : min (b * 3 + 3) n - b * 3 = n - b * 3 := by omega
      have e2 : n - (b + 1) * 3 = 0 := by omega
      rw [e1, e2]
      simp

/-- C25: for n >= 1 pages the primary path of processDocument runs exactly ceil(n / 3)
batches in sequence and then resolves with the document marked loaded; batch b holds the
consecutive indices 3b up to min(3b + 3, n), so every batch holds between 1 and 3 pages and
the batches, put end to end, list every index of [0, n) exactly once. -/
theorem batches_cover_pages (st : State) (n w h : Nat) (fails : Nat → Bool)
    (settle : List Nat → List Nat) (mammoth : Mammoth) (fallbackFails : Nat → Bool)
    (hn : 1 ≤ n) :
    (Updated.processDocument st (Updated.RenderAsync.resolves n w h) fails settle mammoth
        fallbackFails).batches
      = (List.range ((n + 2) / 3)).map (Updated.batchIndices n)
    ∧ (Updated.processDocument st (Updated.RenderAsync.resolves n w h) fails settle mammoth
        fallbackFails).batches.length = (n + 2) / 3
    ∧ (Updated.processDocument st (Updated.RenderAsync.resolves n w h) fails settle mammoth
        fallbackFails).promise = Promise.resolved
    ∧ (Updated.processDocument st (Updated.RenderAsync.resolves n w h) fails settle mammoth
        fallbackFails).state.documentLoaded = true
    ∧ (∀ batch ∈ (Updated.processDocument st (Updated.RenderAsync.resolves n w h) fails
          settle mammoth fallbackFails).batches, 1 ≤ batch.length ∧ batch.length ≤ 3)
    ∧ (Updated.processDocument st (Updated.RenderAsync.resolves n w h) fails settle mammoth
        fallbackFails).batches.flatten = List.range n
    ∧ (∀ b, b < (n + 2) / 3 →
        Updated.batchIndices n b = List.range' (3 * b) (min (3 * b + 3) n - 3 * b)) := by
  have hn0 : ¬ n = 0 := by omega
  obtain ⟨r, hr⟩ := processNextBatch_terminates fails settle n (n + 1) 0
    { st with pageSettings := { st.pageSettings with width := w, height := h } } []
    (by omega)
  obtain ⟨hloaded, hbatches⟩ := processNextBatch_batches fails settle n _ _ _ _ r hr
  have hrun : Updated.processDocument st (Updated.RenderAsync.resolves n w h) fails settle
      mammoth fallbackFails
      = { state := r.1, promise := Promise.resolved, calls := [Updated.Strategy.docxPreview],
          fallbackPromise := none, batches := r.2 } := by
    simp only [Updated.processDocument, hn0, if_false]
    rw [hr]
  have hb : r.2 = (List.range ((n + 2) / 3)).map (Updated.batchIndices n) := by
    rw [hbatches, List.range_eq_range']
    simp
  rw [hrun]
  refine ⟨hb, ?_, rfl, hloaded, ?_, ?_, ?_⟩
  · show r.2.length = (n + 2) / 3
    rw [hb]
    simp
  · intro batch hbatch
    have hbatch2 : batch ∈ r.2 := hbatch
    rw [hb, List.mem_map] at hbatch2
    obtain ⟨b, hbmem, hbeq⟩ := hbatch2
    rw [← hbeq]
    exact batchIndices_length n b (List.mem_range.mp hbmem)
  · show r.2.flatten = List.range n
    rw [hb, List.range_eq_range', batchIndices_flatten n ((n + 2) / 3) 0 (by omega),
      List.range_eq_range']
    simp
  · intro b _
    unfold Updated.batchIndices
    rw [Nat.mul_comm b 3]

/-- Witness for C25: seven pages are rendered in the batches 0-2, 3-5 and 6. -/
theorem batches_cover_pages_witness :
    1 ≤ 7
    ∧ (Updated.processDocument (State.initial { width := 300, height := 150, ops := [] })
        (Updated.RenderAsync.resolves 7 816 1056) (fun _ => false) id Mammoth.rejects
        (fun _ => false)).batches
      = (List.range ((7 + 2) / 3)).map (Updated.batchIndices 7)
    ∧ (List.range ((7 + 2) / 3)).map (Updated.batchIndices 7) = [[0, 1, 2], [3, 4, 5], [6]] :=
  ⟨by decide,
    (batches_cover_pages (State.initial { width := 300, height := 150, ops := [] }) 7 816 1056
      (fun _ => false) id Mammoth.rejects (fun _ => false) (by decide)).1,
    by decide⟩

/-! ## `createCanvases`: the callback -/

theorem loopIndices_length (fromPage toPage : Int) :
    (loopIndices fromPage toPage).length = (toPage - fromPage + 1).toNat := by
  simp [loopIndices]

theorem export_fold_callbacks (redraw : State → ℚ → ℚ → Int → State × Completion)
    (expected : Int) (indices : List Int) :
    ∀ (e : Export State), e.canvases.length = e.completed →
      (indices.foldl (fun (e : Export State) i =>
          let r := redraw e.state 1 0 i
          e.complete r.1 r.1.canvas expected) e).completed = e.completed + indices.length
      ∧ (((e.completed : Int) < expected
            ∧ expected ≤ ((e.completed + indices.length : Nat) : Int)) →
          ∃ entries : List Snapshot, (entries.length : Int) = expected
            ∧ (indices.foldl (fun (e : Export State) i =>
                let r := redraw e.state 1 0 i
                e.complete r.1 r.1.canvas expected) e).callbacks = e.callbacks ++ [entries])
      ∧ (¬ ((e.completed : Int) < expected
            ∧ expected ≤ ((e.completed + indices.length : Nat) : Int)) →
          (indices.foldl (fun (e : Export State) i =>
              let r := redraw e.state 1 0 i
              e.complete r.1 r.1.canvas expected) e).callbacks = e.callbacks) := by
  induction indices with
  | nil =>
    intro e _
    refine ⟨rfl, ?_, fun _ => rfl⟩
    intro h
    simp only [List.length_nil, Nat.add_zero] at h
    omega
  | cons i rest ih =>
    intro e hlen
    rw [List.foldl_cons]
    have hc : ((redraw e.state 1 0 i |> fun r =>
        e.complete r.1 r.1.canvas expected)).completed = e.completed + 1 := rfl
    have hl : ((redraw e.state 1 0 i |> fun r =>
        e.complete r.1 r.1.canvas expected)).canvases.length = e.completed + 1 := by
      simp [Export.complete, hlen]
    obtain ⟨h1, h2, h3⟩ := ih _ (hl.trans hc.symm)
    simp only [hc] at h1 h2 h3
    simp only [List.length_cons]
    refine ⟨by rw [h1]; omega, ?_, ?_⟩
    · intro hin
      by_cases hhit : (e.completed : Int) + 1 = expected
      · have hno : ¬ (((e.completed + 1 : Nat) : Int) < expected
            ∧ expected ≤ ((e.completed + 1 + rest.length : Nat) : Int)) := by
          push_cast
          omega
        refine ⟨e.canvases ++ [Snapshot.mk (redraw e.state 1 0 i).1.canvas.width
          (redraw e.state 1 0 i).1.canvas.height DPI], ?_, ?_⟩
        · simp only [List.length_append, List.length_singleton, hlen]
          push_cast
          exact hhit
        · rw [h3 hno]
          simp [Export.complete, hhit]
      · have hyes : ((e.completed + 1 : Nat) : Int) < expected
            ∧ expected ≤ ((e.completed + 1 + rest.length : Nat) : Int) := by
          push_cast at hin ⊢
          omega
        obtain ⟨entries, he1, he2⟩ := h2 hyes
        refine ⟨entries, he1, ?_⟩
        rw [he2]
        simp [Export.complete, hhit]
    · intro hout
      have hhit : ¬ (e.completed : Int) + 1 = expected := by
        push_cast at hout
        omega
      have hno : ¬ (((e.completed + 1 : Nat) : Int) < expected
          ∧ expected ≤ ((e.completed + 1 + rest.length : Nat) : Int)) := by
        push_cast at hout ⊢
        omega
      rw [h3 hno]
      simp [Export.complete, hhit]

theorem createCanvasesWith_callbacks (redraw : State → ℚ → ℚ → Int → State × Completion)
    (st : State) (fromPage pageCount : Int) :
    (createCanvasesWith redraw st fromPage pageCount).completed
      = (min (st.documentPages.length : Int) (fromPage + pageCount - 1) - fromPage + 1).toNat
    ∧ (createCanvasesWith redraw st fromPage pageCount).callbacks.length
      = (if fromPage ≤ min (st.documentPages.length : Int) (fromPage + pageCount - 1)
          then 1 else 0)
    ∧ ∀ entries ∈ (createCanvasesWith redraw st fromPage pageCount).callbacks,
        (entries.length : Int)
          = min (st.documentPages.length : Int) (fromPage + pageCount - 1) - fromPage + 1 := by
  unfold createCanvasesWith
  simp only
  generalize min (st.documentPages.length : Int) (fromPage + pageCount - 1) = toPage
  obtain ⟨h1, h2, h3⟩ := export_fold_callbacks redraw (toPage - fromPage + 1)
    (loopIndices fromPage toPage)
    { state := st, canvases := [], completed := 0, callbacks := [] } rfl
  simp only [loopIndices_length, Nat.zero_add, List.nil_append] at h1 h2 h3
  refine ⟨h1, ?_, ?_⟩
  · by_cases hle : fromPage ≤ toPage
    · obtain ⟨entries, _, he⟩ := h2 (by constructor <;> first | (simp; omega) | simp)
      rw [he, if_pos hle]
      rfl
    · rw [h3 (by simp; omega), if_neg hle]
      rfl
  · intro entries hmem
    by_cases hle : fromPage ≤ toPage
    · obtain ⟨l, hl, he⟩ := h2 (by constructor <;> first | (simp; omega) | simp)
      rw [he] at hmem
      simp only [List.mem_singleton] at hmem
      rw [hmem]
      exact hl
    · rw [h3 (by simp; omega)] at hmem
      simp at hmem

/-- C29: in createCanvases of updated-docx-handler.js and enhanced-docx-handler.js, with
toPage = min(documentPages.length, fromPage + pageCount - 1), the loop makes
toPage - fromPage + 1 draws (none when that is not positive); the callback is invoked
exactly once when fromPage <= toPage, with the toPage - fromPage + 1 entries of all the
draws, and is never invoked when fromPage > toPage. -/
theorem createCanvases_callback_once (st : State) (fromPage pageCount : Int) :
    ((Updated.createCanvases st fromPage pageCount).completed
        = (min (st.documentPages.length : Int) (fromPage + pageCount - 1)
            - fromPage + 1).toNat
      ∧ (Updated.createCanvases st fromPage pageCount).callbacks.length
        = (if fromPage ≤ min (st.documentPages.length : Int) (fromPage + pageCount - 1)
            then 1 else 0)
      ∧ ∀ entries ∈ (Updated.createCanvases st fromPage pageCount).callbacks,
          (entries.length : Int)
            = min (st.documentPages.length : Int) (fromPage + pageCount - 1) - fromPage + 1)
    ∧ ((Enhanced.createCanvases st fromPage pageCount).completed
        = (min (st.documentPages.length : Int) (fromPage + pageCount - 1)
            - fromPage + 1).toNat
      ∧ (Enhanced.createCanvases st fromPage pageCount).callbacks.length
        = (if fromPage ≤ min (st.documentPages.length : Int) (fromPage + pageCount - 1)
            then 1 else 0)
      ∧ ∀ entries ∈ (Enhanced.createCanvases st fromPage pageCount).callbacks,
          (entries.length : Int)
            = min (st.documentPages.length : Int) (fromPage + pageCount - 1) - fromPage + 1)
    ∧ (Updated.createCanvases onePageLoaded 0 0).callbacks = []
    ∧ (Enhanced.createCanvases onePageLoaded 0 0).callbacks = [] :=
  ⟨createCanvasesWith_callbacks Updated.redraw st fromPage pageCount,
    createCanvasesWith_callbacks Enhanced.redraw st fromPage pageCount, by decide, by decide⟩

/-! ## pagination-focused-docx-handler.js: a failed page -/

theorem focused_redraw_failed (st : Focused.State) (scale rotation : ℚ) (index : Int)
    (h : st.pageContents.length ≠ 0)
    (hmiss : arrayAt st.renderedPages (clampIndex index st.pageContents.length) = none) :
    (Focused.redraw st scale rotation index true).2 = Completion.error "html2canvas failed"
    ∧ (Focused.redraw st scale rotation index true).1.pageContents = st.pageContents
    ∧ (Focused.redraw st scale rotation index true).1.html2canvasCalls
      = st.html2canvasCalls + 1
    ∧ (Focused.redraw st scale rotation index true).1.renderedPages.getD
        (clampIndex index st.pageContents.length).toNat none
      = some { width := DEFAULT_WIDTH, height := DEFAULT_HEIGHT,
               source := Source.errorPage (clampIndex index st.pageContents.length).toNat } := by
  simp only [Focused.redraw, focused_redrawStart_miss st scale rotation index h hmiss,
    Focused.redrawFinish, if_true]
  refine ⟨trivial, trivial, trivial, ?_⟩
  rw [arrayAssign_getD]
  simp

/-! ## Page geometry -/

/-- C21: extractPageSettings converts the geometry of the first section from twentieths of
a point with pixels = twips * 96 / 1440, for the page width, the page height and each of
the four margins; without section properties the geometry is left as it is, which from the
constructor is 816 x 1056 with margins of 96; and the fallback values 12240, 15840 and 1440
of missing attributes convert to exactly 816, 1056 and 96. -/
theorem extractPageSettings_conversion (pageSettings : PageGeometry) (later : List SectPr)
    (w h top right bottom left : Int) (size : PgSz) (margins : PgMar) (canvas : OutputCanvas) :
    extractPageSettings pageSettings
        ({ pgSz := some { w := some w, h := some h },
           pgMar := some { top := some top, right := some right, bottom := some bottom,
                           left := some left } } :: later)
      = { width := (w : ℚ) * 96 / 1440, height := (h : ℚ) * 96 / 1440,
          top := (top : ℚ) * 96 / 1440, right := (right : ℚ) * 96 / 1440,
          bottom := (bottom : ℚ) * 96 / 1440, left := (left : ℚ) * 96 / 1440 }
    ∧ extractPageSettings pageSettings ({ pgSz := some size, pgMar := some margins } :: later)
      = { width := twipsToPixels (size.w.getD 12240),
          height := twipsToPixels (size.h.getD 15840),
          top := twipsToPixels (margins.top.getD 1440),
          right := twipsToPixels (margins.right.getD 1440),
          bottom := twipsToPixels (margins.bottom.getD 1440),
          left := twipsToPixels (margins.left.getD 1440) }
    ∧ extractPageSettings pageSettings [] = pageSettings
    ∧ extractPageSettings (State.initial canvas).pageSettings.toGeometry []
      = { width := 816, height := 1056, top := 96, right := 96, bottom := 96, left := 96 }
    ∧ PageGeometry.initial
      = { width := 816, height := 1056, top := 96, right := 96, bottom := 96, left := 96 }
    ∧ (State.initial canvas).pageSettings.toGeometry = PageGeometry.initial
    ∧ extractPageSettings pageSettings
        ({ pgSz := some { w := none, h := none },
           pgMar := some { top := none, right := none, bottom := none, left := none } }
          :: later)
      = { width := 816, height := 1056, top := 96, right := 96, bottom := 96, left := 96 }
    ∧ twipsToPixels 12240 = 816 ∧ twipsToPixels 15840 = 1056 ∧ twipsToPixels 1440 = 96 := by
  refine ⟨?_, ?_, rfl, ?_, ?_, ?_, ?_, ?_, ?_, ?_⟩
  · simp [extractPageSettings, twipsToPixels, DPI]
  · simp [extractPageSettings]
  · simp [extractPageSettings, PageSettings.toGeometry, State.initial, DPI]
  · simp [PageGeometry.initial, DPI]
    norm_num
  · simp [PageSettings.toGeometry, State.initial, PageGeometry.initial, DPI]
    norm_num
  · simp [extractPageSettings, twipsToPixels, DPI]
    norm_num
  · simp [twipsToPixels, DPI]
    norm_num
  · simp [twipsToPixels, DPI]
    norm_num
  · simp [twipsToPixels, DPI]

/-- C27: in the explicit-break branch of processMammothFallback, with a positive available
height (page height - top margin - bottom margin): content taller than the available height
is drawn at (left margin, top margin) with height exactly the available height and width
multiplied by availableHeight / contentHeight, so the aspect ratio is kept and the drawing
ends at the bottom margin; content that is not taller is drawn at the same origin at its
own size. -/
theorem explicit_page_placement (pageSettings : PageGeometry)
    (renderedWidth renderedHeight : ℚ)
    (hpos : 0 < pageSettings.height - pageSettings.top - pageSettings.bottom) :
    (pageSettings.height - pageSettings.top - pageSettings.bottom < renderedHeight →
      (Updated.placeExplicitPage pageSettings renderedWidth renderedHeight).dx
          = pageSettings.left
      ∧ (Updated.placeExplicitPage pageSettings renderedWidth renderedHeight).dy
          = pageSettings.top
      ∧ (Updated.placeExplicitPage pageSettings renderedWidth renderedHeight).dHeight
          = pageSettings.height - pageSettings.top - pageSettings.bottom
      ∧ (Updated.placeExplicitPage pageSettings renderedWidth renderedHeight).dWidth
          = renderedWidth
            * ((pageSettings.height - pageSettings.top - pageSettings.bottom) / renderedHeight)
      ∧ (Updated.placeExplicitPage pageSettings renderedWidth renderedHeight).dHeight
          = renderedHeight
            * ((pageSettings.height - pageSettings.top - pageSettings.bottom) / renderedHeight)
      ∧ (Updated.placeExplicitPage pageSettings renderedWidth renderedHeight).dWidth
            * renderedHeight
          = renderedWidth
            * (Updated.placeExplicitPage pageSettings renderedWidth renderedHeight).dHeight
      ∧ (Updated.placeExplicitPage pageSettings renderedWidth renderedHeight).dy
            + (Updated.placeExplicitPage pageSettings renderedWidth renderedHeight).dHeight
          = pageSettings.height - pageSettings.bottom)
    ∧ (renderedHeight ≤ pageSettings.height - pageSettings.top - pageSettings.bottom →
      Updated.placeExplicitPage pageSettings renderedWidth renderedHeight
        = { dx := pageSettings.left, dy := pageSettings.top, dWidth := renderedWidth,
            dHeight := renderedHeight }) := by
  constructor
  · intro htall
    have hne : renderedHeight ≠ 0 := by
      intro h0
      rw [h0] at htall
      exact absurd hpos (not_lt.mpr (le_of_lt htall))
    have hgt : renderedHeight > pageSettings.height - pageSettings.top - pageSettings.bottom :=
      htall
    simp only [Updated.placeExplicitPage, hgt, if_true]
    refine ⟨trivial, trivial, trivial, trivial, ?_, ?_, ?_⟩
    · field_simp
    · field_simp
    · ring
  · intro hfit
    have hng : ¬ renderedHeight
        > pageSettings.height - pageSettings.top - pageSettings.bottom := not_lt.mpr hfit
    simp only [Updated.placeExplicitPage, hng, if_false]

/-- Witness for C27: content of 624 x 1728 on a page of 816 x 1056 with margins of 96 is
taller than the available 864 and is drawn with exactly the available height. -/
theorem explicit_page_placement_witness :
    ((0 : ℚ) < PageGeometry.initial.height - PageGeometry.initial.top
        - PageGeometry.initial.bottom
      ∧ PageGeometry.initial.height - PageGeometry.initial.top - PageGeometry.initial.bottom
        < 1728)
    ∧ (Updated.placeExplicitPage PageGeometry.initial 624 1728).dHeight
      = PageGeometry.initial.height - PageGeometry.initial.top
        - PageGeometry.initial.bottom :=
  ⟨⟨by simp [PageGeometry.initial, DPI]; norm_num,
      by simp [PageGeometry.initial, DPI]; norm_num⟩,
    ((explicit_page_placement PageGeometry.initial 624 1728
      (by simp [PageGeometry.initial, DPI]; norm_num)).1
      (by simp [PageGeometry.initial, DPI]; norm_num)).2.2.1⟩

/-! ## Pagination by content height -/

theorem arrayAt_map_range {α : Type} (f : Nat → α) (n i : Nat) (h : i < n) :
    arrayAt ((List.range n).map fun j => some (f j)) (i : Int) = some (f i) := by
  rw [arrayAt_natCast]
  simp [List.getD_eq_getElem?_getD, h]

theorem renderPaginatedContent_height (st : State) (childNodes : List Node)
    (scrollHeight : Nat) (fails : Nat → Bool)
    (hauto : (querySelectorAllPageBreak childNodes).length = 0)
    (hpos : 0 < st.pageSettings.contentPerPage) :
    ((∃ i, i < max 1 ⌈(scrollHeight : ℚ) / st.pageSettings.contentPerPage⌉₊
          ∧ fails i = true) →
      Enhanced.renderPaginatedContent st childNodes scrollHeight fails
        = (st, Promise.rejected))
    ∧ ((∀ i, i < max 1 ⌈(scrollHeight : ℚ) / st.pageSettings.contentPerPage⌉₊
          → fails i = false) →
      Enhanced.renderPaginatedContent st childNodes scrollHeight fails
        = ({ st with
              documentPages :=
                (List.range
                  (max 1 ⌈(scrollHeight : ℚ) / st.pageSettings.contentPerPage⌉₊)).map
                  fun i => some
                    { width := canvasDimension st.pageSettings.width
                      height := canvasDimension st.pageSettings.height
                      source := Source.window (pageWindow st.pageSettings i) } },
            Promise.resolved)) := by
  have hplan := enhanced_plannedPages_height st.pageSettings childNodes scrollHeight hauto
    hpos
  constructor
  · intro hfail
    have hany : (List.range ((List.range
        (max 1 ⌈(scrollHeight : ℚ) / st.pageSettings.contentPerPage⌉₊)).map
          fun i => Source.window (pageWindow st.pageSettings i)).length).any fails = true := by
      rw [List.length_map, List.length_range]
      exact (range_any_fails _ fails).mpr hfail
    unfold Enhanced.renderPaginatedContent
    rw [hplan]
    simp only [hany, if_true]
  · intro hok
    have hany : ¬ (List.range ((List.range
        (max 1 ⌈(scrollHeight : ℚ) / st.pageSettings.contentPerPage⌉₊)).map
          fun i => Source.window (pageWindow st.pageSettings i)).length).any fails = true := by
      rw [List.length_map, List.length_range, range_any_fails]
      rintro ⟨i, hi, hf⟩
      rw [hok i hi] at hf
      exact Bool.noConfusion hf
    unfold Enhanced.renderPaginatedContent
    rw [hplan]
    simp only [hany, if_false, List.map_map]
    rfl

/-- C22 (counterexample): content of height 1000 without page-break elements on pages with
contentPerPage = 864, so that max(1, ceil(1000 / 864)) = 2, and the rasterization of page 1
fails.  renderPaginatedContent rejects and stores no page; processMammothFallback stores two
pages, the second of which is blank and shows no window of the content. -/
theorem height_pagination_with_failed_page :
    (State.initial { width := 300, height := 150, ops := [] }).pageSettings.contentPerPage
      = 864
    ∧ querySelectorAllPageBreak [para 0 10] = []
    ∧ max 1 ⌈((1000 : Nat) : ℚ) / 864⌉₊ = 2
    ∧ (Enhanced.renderPaginatedContent (State.initial { width := 300, height := 150, ops := [] })
        [para 0 10] 1000 (fun i => i == 1)).2 = Promise.rejected
    ∧ (Enhanced.renderPaginatedContent (State.initial { width := 300, height := 150, ops := [] })
        [para 0 10] 1000 (fun i => i == 1)).1.documentPages.length = 0
    ∧ (Updated.processMammothFallback (State.initial { width := 300, height := 150, ops := [] })
        (Mammoth.resolves [para 0 10] 1000) (fun i => i == 1)).1.documentPages
      = [some { width := 816, height := 1056,
                source := Source.window (pageWindow
                  (State.initial { width := 300, height := 150, ops := [] }).pageSettings 0) },
         some { width := 816, height := 1056, source := Source.blank }] := by
  have hcpp := initial_contentPerPage { width := 300, height := 150, ops := [] }
  have hpos : 0 < (State.initial
      { width := 300, height := 150, ops := [] }).pageSettings.contentPerPage := by
    rw [hcpp]; norm_num
  have hw : canvasDimension
      (State.initial { width := 300, height := 150, ops := [] }).pageSettings.width
      = 816 := by
    show canvasDimension (816 : ℚ) = 816
    exact_mod_cast canvasDimension_natCast 816
  have hh : canvasDimension
      (State.initial { width := 300, height := 150, ops := [] }).pageSettings.height
      = 1056 := by
    show canvasDimension (1056 : ℚ) = 1056
    exact_mod_cast canvasDimension_natCast 1056
  have he := (renderPaginatedContent_height
    (State.initial { width := 300, height := 150, ops := [] }) [para 0 10] 1000
    (fun i => i == 1) (by decide) hpos).1
    ⟨1, by rw [hcpp, ceil_1000_div_864]; decide, by decide⟩
  have hu := processMammothFallback_height
    (State.initial { width := 300, height := 150, ops := [] }) [para 0 10] 1000
    (fun i => i == 1) (by decide) hpos
  rw [hcpp, ceil_1000_div_864, hw, hh] at hu
  refine ⟨hcpp, by decide, ceil_1000_div_864, ?_, ?_, ?_⟩
  · rw [he]
  · rw [he]
    rfl
  · rw [hu]
    rfl

/-- C22 (amended): when the converted content has no explicit page-break element and
contentPerPage = page height - top margin - bottom margin is positive, both variants set
out to render exactly max(1, ceil(contentHeight / contentPerPage)) pages, page i from the
copy of the content clipped to the vertical window from i * contentPerPage to
(i + 1) * contentPerPage; these windows follow one another and reach the end of the content.
processMammothFallback stores that many pages, a page whose rasterization fails being stored
blank; renderPaginatedContent stores these pages when no rasterization fails, and when one
fails it rejects and stores no page. -/
theorem height_pagination_page_count (st : State) (childNodes : List Node)
    (scrollHeight : Nat) (fails : Nat → Bool)
    (hauto : (querySelectorAllPageBreak childNodes).length = 0)
    (hpos : 0 < st.pageSettings.contentPerPage) :
    ((Updated.processMammothFallback st (Mammoth.resolves childNodes scrollHeight)
        fails).2 = Promise.resolved
      ∧ (Updated.processMammothFallback st (Mammoth.resolves childNodes scrollHeight)
          fails).1.documentPages.length
        = max 1 ⌈(scrollHeight : ℚ) / st.pageSettings.contentPerPage⌉₊
      ∧ ∀ i : Nat, i < max 1 ⌈(scrollHeight : ℚ) / st.pageSettings.contentPerPage⌉₊ →
          arrayAt (Updated.processMammothFallback st
            (Mammoth.resolves childNodes scrollHeight) fails).1.documentPages i
          = some { width := canvasDimension st.pageSettings.width
                   height := canvasDimension st.pageSettings.height
                   source := if fails i then Source.blank
                     else Source.window (pageWindow st.pageSettings i) })
    ∧ (Enhanced.plannedPages st.pageSettings childNodes scrollHeight
        = some ((List.range
            (max 1 ⌈(scrollHeight : ℚ) / st.pageSettings.contentPerPage⌉₊)).map
            fun i => Source.window (pageWindow st.pageSettings i)))
    ∧ ((∀ i, i < max 1 ⌈(scrollHeight : ℚ) / st.pageSettings.contentPerPage⌉₊
          → fails i = false) →
        (Enhanced.renderPaginatedContent st childNodes scrollHeight fails).2
          = Promise.resolved
        ∧ (Enhanced.renderPaginatedContent st childNodes scrollHeight
            fails).1.documentPages.length
          = max 1 ⌈(scrollHeight : ℚ) / st.pageSettings.contentPerPage⌉₊
        ∧ ∀ i : Nat, i < max 1 ⌈(scrollHeight : ℚ) / st.pageSettings.contentPerPage⌉₊ →
            arrayAt (Enhanced.renderPaginatedContent st childNodes scrollHeight
              fails).1.documentPages i
            = some { width := canvasDimension st.pageSettings.width
                     height := canvasDimension st.pageSettings.height
                     source := Source.window (pageWindow st.pageSettings i) })
    ∧ ((∃ i, i < max 1 ⌈(scrollHeight : ℚ) / st.pageSettings.contentPerPage⌉₊
          ∧ fails i = true) →
        (Enhanced.renderPaginatedContent st childNodes scrollHeight fails).2
          = Promise.rejected
        ∧ (Enhanced.renderPaginatedContent st childNodes scrollHeight
            fails).1.documentPages = st.documentPages)
    ∧ (∀ i : Nat,
        (pageWindow st.pageSettings i).clipTop = (i : ℚ) * st.pageSettings.contentPerPage
        ∧ (pageWindow st.pageSettings i).clipBottom
          = ((i : ℚ) + 1) * st.pageSettings.contentPerPage
        ∧ (pageWindow st.pageSettings i).height = st.pageSettings.contentPerPage
        ∧ (pageWindow st.pageSettings (i + 1)).clipTop
          = (pageWindow st.pageSettings i).clipBottom)
    ∧ (scrollHeight : ℚ)
        ≤ (max 1 ⌈(scrollHeight : ℚ) / st.pageSettings.contentPerPage⌉₊ : Nat)
          * st.pageSettings.contentPerPage
    ∧ (2 ≤ max 1 ⌈(scrollHeight : ℚ) / st.pageSettings.contentPerPage⌉₊ →
        ((max 1 ⌈(scrollHeight : ℚ) / st.pageSettings.contentPerPage⌉₊ : Nat) - 1 : ℚ)
          * st.pageSettings.contentPerPage < scrollHeight) := by
  have hu := processMammothFallback_height st childNodes scrollHeight fails hauto hpos
  have hplan := enhanced_plannedPages_height st.pageSettings childNodes scrollHeight hauto
    hpos
  obtain ⟨hrej, hres⟩ := renderPaginatedContent_height st childNodes scrollHeight fails hauto
    hpos
  have hceil : (scrollHeight : ℚ) / st.pageSettings.contentPerPage
      ≤ (⌈(scrollHeight : ℚ) / st.pageSettings.contentPerPage⌉₊ : ℚ) := Nat.le_ceil _
  generalize hc : max 1 ⌈(scrollHeight : ℚ) / st.pageSettings.contentPerPage⌉₊ = count at *
  refine ⟨⟨?_, ?_, ?_⟩, hplan, ?_, ?_, ?_, ?_, ?_⟩
  · rw [hu]
  · rw [hu]
    simp
  · intro i hi
    rw [hu]
    exact arrayAt_map_range _ count i hi
  · intro hok
    rw [hres hok]
    refine ⟨rfl, by simp, ?_⟩
    intro i hi
    exact arrayAt_map_range _ count i hi
  · intro hfail
    rw [hrej hfail]
    exact ⟨rfl, rfl⟩
  · intro i
    refine ⟨rfl, rfl, rfl, ?_⟩
    simp only [pageWindow]
    push_cast
    ring
  · have hle : (⌈(scrollHeight : ℚ) / st.pageSettings.contentPerPage⌉₊ : ℚ) ≤ (count : ℚ) := by
      have : ⌈(scrollHeight : ℚ) / st.pageSettings.contentPerPage⌉₊ ≤ count := by
        rw [← hc]
        exact le_max_right _ _
      exact_mod_cast this
    have h1 : (scrollHeight : ℚ) / st.pageSettings.contentPerPage ≤ (count : ℚ) :=
      le_trans hceil hle
    exact (div_le_iff₀ hpos).mp h1
  · intro h2
    have hcount : count = ⌈(scrollHeight : ℚ) / st.pageSettings.contentPerPage⌉₊ := by
      rw [← hc]
      rcases le_total 1 ⌈(scrollHeight : ℚ) / st.pageSettings.contentPerPage⌉₊ with h | h
      · exact max_eq_right h
      · rw [max_eq_left h] at hc
        omega
    have hlt : count - 1 < ⌈(scrollHeight : ℚ) / st.pageSettings.contentPerPage⌉₊ := by
      omega
    have h3 := Nat.lt_ceil.mp hlt
    have h4 : ((count - 1 : Nat) : ℚ) = (count : ℚ) - 1 := by
      rw [Nat.cast_sub (by omega)]
      simp
    rw [h4] at h3
    exact (lt_div_iff₀ hpos).mp h3

/-- Witness for C22 (amended): content of height 1000 on the default page, where
contentPerPage is 864, gives 2 pages in updated-docx-handler.js. -/
theorem height_pagination_page_count_witness :
    ((querySelectorAllPageBreak [para 0 10]).length = 0
      ∧ 0 < (State.initial { width := 300, height := 150, ops := [] }).pageSettings.contentPerPage)
    ∧ (Updated.processMammothFallback (State.initial { width := 300, height := 150, ops := [] })
        (Mammoth.resolves [para 0 10] 1000) (fun i => i == 1)).1.documentPages.length
      = max 1 ⌈((1000 : Nat) : ℚ) / (State.initial
          { width := 300, height := 150, ops := [] }).pageSettings.contentPerPage⌉₊ :=
  ⟨⟨by decide, by rw [initial_contentPerPage]; norm_num⟩,
    (height_pagination_page_count (State.initial { width := 300, height := 150, ops := [] })
      [para 0 10] 1000 (fun i => i == 1) (by decide)
      (by rw [initial_contentPerPage]; norm_num)).1.2.1⟩

/-! ## The break list and the page partition -/

theorem session_processDocument_state (s : Enhanced.Session) (settings : PageSettings)
    (docXml : List XmlElement) (mammoth : Mammoth) (fails : Nat → Bool) :
    (s.processDocument settings docXml mammoth fails).1.state
        = (Enhanced.processDocument s.state (Enhanced.Extraction.resolves settings) mammoth
            fails).1
      ∧ (s.processDocument settings docXml mammoth fails).2
        = (Enhanced.processDocument s.state (Enhanced.Extraction.resolves settings) mammoth
            fails).2 := by
  cases mammoth with
  | rejects => exact ⟨rfl, rfl⟩
  | resolves childNodes scrollHeight =>
    simp only [Enhanced.Session.processDocument, Enhanced.processDocument,
      Enhanced.processDocumentStructure, Enhanced.Session.renderPaginatedContent]
    rcases h : Enhanced.renderPaginatedContent { s.state with pageSettings := settings }
      childNodes scrollHeight fails with ⟨st2, promise⟩
    cases promise <;> exact ⟨rfl, rfl⟩

/-- C30: in enhanced-docx-handler.js the page partition does not depend on the break list.
Whatever pageMetrics holds when renderPaginatedContent runs, and whatever document XML
processDocumentStructure computed the break list from, the same converted content with the
same page settings gives the same stored pages (their number and their ranges) and the
same outcome of the load. -/
theorem partition_independent_of_break_list (st : State) (settings : PageSettings)
    (metricsA metricsB : Option Enhanced.PageMetrics) (docXmlA docXmlB : List XmlElement)
    (mammoth : Mammoth) (childNodes : List Node) (scrollHeight : Nat) (fails : Nat → Bool) :
    ((Enhanced.Session.renderPaginatedContent { state := st, pageMetrics := metricsA }
          childNodes scrollHeight fails).1.state
        = (Enhanced.Session.renderPaginatedContent { state := st, pageMetrics := metricsB }
            childNodes scrollHeight fails).1.state
      ∧ (Enhanced.Session.renderPaginatedContent { state := st, pageMetrics := metricsA }
          childNodes scrollHeight fails).2
        = (Enhanced.Session.renderPaginatedContent { state := st, pageMetrics := metricsB }
            childNodes scrollHeight fails).2)
    ∧ ((Enhanced.Session.processDocument { state := st, pageMetrics := metricsA } settings
          docXmlA mammoth fails).1.state
        = (Enhanced.Session.processDocument { state := st, pageMetrics := metricsB } settings
            docXmlB mammoth fails).1.state
      ∧ (Enhanced.Session.processDocument { state := st, pageMetrics := metricsA } settings
          docXmlA mammoth fails).1.state.documentPages.length
        = (Enhanced.Session.processDocument { state := st, pageMetrics := metricsB } settings
            docXmlB mammoth fails).1.state.documentPages.length
      ∧ (Enhanced.Session.processDocument { state := st, pageMetrics := metricsA } settings
          docXmlA mammoth fails).2
        = (Enhanced.Session.processDocument { state := st, pageMetrics := metricsB } settings
            docXmlB mammoth fails).2) := by
  have hA := session_processDocument_state { state := st, pageMetrics := metricsA } settings
    docXmlA mammoth fails
  have hB := session_processDocument_state { state := st, pageMetrics := metricsB } settings
    docXmlB mammoth fails
  refine ⟨⟨rfl, rfl⟩, ?_, ?_, ?_⟩
  · rw [hA.1, hB.1]
  · rw [hA.1, hB.1]
  · rw [hA.2, hB.2]

/-- Two documents that differ only in a section break: the break lists stored in
pageMetrics differ, and the same converted content is split into the same two pages. -/
theorem section_break_changes_break_list_only :
    (Enhanced.processDocumentStructure
        { state := State.initial { width := 300, height := 150, ops := [] },
          pageMetrics := none }
        (State.initial { width := 300, height := 150, ops := [] }).pageSettings
        orphanBreakDocument).pageMetrics
      = some { pageSize := (State.initial { width := 300, height := 150, ops := [] }).pageSettings,
               breaks := [{ type := "explicit", position := 1, element := 4 },
                          { type := "explicit", position := 1, element := 5 }] }
    ∧ (Enhanced.processDocumentStructure
        { state := State.initial { width := 300, height := 150, ops := [] },
          pageMetrics := none }
        (State.initial { width := 300, height := 150, ops := [] }).pageSettings
        sectionBreakDocument).pageMetrics
      = some { pageSize := (State.initial { width := 300, height := 150, ops := [] }).pageSettings,
               breaks := [{ type := "explicit", position := 1, element := 4 },
                          { type := "explicit", position := 1, element := 5 },
                          { type := "section", position := 1, element := 7 }] }
    ∧ (Enhanced.Session.processDocument
        { state := State.initial { width := 300, height := 150, ops := [] },
          pageMetrics := none }
        (State.initial { width := 300, height := 150, ops := [] }).pageSettings
        orphanBreakDocument (Mammoth.resolves [para 0 10, pageBreakMarker, para 1 10] 100)
        (fun _ => false)).1.state.documentPages
      = (Enhanced.Session.processDocument
        { state := State.initial { width := 300, height := 150, ops := [] },
          pageMetrics := none }
        (State.initial { width := 300, height := 150, ops := [] }).pageSettings
        sectionBreakDocument (Mammoth.resolves [para 0 10, pageBreakMarker, para 1 10] 100)
        (fun _ => false)).1.state.documentPages
    ∧ (Enhanced.Session.processDocument
        { state := State.initial { width := 300, height := 150, ops := [] },
          pageMetrics := none }
        (State.initial { width := 300, height := 150, ops := [] }).pageSettings
        sectionBreakDocument (Mammoth.resolves [para 0 10, pageBreakMarker, para 1 10] 100)
        (fun _ => false)).1.state.documentPages.length = 2 := by
  decide

/-! ## pagination-focused-docx-handler.js: the render cache under overlapping requests -/

theorem focused_request_frame (r : Focused.Running) (scale rotation : ℚ) (index : Int) :
    (r.request scale rotation index).state
        = (Focused.redrawStart r.state scale rotation index).1
    ∧ ((∃ completion, (Focused.redrawStart r.state scale rotation index).2
            = Focused.Started.done completion)
          ∧ (r.request scale rotation index).pending = r.pending
        ∨ ∃ job, (Focused.redrawStart r.state scale rotation index).2
            = Focused.Started.awaiting job
          ∧ (r.request scale rotation index).pending = r.pending ++ [job]) := by
  unfold Focused.Running.request
  rcases h : Focused.redrawStart r.state scale rotation index with ⟨st1, started⟩
  cases started with
  | done completion => exact ⟨rfl, Or.inl ⟨⟨completion, rfl⟩, rfl⟩⟩
  | awaiting job => exact ⟨rfl, Or.inr ⟨job, rfl, rfl⟩⟩

theorem focused_request_quiet (r : Focused.Running) (pages i : Nat) (surface : Canvas)
    (scale rotation : ℚ) (index : Int) (h : r.Quiet pages i surface) :
    (r.request scale rotation index).Quiet pages i surface := by
  obtain ⟨hlen, hcached, hpending⟩ := h
  obtain ⟨f1, f2, _, f4, _, _⟩ := focused_redrawStart_frame r.state scale rotation index
  obtain ⟨hstate, hcase⟩ := focused_request_frame r scale rotation index
  refine ⟨?_, ?_, ?_⟩
  · rw [hstate, f1]; exact hlen
  · rw [hstate, f2]; exact hcached
  · rcases hcase with ⟨_, hp⟩ | ⟨job, hjob, hp⟩
    · rw [hp]; exact hpending
    · rw [hp]
      intro other hother
      rcases List.mem_append.mp hother with hin | hin
      · exact hpending other hin
      · rw [List.mem_singleton] at hin
        subst hin
        intro e
        have hnone := f4 other hjob
        rw [e, hcached] at hnone
        exact Option.noConfusion hnone

theorem focused_requests_quiet (pages i : Nat) (surface : Canvas) (indices : List Int) :
    ∀ (r : Focused.Running), r.Quiet pages i surface →
      (indices.foldl (fun (running : Focused.Running) j => running.request 1 0 j) r).Quiet
        pages i surface := by
  induction indices with
  | nil => intro r h; exact h
  | cons j rest ih =>
    intro r h
    rw [List.foldl_cons]
    exact ih _ (focused_request_quiet r pages i surface 1 0 j h)

theorem focused_step_quiet (r : Focused.Running) (pages i : Nat) (surface : Canvas)
    (event : Focused.Event) (h : r.Quiet pages i surface) :
    (r.step event).Quiet pages i surface := by
  cases event with
  | redraw scale rotation index => exact focused_request_quiet r pages i surface _ _ _ h
  | drawDocument scale rotation => exact focused_request_quiet r pages i surface _ _ _ h
  | createCanvases fromPage pageCount =>
    by_cases h0 : r.state.pageContents.length = 0
    · simp only [Focused.Running.step, h0, if_true]
      exact h
    · simp only [Focused.Running.step, h0, if_false]
      exact focused_requests_quiet pages i surface _ r h
  | settle k fails =>
    cases hk : r.pending.get? k with
    | none =>
      simp only [Focused.Running.step, hk]
      exact h
    | some job =>
      simp only [Focused.Running.step, hk]
      obtain ⟨hlen, hcached, hpending⟩ := h
      have hmem : job ∈ r.pending := List.mem_iff_get?.mpr ⟨k, hk⟩
      obtain ⟨f1, _, _, s, hs⟩ := focused_redrawFinish_frame r.state job fails
      refine ⟨?_, ?_, ?_⟩
      · show (Focused.redrawFinish r.state job fails).1.pageContents.length = pages
        rw [f1]; exact hlen
      · show (Focused.redrawFinish r.state job fails).1.renderedPages.getD i none
          = some surface
        rw [hs, arrayAssign_getD]
        have hne : i ≠ job.index := fun e => hpending job hmem e.symm
        simp only [hne, if_false]
        exact hcached
      · intro other hother
        exact hpending other (List.mem_of_mem_eraseIdx hother)

theorem focused_events_quiet (pages i : Nat) (surface : Canvas) (events : List Focused.Event) :
    ∀ (r : Focused.Running), r.Quiet pages i surface →
      (events.foldl Focused.Running.step r).Quiet pages i surface := by
  induction events with
  | nil => intro r h; exact h
  | cons event rest ih =>
    intro r h
    rw [List.foldl_cons]
    exact ih _ (focused_step_quiet r pages i surface event h)

theorem focused_settle_quiet (r : Focused.Running) (k : Nat) (job : Focused.Job)
    (fails : Bool) (hjob : r.pending.get? k = some job)
    (halone : ∀ other ∈ r.pending.eraseIdx k, other.index ≠ job.index) :
    (r.step (Focused.Event.settle k fails)).state
        = (Focused.redrawFinish r.state job fails).1
    ∧ ∀ surface, (Focused.redrawFinish r.state job fails).1.renderedPages.getD job.index none
          = some surface →
        (r.step (Focused.Event.settle k fails)).Quiet r.state.pageContents.length job.index
          surface := by
  have hstep : r.step (Focused.Event.settle k fails)
      = { state := (Focused.redrawFinish r.state job fails).1,
          pending := r.pending.eraseIdx k } := by
    simp only [Focused.Running.step, hjob]
  rw [hstep]
  refine ⟨rfl, fun surface hs => ⟨?_, hs, halone⟩⟩
  exact congrArg List.length (focused_redrawFinish_frame r.state job fails).1

theorem focused_quiet_redraw (r : Focused.Running) (pages i : Nat) (surface : Canvas)
    (scale rotation : ℚ) (index : Int) (h : r.Quiet pages i surface) (hpages : pages ≠ 0)
    (hindex : clampIndex index pages = (i : Int)) :
    Focused.redrawStart r.state scale rotation index
        = ({ r.state with
              currPageIndex := (i : Int)
              canvas := (r.state.canvas.resize (surface.width * scale)
                  (surface.height * scale)).draw
                [CtxOp.scale scale scale, CtxOp.drawImage surface 0 0] },
            Focused.Started.done Completion.ok)
    ∧ (r.step (Focused.Event.redraw scale rotation index)).pending = r.pending := by
  obtain ⟨hlen, hcached, _⟩ := h
  have hne : r.state.pageContents.length ≠ 0 := by rw [hlen]; exact hpages
  have hc : arrayAt r.state.renderedPages (clampIndex index r.state.pageContents.length)
      = some surface := by
    rw [hlen, hindex]
    unfold arrayAt
    rw [if_neg (by omega)]
    exact hcached
  have hstart := focused_redrawStart_hit r.state scale rotation index surface hne hc
  rw [hlen, hindex] at hstart
  refine ⟨hstart, ?_⟩
  show (r.request scale rotation index).pending = r.pending
  unfold Focused.Running.request
  rw [hstart]

theorem focused_settled_surface_reused (r : Focused.Running) (k : Nat) (job : Focused.Job)
    (fails : Bool) (events : List Focused.Event) (scale rotation : ℚ) (index : Int)
    (surface : Canvas) (hjob : r.pending.get? k = some job)
    (halone : ∀ other ∈ r.pending.eraseIdx k, other.index ≠ job.index)
    (hpages : r.state.pageContents.length ≠ 0)
    (hindex : clampIndex index r.state.pageContents.length = (job.index : Int))
    (hsurface : (Focused.redrawFinish r.state job fails).1.renderedPages.getD job.index none
      = some surface) :
    arrayAt (r.step (Focused.Event.settle k fails)).state.renderedPages job.index
        = some surface
    ∧ arrayAt (events.foldl Focused.Running.step
          (r.step (Focused.Event.settle k fails))).state.renderedPages job.index
        = some surface
    ∧ (Focused.redrawStart (events.foldl Focused.Running.step
          (r.step (Focused.Event.settle k fails))).state scale rotation index).2
        = Focused.Started.done Completion.ok
    ∧ (Focused.redrawStart (events.foldl Focused.Running.step
          (r.step (Focused.Event.settle k fails))).state scale rotation index).1.canvas.ops
        = [CtxOp.scale scale scale, CtxOp.drawImage surface 0 0]
    ∧ (Focused.redrawStart (events.foldl Focused.Running.step
          (r.step (Focused.Event.settle k fails))).state scale rotation index).1.renderedPages
        = (events.foldl Focused.Running.step
            (r.step (Focused.Event.settle k fails))).state.renderedPages
    ∧ (Focused.redrawStart (events.foldl Focused.Running.step
          (r.step (Focused.Event.settle k fails))).state scale rotation
          index).1.html2canvasCalls
        = (events.foldl Focused.Running.step
            (r.step (Focused.Event.settle k fails))).state.html2canvasCalls
    ∧ ((events.foldl Focused.Running.step (r.step (Focused.Event.settle k fails))).step
          (Focused.Event.redraw scale rotation index)).pending
        = (events.foldl Focused.Running.step
            (r.step (Focused.Event.settle k fails))).pending := by
  obtain ⟨_, hquiet⟩ := focused_settle_quiet r k job fails hjob halone
  have hq1 := hquiet surface hsurface
  have hq2 := focused_events_quiet _ _ _ events _ hq1
  obtain ⟨hstart, hpending⟩ := focused_quiet_redraw _ _ _ _ scale rotation index hq2 hpages
    hindex
  refine ⟨?_, ?_, ?_, ?_, ?_, ?_, hpending⟩
  · rw [arrayAt_natCast]; exact hq1.2.1
  · rw [arrayAt_natCast]; exact hq2.2.1
  all_goals rw [hstart]
  simp [OutputCanvas.draw, OutputCanvas.resize]

/-- C8 (counterexample): redraw of page 0 is called twice before any rasterization settles.
When the first rasterization settles the draw of page 0 has completed and
renderedPages[0] holds its surface.  When the second one settles renderedPages[0] is
replaced by another surface, html2canvas has run twice, and a later redraw of page 0 draws
the second surface. -/
theorem overlapping_redraws_replace_cached_surface :
    Focused.twoRequests.pending.map (fun job => job.index) = [0, 0]
    ∧ (Focused.twoRequests.step (Focused.Event.settle 0 false)).state.renderedPages
      = [some { width := 816, height := 1056, source := Source.region [para 0 10] 0 }]
    ∧ (Focused.twoRequests.step (Focused.Event.settle 0 false)).state.canvas.images
      = [{ width := 816, height := 1056, source := Source.region [para 0 10] 0 }]
    ∧ ((Focused.twoRequests.step (Focused.Event.settle 0 false)).step
        (Focused.Event.settle 0 false)).state.renderedPages
      = [some { width := 816, height := 1056, source := Source.region [para 0 10] 1 }]
    ∧ ((Focused.twoRequests.step (Focused.Event.settle 0 false)).step
        (Focused.Event.settle 0 false)).state.html2canvasCalls = 2
    ∧ (Focused.redrawStart ((Focused.twoRequests.step (Focused.Event.settle 0 false)).step
        (Focused.Event.settle 0 false)).state 1 0 0).2 = Focused.Started.done Completion.ok
    ∧ (Focused.redrawStart ((Focused.twoRequests.step (Focused.Event.settle 0 false)).step
        (Focused.Event.settle 0 false)).state 1 0 0).1.canvas.images
      = [{ width := 816, height := 1056, source := Source.region [para 0 10] 1 }] := by
  decide

/-- C8 (amended): once a draw of page i has completed and no other rasterization of page i
is pending, the surface stored in renderedPages[i] stays the same through every later
request and every later settling, in any order; a later redraw of page i draws that
identical surface, leaves the cache as it is, calls onCompletion without an error and
starts no rasterization. -/
theorem cached_page_reused (r : Focused.Running) (k : Nat) (job : Focused.Job) (fails : Bool)
    (events : List Focused.Event) (scale rotation : ℚ) (index : Int)
    (hjob : r.pending.get? k = some job)
    (halone : ∀ other ∈ r.pending.eraseIdx k, other.index ≠ job.index)
    (hpages : r.state.pageContents.length ≠ 0)
    (hindex : clampIndex index r.state.pageContents.length = (job.index : Int)) :
    ∃ surface,
      arrayAt (r.step (Focused.Event.settle k fails)).state.renderedPages job.index
          = some surface
      ∧ arrayAt (events.foldl Focused.Running.step
            (r.step (Focused.Event.settle k fails))).state.renderedPages job.index
          = some surface
      ∧ (Focused.redrawStart (events.foldl Focused.Running.step
            (r.step (Focused.Event.settle k fails))).state scale rotation index).2
          = Focused.Started.done Completion.ok
      ∧ (Focused.redrawStart (events.foldl Focused.Running.step
            (r.step (Focused.Event.settle k fails))).state scale rotation index).1.canvas.ops
          = [CtxOp.scale scale scale, CtxOp.drawImage surface 0 0]
      ∧ (Focused.redrawStart (events.foldl Focused.Running.step
            (r.step (Focused.Event.settle k fails))).state scale rotation
            index).1.renderedPages
          = (events.foldl Focused.Running.step
              (r.step (Focused.Event.settle k fails))).state.renderedPages
      ∧ (Focused.redrawStart (events.foldl Focused.Running.step
            (r.step (Focused.Event.settle k fails))).state scale rotation
            index).1.html2canvasCalls
          = (events.foldl Focused.Running.step
              (r.step (Focused.Event.settle k fails))).state.html2canvasCalls
      ∧ ((events.foldl Focused.Running.step (r.step (Focused.Event.settle k fails))).step
            (Focused.Event.redraw scale rotation index)).pending
          = (events.foldl Focused.Running.step
              (r.step (Focused.Event.settle k fails))).pending := by
  obtain ⟨_, _, _, s, hs⟩ := focused_redrawFinish_frame r.state job fails
  have hsurface : (Focused.redrawFinish r.state job fails).1.renderedPages.getD job.index none
      = some s := by
    rw [hs, arrayAssign_getD]
    simp
  exact ⟨s, focused_settled_surface_reused r k job fails events scale rotation index s hjob
    halone hpages hindex hsurface⟩

/-- Witness for C8 (amended): two one-block pages; the draw of page 1 completes, then page 0
is requested twice (by redraw and by createCanvases) and both rasterizations settle, the
later one failing; page 1 is then drawn again with scale 2 and rotation 90. -/
theorem cached_page_reused_witness :
    (Focused.secondPageRequested.pending.get? 0
        = some { index := 1, content := [para 1 10], scale := 1, rotation := 0 }
      ∧ (∀ other ∈ Focused.secondPageRequested.pending.eraseIdx 0, other.index ≠ 1)
      ∧ Focused.secondPageRequested.state.pageContents.length ≠ 0
      ∧ clampIndex 1 Focused.secondPageRequested.state.pageContents.length = ((1 : Nat) : Int))
    ∧ ∃ surface,
      arrayAt (Focused.secondPageRequested.step
          (Focused.Event.settle 0 false)).state.renderedPages ((1 : Nat) : Int)
        = some surface :=
  ⟨⟨by decide, by decide, by decide, by decide⟩,
    (cached_page_reused Focused.secondPageRequested 0
      { index := 1, content := [para 1 10], scale := 1, rotation := 0 } false
      [Focused.Event.redraw 1 0 0, Focused.Event.createCanvases 0 2,
        Focused.Event.settle 1 false, Focused.Event.settle 0 true]
      2 90 1 (by decide) (by decide) (by decide) (by decide)).imp fun _ h => h.1⟩

/-! ## pagination-focused-docx-handler.js: a failed page -/

/-- C28 (counterexample): redraw of page 0 is called twice before any rasterization
settles.  The second rasterization fails and the placeholder is stored in renderedPages[0];
then the first one settles and replaces the placeholder, so a later redraw of page 0 draws
the rasterized page, not the placeholder. -/
theorem in_flight_rasterization_replaces_placeholder :
    Focused.twoRequests.pending.map (fun job => job.index) = [0, 0]
    ∧ (Focused.twoRequests.step (Focused.Event.settle 1 true)).state.renderedPages
      = [some { width := 816, height := 1056, source := Source.errorPage 0 }]
    ∧ ((Focused.twoRequests.step (Focused.Event.settle 1 true)).step
        (Focused.Event.settle 0 false)).state.renderedPages
      = [some { width := 816, height := 1056, source := Source.region [para 0 10] 1 }]
    ∧ (Focused.redrawStart ((Focused.twoRequests.step (Focused.Event.settle 1 true)).step
        (Focused.Event.settle 0 false)).state 1 0 0).2 = Focused.Started.done Completion.ok
    ∧ (Focused.redrawStart ((Focused.twoRequests.step (Focused.Event.settle 1 true)).step
        (Focused.Event.settle 0 false)).state 1 0 0).1.canvas.images
      = [{ width := 816, height := 1056, source := Source.region [para 0 10] 1 }] := by
  decide

/-- C28 (amended): when the rasterization of page i fails and no other rasterization of
page i is pending, the failing redraw reports the error and stores a placeholder of
DEFAULT_WIDTH x DEFAULT_HEIGHT in renderedPages[i]; the entry stays through every later
request and every later settling, in any order, and a later redraw of page i draws that
placeholder, calls onCompletion without an error and starts no rasterization. -/
theorem failed_page_placeholder_reused (r : Focused.Running) (k : Nat) (job : Focused.Job)
    (events : List Focused.Event) (scale rotation : ℚ) (index : Int)
    (hjob : r.pending.get? k = some job)
    (halone : ∀ other ∈ r.pending.eraseIdx k, other.index ≠ job.index)
    (hpages : r.state.pageContents.length ≠ 0)
    (hindex : clampIndex index r.state.pageContents.length = (job.index : Int)) :
    (Focused.redrawFinish r.state job true).2 = Completion.error "html2canvas failed"
    ∧ arrayAt (r.step (Focused.Event.settle k true)).state.renderedPages job.index
      = some { width := DEFAULT_WIDTH, height := DEFAULT_HEIGHT,
               source := Source.errorPage job.index }
    ∧ arrayAt (events.foldl Focused.Running.step
          (r.step (Focused.Event.settle k true))).state.renderedPages job.index
      = some { width := DEFAULT_WIDTH, height := DEFAULT_HEIGHT,
               source := Source.errorPage job.index }
    ∧ (Focused.redrawStart (events.foldl Focused.Running.step
          (r.step (Focused.Event.settle k true))).state scale rotation index).2
      = Focused.Started.done Completion.ok
    ∧ (Focused.redrawStart (events.foldl Focused.Running.step
          (r.step (Focused.Event.settle k true))).state scale rotation index).1.canvas.ops
      = [CtxOp.scale scale scale,
         CtxOp.drawImage { width := DEFAULT_WIDTH, height := DEFAULT_HEIGHT,
                           source := Source.errorPage job.index } 0 0]
    ∧ (Focused.redrawStart (events.foldl Focused.Running.step
          (r.step (Focused.Event.settle k true))).state scale rotation
          index).1.html2canvasCalls
      = (events.foldl Focused.Running.step
          (r.step (Focused.Event.settle k true))).state.html2canvasCalls
    ∧ ((events.foldl Focused.Running.step (r.step (Focused.Event.settle k true))).step
          (Focused.Event.redraw scale rotation index)).pending
      = (events.foldl Focused.Running.step
          (r.step (Focused.Event.settle k true))).pending := by
  have hsurface : (Focused.redrawFinish r.state job true).1.renderedPages.getD job.index none
      = some { width := DEFAULT_WIDTH, height := DEFAULT_HEIGHT,
               source := Source.errorPage job.index } := by
    simp only [Focused.redrawFinish, if_true]
    rw [arrayAssign_getD]
    simp
  have h := focused_settled_surface_reused r k job true events scale rotation index _ hjob
    halone hpages hindex hsurface
  refine ⟨?_, h.1, h.2.1, h.2.2.1, h.2.2.2.1, h.2.2.2.2.2.1, h.2.2.2.2.2.2⟩
  simp [Focused.redrawFinish]

/-- Witness for C28 (amended): the only pending rasterization, of page 1 of a two-page
document, fails; page 0 is then exported and page 1 is drawn again. -/
theorem failed_page_placeholder_reused_witness :
    (Focused.secondPageRequested.pending.get? 0
        = some { index := 1, content := [para 1 10], scale := 1, rotation := 0 }
      ∧ (∀ other ∈ Focused.secondPageRequested.pending.eraseIdx 0, other.index ≠ 1)
      ∧ Focused.secondPageRequested.state.pageContents.length ≠ 0
      ∧ clampIndex 1 Focused.secondPageRequested.state.pageContents.length = ((1 : Nat) : Int))
    ∧ (Focused.redrawStart ([Focused.Event.createCanvases 0 1,
          Focused.Event.settle 0 false].foldl Focused.Running.step
          (Focused.secondPageRequested.step (Focused.Event.settle 0 true))).state 2 90 1).2
      = Focused.Started.done Completion.ok :=
  ⟨⟨by decide, by decide, by decide, by decide⟩,
    (failed_page_placeholder_reused Focused.secondPageRequested 0
      { index := 1, content := [para 1 10], scale := 1, rotation := 0 }
      [Focused.Event.createCanvases 0 1, Focused.Event.settle 0 false] 2 90 1
      (by decide) (by decide) (by decide) (by decide)).2.2.2.1⟩

/-! ## pagination-focused-docx-handler.js: the active page index under overlapping requests -/

theorem focused_step_induct (Q : Focused.State → Prop)
    (hstart : ∀ s scale rotation i, Q s → Q (Focused.redrawStart s scale rotation i).1)
    (hfinish : ∀ s job f, Q s → Q (Focused.redrawFinish s job f).1)
    (r : Focused.Running) (event : Focused.Event) (h : Q r.state) :
    Q (r.step event).state := by
  have hrequest : ∀ (running : Focused.Running) scale rotation i, Q running.state →
      Q (running.request scale rotation i).state := by
    intro running scale rotation i hq
    rw [(focused_request_frame running scale rotation i).1]
    exact hstart _ _ _ _ hq
  cases event with
  | redraw scale rotation index => exact hrequest r _ _ _ h
  | drawDocument scale rotation => exact hrequest r _ _ _ h
  | createCanvases fromPage pageCount =>
    by_cases h0 : r.state.pageContents.length = 0
    · simp only [Focused.Running.step, h0, if_true]
      exact h
    · simp only [Focused.Running.step, h0, if_false]
      generalize loopIndices fromPage
        (min ((r.state.pageContents.length : Int) - 1) (fromPage + pageCount - 1)) = indices
      clear h0
      induction indices generalizing r with
      | nil => exact h
      | cons i rest ih =>
        rw [List.foldl_cons]
        exact ih _ (hrequest r 1 0 i h)
  | settle k fails =>
    cases hk : r.pending.get? k with
    | none =>
      simp only [Focused.Running.step, hk]
      exact h
    | some job =>
      simp only [Focused.Running.step, hk]
      exact hfinish _ _ _ h

/-- The active page index stays within [0, pageCount() - 1] through requests and settlings
of pagination-focused-docx-handler.js in any order. -/
theorem focused_events_inRange (events : List Focused.Event) :
    ∀ (r : Focused.Running), r.state.indexInRange →
      (events.foldl Focused.Running.step r).state.indexInRange := by
  induction events with
  | nil => intro r h; exact h
  | cons event rest ih =>
    intro r h
    rw [List.foldl_cons]
    apply ih
    apply focused_step_induct Focused.State.indexInRange _ _ r event h
    · intro s scale rotation i hs
      obtain ⟨f1, _, _, _, f5, f6⟩ := focused_redrawStart_frame s scale rotation i
      by_cases hlen : s.pageContents.length = 0
      · unfold Focused.State.indexInRange Focused.State.pageCount at hs ⊢
        rw [f1, f5 hlen]
        exact hs
      · have h0 := clampIndex_nonneg i s.pageContents.length
        have h1 := clampIndex_le i s.pageContents.length hlen
        unfold Focused.State.indexInRange Focused.State.pageCount
        rw [f1, f6 hlen]
        simp only [hlen, if_false]
        exact ⟨h0, h1⟩
    · intro s job f hs
      obtain ⟨f1, f2, _, _⟩ := focused_redrawFinish_frame s job f
      unfold Focused.State.indexInRange Focused.State.pageCount at hs ⊢
      rw [f1, f2]
      exact hs

end DocxHandler
